import Mathlib

/-!
# Column-file segment writer of palo: a verification development

Shallow embedding of
* `be/src/olap/column_file/stream_name.cpp` (`StreamName::operator<`, `operator==`),
* `be/src/olap/column_file/run_length_byte_reader.h` (the run-length byte codec),
* `be/src/olap/column_file/segment_writer.cpp` (`SegmentWriter`),
* `be/src/http/download_action.cpp` (`DownloadAction::get_file_extension`),
* `be/src/rpc/timer.h` (`Timer`),
followed by the theorems about them.
-/

namespace palo
namespace column_file

/-! ## StreamName -/

/-- Modelled from the spec: the enumerator `StreamInfoMessage::ROW_INDEX` of the
protobuf-generated enumeration `StreamInfoMessage::Kind`, whose declaration is not
part of the sources.  A kind is represented by the numeric value of its enumerator
(a natural number), which is what the C++ comparison `<` on the enumeration
compares, so every other enumerator, whatever its value, is covered.  `ROW_INDEX` is
the first enumerator (value 0) and thereby the least kind, as the ordering of spec 3
(a ROW_INDEX stream sorts before all other streams) needs it to be. -/
def ROW_INDEX : Nat := 0

/-- Modelled from the spec: the enumerator `StreamInfoMessage::BLOOM_FILTER`, whose
declaration is not part of the sources (value 7 in the schema of the header
message; only its being different from `ROW_INDEX` is ever used). -/
def BLOOM_FILTER : Nat := 7

/-- Class `StreamName`: the pair `(_unique_column_id, _kind)` (stream_name.cpp:21-23). -/
structure StreamName where
  /-- Field `_unique_column_id` (a `uint32_t`; it is only ever compared). -/
  unique_column_id : Nat
  /-- Field `_kind`: the numeric value of a `StreamInfoMessage::Kind` enumerator. -/
  kind : Nat
  deriving DecidableEq, Repr

namespace StreamName

/-- Operator `StreamName::operator<` (stream_name.cpp:25-41). -/
def lt (a another : StreamName) : Bool :=
  if a.kind = ROW_INDEX ∨ another.kind = ROW_INDEX then
    -- if both are indexes
    if a.kind = another.kind then
      decide (a.unique_column_id < another.unique_column_id)
    else
      decide (a.kind < another.kind)
  else
    if a.unique_column_id ≠ another.unique_column_id then
      decide (a.unique_column_id < another.unique_column_id)
    else
      decide (a.kind < another.kind)

/-- Operator `StreamName::operator==` (stream_name.cpp:43-46). -/
def eq (a another : StreamName) : Bool :=
  decide (a.unique_column_id = another.unique_column_id) && decide (a.kind = another.kind)

end StreamName

/-! ## Status codes -/

/-- The status codes `OLAPStatus` of `olap/olap_define.h` that the embedded code names;
the header is not part of the sources, so every other code is kept as
`OLAP_ERR_OTHER` with its number. -/
inductive OLAPStatus where
  | OLAP_SUCCESS
  | OLAP_ERR_MALLOC_ERROR
  | OLAP_ERR_IO_ERROR
  | OLAP_ERR_DATA_EOF
  | OLAP_ERR_OTHER (code : Int)
  deriving DecidableEq, Repr

open OLAPStatus

deriving instance DecidableEq for Except

/-! ## Run-length byte codec -/

/-- A byte (`char`), by its unsigned value. -/
abbrev Byte := Fin 256

/-- The value of a byte read as a signed `char`. -/
def Byte.signed (b : Byte) : Int :=
  if b.val < 128 then (b.val : Int) else (b.val : Int) - 256

/-- The C conversion of an integer to `char`. -/
def Byte.ofInt (i : Int) : Byte := ⟨(i % 256).toNat, by omega⟩

/-- Modelled from the spec: `RunLengthByteWriter::MIN_REPEAT_SIZE`; the writer is not
part of the sources.  A run covers at least 3 bytes (spec 4.1). -/
def MIN_REPEAT_SIZE : Nat := 3

/-- Modelled from the spec: `RunLengthByteWriter::MAX_LITERAL_SIZE`, the size of the
reader's `_literals` array; a literal block holds at most 128 bytes (spec 4.1). -/
def MAX_LITERAL_SIZE : Nat := 128

/-- Modelled from the spec: `RunLengthByteWriter::MAX_REPEAT_SIZE`; a run covers at
most 130 bytes (spec 4.1: control `127` means `127 + 3` repetitions). -/
def MAX_REPEAT_SIZE : Nat := 127 + MIN_REPEAT_SIZE

/-- Modelled from the spec: the state of `RunLengthByteWriter`, which is not part of
the sources: the bytes already emitted to the output stream, the buffer `literals`
with its fill count, whether the buffer stands for a run, and the length of the run
of equal bytes at the end of the buffer. -/
structure RunLengthByteWriter where
  output : List Byte
  literals : List Byte
  num_literals : Nat
  repeat_ : Bool
  tail_run_length : Nat
  deriving DecidableEq, Repr

namespace RunLengthByteWriter

/-- Modelled from the spec: a fresh writer on an empty output stream. -/
def init : RunLengthByteWriter :=
  { output := [], literals := [], num_literals := 0, repeat_ := false, tail_run_length := 0 }

/-- Modelled from the spec: emit the buffered bytes as one record (spec 4.1): a run is
the control byte `count - 3` followed by the repeated byte, a literal block is the
control byte `-count` followed by the `count` bytes themselves. -/
def write_values (w : RunLengthByteWriter) : RunLengthByteWriter :=
  if w.num_literals ≠ 0 then
    if w.repeat_ then
      { output := w.output ++
          (Byte.ofInt ((w.num_literals : Int) - (MIN_REPEAT_SIZE : Int)) :: w.literals.take 1),
        literals := w.literals, num_literals := 0, repeat_ := false, tail_run_length := 0 }
    else
      { output := w.output ++
          (Byte.ofInt (-(w.num_literals : Int)) :: w.literals.take w.num_literals),
        literals := w.literals, num_literals := 0, repeat_ := false, tail_run_length := 0 }
  else w

/-- Modelled from the spec: append one byte (spec 4.1, encoder contract): the third of
three consecutive equal bytes turns the buffer into a run (after flushing the literals
before it), a run is flushed at 130 bytes or at the first different byte, and literals
are flushed as a block at 128 bytes. -/
def write (w : RunLengthByteWriter) (value : Byte) : RunLengthByteWriter :=
  if w.num_literals = 0 then
    { w with literals := [value], num_literals := 1, tail_run_length := 1 }
  else if w.repeat_ then
    if some value = w.literals.head? then
      let w1 := { w with num_literals := w.num_literals + 1 }
      if w1.num_literals = MAX_REPEAT_SIZE then w1.write_values else w1
    else
      let w1 := w.write_values
      { w1 with literals := [value], num_literals := 1, tail_run_length := 1 }
  else
    let tail := if some value = w.literals[w.num_literals - 1]?
      then w.tail_run_length + 1 else 1
    if tail = MIN_REPEAT_SIZE then
      if w.num_literals + 1 = MIN_REPEAT_SIZE then
        { w with repeat_ := true, num_literals := w.num_literals + 1, tail_run_length := tail }
      else
        let w1 := { w with num_literals := w.num_literals - (MIN_REPEAT_SIZE - 1),
                           tail_run_length := tail }.write_values
        { w1 with literals := [value], repeat_ := true, num_literals := MIN_REPEAT_SIZE }
    else
      let w1 := { w with literals := w.literals.take w.num_literals ++ [value],
                         num_literals := w.num_literals + 1, tail_run_length := tail }
      if w1.num_literals = MAX_LITERAL_SIZE then w1.write_values else w1

/-- Modelled from the spec: finalize the stream; what is buffered is emitted, also
when the stream ends on a record boundary (then nothing is buffered). -/
def flush (w : RunLengthByteWriter) : RunLengthByteWriter := w.write_values

end RunLengthByteWriter

/-- Modelled from the spec: encoding a byte sequence with the run-length byte codec:
every byte is written in order to a fresh writer, which is then flushed. -/
def rle_encode (bytes : List Byte) : List Byte :=
  (bytes.foldl RunLengthByteWriter.write RunLengthByteWriter.init).flush.output

/-- State of `RunLengthByteReader` (run_length_byte_reader.h:45-49): the input stream
`_input` (the bytes not yet read), `_literals`, `_num_literals`, `_used`, `_repeat`. -/
structure RunLengthByteReader where
  input : List Byte
  literals : List Byte
  num_literals : Nat
  used : Nat
  repeat_ : Bool
  deriving DecidableEq, Repr

namespace RunLengthByteReader

/-- Modelled from the spec: the constructor `RunLengthByteReader(input)`; the
implementation file is not part of the sources.  Nothing is buffered. -/
def init (input : List Byte) : RunLengthByteReader :=
  { input := input, literals := [], num_literals := 0, used := 0, repeat_ := false }

/-- Modelled from the spec: `_read_values` (implementation not part of the sources):
read one record (run_length_byte_reader.h:29-31): a control byte 0..127 announces the
next byte repeated control+3 times, a control byte -1..-128 announces that many literal
bytes.  A stream that ends inside a record is an EOF error (spec 7). -/
def read_values (r : RunLengthByteReader) : Except OLAPStatus RunLengthByteReader :=
  match r.input with
  | [] => .error OLAP_ERR_DATA_EOF
  | control :: rest =>
    if 0 ≤ control.signed then
      match rest with
      | [] => .error OLAP_ERR_DATA_EOF
      | v :: rest2 =>
        .ok { input := rest2, literals := [v],
              num_literals := control.signed.toNat + MIN_REPEAT_SIZE, used := 0, repeat_ := true }
    else
      let n := (-control.signed).toNat
      if rest.length < n then .error OLAP_ERR_DATA_EOF
      else
        .ok { input := rest.drop n, literals := rest.take n,
              num_literals := n, used := 0, repeat_ := false }

/-- Modelled from the spec: `has_next` (run_length_byte_reader.h:36): whether more
values remain, in the buffer or in the input stream; nothing is consumed. -/
def has_next (r : RunLengthByteReader) : Bool :=
  decide (r.used ≠ r.num_literals) || !r.input.isEmpty

/-- Modelled from the spec: `next` (run_length_byte_reader.h:37-38): the next decoded
byte, after reading a new record when the buffer is used up (an exhausted stream is
then `OLAP_ERR_DATA_EOF`); the byte is `_literals[0]` in a run and `_literals[_used]`
in a literal block. -/
def next (r : RunLengthByteReader) : Except OLAPStatus (Byte × RunLengthByteReader) :=
  match (if r.used = r.num_literals then r.read_values else .ok r) with
  | .error e => .error e
  | .ok r1 =>
    .ok (if r1.repeat_ then r1.literals.headD 0 else r1.literals.getD r1.used 0,
         { r1 with used := r1.used + 1 })

/-- The decoding loop `while (reader.has_next()) { reader.next(&v); ... }`, with the
number of iterations bounded by `fuel`; running out of fuel is reported as `none`. -/
def read_all : Nat → RunLengthByteReader → Option (Except OLAPStatus (List Byte))
  | 0, _ => none
  | fuel + 1, r =>
    if r.has_next then
      match r.next with
      | .error e => some (.error e)
      | .ok (v, r1) =>
        match read_all fuel r1 with
        | none => none
        | some (.error e) => some (.error e)
        | some (.ok vs) => some (.ok (v :: vs))
    else some (.ok [])

end RunLengthByteReader

/-- Decoding a stream with `RunLengthByteReader`: `next` is repeated until `has_next`
is false.  Every record of two or more stream bytes yields at most 130 values, so
`130 * length + 1` iterations always reach the end of the loop. -/
def rle_decode (stream : List Byte) : Option (Except OLAPStatus (List Byte)) :=
  RunLengthByteReader.read_all (130 * stream.length + 1) (RunLengthByteReader.init stream)

/-- One record of an encoded stream: a run of `n` copies of a byte, or a block of
literal bytes. -/
inductive RleRecord where
  | run (n : Nat) (v : Byte)
  | lits (vs : List Byte)
  deriving DecidableEq, Repr

namespace RleRecord

/-- The records the format can express: runs of 3 to 130, blocks of 1 to 128 bytes. -/
def valid : RleRecord → Prop
  | run n _ => 3 ≤ n ∧ n ≤ 130
  | lits vs => 1 ≤ vs.length ∧ vs.length ≤ 128

/-- The stream bytes of a record: control byte, then payload. -/
def bytes : RleRecord → List Byte
  | run n v => [Byte.ofInt ((n : Int) - 3), v]
  | lits vs => Byte.ofInt (-(vs.length : Int)) :: vs

/-- The values a record stands for. -/
def values : RleRecord → List Byte
  | run n v => List.replicate n v
  | lits vs => vs

end RleRecord

/-- The stream bytes of a sequence of records. -/
def rle_serialize (rs : List RleRecord) : List Byte := (rs.map RleRecord.bytes).flatten

/-- The values a sequence of records stands for. -/
def rle_expand (rs : List RleRecord) : List Byte := (rs.map RleRecord.values).flatten

/-- Put decoded values in front of the outcome of the rest of the decoding loop. -/
def rle_prepend (vs : List Byte) :
    Option (Except OLAPStatus (List Byte)) → Option (Except OLAPStatus (List Byte))
  | none => none
  | some (.error e) => some (.error e)
  | some (.ok ws) => some (.ok (vs ++ ws))

/-- The values still buffered in a writer. -/
def RunLengthByteWriter.pending (w : RunLengthByteWriter) : List Byte :=
  if w.repeat_ then List.replicate w.num_literals (w.literals.headD 0)
  else w.literals.take w.num_literals

/-- The invariant of the writer after the bytes `consumed` have been written: what was
emitted is a sequence of valid records, these records followed by the buffered values
are the bytes written so far, a buffered run has 3 to 129 bytes, buffered literals are
at most 127, and a tail run of length 2 means that the last two literals are equal. -/
def RunLengthByteWriter.Inv (w : RunLengthByteWriter) (consumed : List Byte) : Prop :=
  (∃ rs : List RleRecord, (∀ rec ∈ rs, rec.valid) ∧ w.output = rle_serialize rs ∧
    rle_expand rs ++ w.pending = consumed) ∧
  (w.repeat_ = true → 3 ≤ w.num_literals ∧ w.num_literals < 130 ∧ w.literals ≠ []) ∧
  (w.repeat_ = false → w.num_literals < 128 ∧ w.num_literals ≤ w.literals.length ∧
    (w.tail_run_length = 2 → 2 ≤ w.num_literals ∧
      w.literals[w.num_literals - 2]? = w.literals[w.num_literals - 1]?))

/-! ## SegmentWriter -/

/-- The stream map `std::map<StreamName, OutStream*>` returned by
`OutStreamFactory::streams()`: its keys in iteration order, which for `std::map` is the
ascending order of `StreamName::operator<`, and the stream each key points to. -/
structure StreamMap (S : Type) where
  names : List StreamName
  ordered : names.Pairwise (fun a b => a.lt b = true)
  store : StreamName → S

/-- One entry of the header's stream-info list (`StreamInfoMessage`), with the three
fields `_make_file_header` sets (segment_writer.cpp:188-191). -/
structure StreamInfoMessage where
  length : Nat
  column_unique_id : Nat
  kind : Nat
  deriving DecidableEq, Repr

/-- The header message `ColumnDataHeaderMessage`, with the fields that
segment_writer.cpp sets; `column` stands for the per-column part that
`ColumnWriter::finalize` fills (segment_writer.cpp:157-162).  An optional field that
was never set is `none`. -/
structure ColumnDataHeaderMessage (C : Type) where
  number_of_rows : Option Nat
  compress_kind : Option Nat
  stream_buffer_size : Option Nat
  magic_string : Option String
  version : Option Nat
  num_rows_per_block : Option Nat
  bf_hash_function_num : Option Nat
  bf_bit_num : Option Nat
  column : List C
  stream_info : List StreamInfoMessage
  index_length : Option Nat
  data_length : Option Nat

/-- A header message on which nothing has been set. -/
def ColumnDataHeaderMessage.empty (C : Type) : ColumnDataHeaderMessage C :=
  { number_of_rows := none, compress_kind := none, stream_buffer_size := none,
    magic_string := none, version := none, num_rows_per_block := none,
    bf_hash_function_num := none, bf_bit_num := none, column := [], stream_info := [],
    index_length := none, data_length := none }

/-- Class `FileHeader<ColumnDataHeaderMessage>`: the message with the file length and the
checksum that `finalize` sets (segment_writer.cpp:271-272). -/
structure FileHeader (C : Type) where
  message : ColumnDataHeaderMessage C
  file_length : Nat
  checksum : Nat

/-- The collaborators of `SegmentWriter` whose code is not part of the sources, taken
as parameters: the column writers (`ColumnWriter`), the output streams (`OutStream`),
the file handle (`FileHandler`, which stands for the handle together with the file
system behind it), the serialisation of `FileHeader`, and the constant `CRC32_INIT`.
A column writer holds pointers into the stream factory, so each of its operations may
change the streams.  Every operation is an arbitrary function of the state it can
reach. -/
structure Collaborators where
  ColumnWriter : Type
  OutStream : Type
  FileHandler : Type
  RowCursor : Type
  ColumnMessage : Type
  /-- Method `ColumnWriter::write(row_cursor)`. -/
  cw_write : ColumnWriter → RowCursor → StreamMap OutStream →
    OLAPStatus × ColumnWriter × StreamMap OutStream
  /-- Method `ColumnWriter::create_row_index_entry()`. -/
  cw_create_row_index_entry : ColumnWriter → StreamMap OutStream →
    OLAPStatus × ColumnWriter × StreamMap OutStream
  /-- Method `ColumnWriter::finalize(file_header)`; it sets the per-column part of the header. -/
  cw_finalize : ColumnWriter → List ColumnMessage × StreamMap OutStream →
    OLAPStatus × ColumnWriter × (List ColumnMessage × StreamMap OutStream)
  /-- Method `ColumnWriter::get_bloom_filter_info(&has_bf_column, &hash_function_num, &bit_num)`:
  the three variables before and after the call. -/
  cw_get_bloom_filter_info : ColumnWriter → Bool × Nat × Nat → Bool × Nat × Nat
  /-- Method `ColumnWriter::estimate_buffered_memory()`. -/
  cw_estimate_buffered_memory : ColumnWriter → Nat
  /-- Method `OutStream::is_suppressed()`. -/
  is_suppressed : OutStream → Bool
  /-- Method `OutStream::flush()`. -/
  flush : OutStream → OLAPStatus × OutStream
  /-- Method `OutStream::get_stream_length()`. -/
  get_stream_length : OutStream → Nat
  /-- Method `OutStream::get_total_buffer_size()`. -/
  get_total_buffer_size : OutStream → Nat
  /-- Method `OutStream::crc32(checksum)`. -/
  crc32 : OutStream → Nat → Nat
  /-- Method `OutStream::write_to_file(&file_handle, write_mbytes_per_sec)`. -/
  write_to_file : OutStream → FileHandler → Nat → OLAPStatus × FileHandler
  /-- The constant `CRC32_INIT`. -/
  CRC32_INIT : Nat
  /-- Method `FileHandler::open_with_mode(file_name, O_CREAT | O_EXCL | O_WRONLY, S_IRUSR | S_IWUSR)`. -/
  open_with_mode : FileHandler → String → OLAPStatus × FileHandler
  /-- Method `FileHandler::seek(offset, SEEK_SET)`; the result is the new offset or -1. -/
  seek : FileHandler → Nat → Int × FileHandler
  /-- Method `FileHandler::tell()`. -/
  tell : FileHandler → Nat
  /-- Method `FileHandler::close()`. -/
  close : FileHandler → OLAPStatus × FileHandler
  /-- Method `FileHeader::prepare(&file_handle)`. -/
  header_prepare : FileHeader ColumnMessage → FileHandler → OLAPStatus × FileHandler
  /-- Method `FileHeader::size()`. -/
  header_size : FileHeader ColumnMessage → Nat
  /-- Method `FileHeader::serialize(&file_handle)`. -/
  header_serialize : FileHeader ColumnMessage → FileHandler → OLAPStatus × FileHandler

/-- The calls that `SegmentWriter` makes on its collaborators, recorded in call order
with the status each call returned.  A column writer is named by its position in
`_root_writers`, a stream by its key in the stream map. -/
inductive Event where
  | cw_write (i : Nat) (res : OLAPStatus)
  | cw_create_row_index_entry (i : Nat) (res : OLAPStatus)
  | cw_finalize (i : Nat) (res : OLAPStatus)
  | stream_flush (name : StreamName) (res : OLAPStatus)
  | stream_crc32 (name : StreamName)
  | stream_write_to_file (name : StreamName) (res : OLAPStatus)
  | file_open (res : OLAPStatus)
  | header_prepare (res : OLAPStatus)
  | file_seek (offset : Nat) (ret : Int)
  | file_tell (offset : Nat)
  | header_serialize (res : OLAPStatus)
  | file_close (res : OLAPStatus)
  deriving DecidableEq, Repr

/-- Whether a recorded call is a call of a column writer that returned a failure. -/
def Event.cw_failed : Event → Bool
  | Event.cw_write _ res => decide (res ≠ OLAP_SUCCESS)
  | Event.cw_create_row_index_entry _ res => decide (res ≠ OLAP_SUCCESS)
  | Event.cw_finalize _ res => decide (res ≠ OLAP_SUCCESS)
  | _ => false

/-- The state of a `SegmentWriter` (constructor, segment_writer.cpp:27-37): the file
name, what it reads from `_table` (`num_rows_per_row_block()`, `compress_kind()`), the
stream buffer size, the throughput cap, the column writers `_root_writers`, the
streams of `_stream_factory`, and the counters `_row_count`, `_row_in_block` and
`_block_count`.  The widths of the counters are declared in segment_writer.h, which is
not part of the sources; they are natural numbers here. -/
structure SegmentWriter (c : Collaborators) where
  file_name : String
  num_rows_per_row_block : Nat
  compress_kind : Nat
  stream_buffer_size : Nat
  write_mbytes_per_sec : Nat
  root_writers : List c.ColumnWriter
  streams : StreamMap c.OutStream
  row_count : Nat
  row_in_block : Nat
  block_count : Nat

/-- What a loop over `_root_writers` leaves behind: whether its body executed
`return res`, the value of `res`, the column writers, the state the calls share, and
the calls made. -/
structure WriterLoop (W X : Type) where
  returned : Bool
  res : OLAPStatus
  writers : List W
  ctx : X
  trace : List Event

/-- The loop `for (it = _root_writers.begin(); it != _root_writers.end(); ++it)
{ res = (*it)->call(...); if (OLAP_SUCCESS != res) return res; }`
(segment_writer.cpp:100-108, 155-168, 294-302), from position `i` on; `res` is the
value the variable has when the loop is entered. -/
def for_each_root_writer {W X : Type} (call : W → X → OLAPStatus × W × X)
    (ev : Nat → OLAPStatus → Event) :
    Nat → List W → X → OLAPStatus → WriterLoop W X
  | _, [], x, res => { returned := false, res := res, writers := [], ctx := x, trace := [] }
  | i, w :: ws, x, _ =>
    match call w x with
    | (r, w1, x1) =>
      if r ≠ OLAP_SUCCESS then
        { returned := true, res := r, writers := w1 :: ws, ctx := x1, trace := [ev i r] }
      else
        let out := for_each_root_writer call ev (i + 1) ws x1 r
        { out with writers := w1 :: out.writers, trace := ev i r :: out.trace }

/-- What a call of a `SegmentWriter` method leaves behind: the status returned, the
new state, and the calls made on the collaborators. -/
structure Outcome (c : Collaborators) where
  res : OLAPStatus
  sw : SegmentWriter c
  trace : List Event

namespace SegmentWriter

variable {c : Collaborators}

/-- Method `SegmentWriter::create_row_index_entry` (segment_writer.cpp:291-309). -/
def create_row_index_entry (sw : SegmentWriter c) : Outcome c :=
  let l := for_each_root_writer c.cw_create_row_index_entry Event.cw_create_row_index_entry
    0 sw.root_writers sw.streams OLAP_SUCCESS
  let sw1 := { sw with root_writers := l.writers, streams := l.ctx }
  if l.returned then { res := l.res, sw := sw1, trace := l.trace }
  else
    { res := l.res,
      sw := { sw1 with block_count := sw1.block_count + 1, row_in_block := 0 },
      trace := l.trace }

/-- Method `SegmentWriter::write` (segment_writer.cpp:87-113). -/
def write (sw : SegmentWriter c) (row_cursor : c.RowCursor) : Outcome c :=
  let o : Outcome c :=
    if sw.row_in_block = sw.num_rows_per_row_block then
      -- a failure is logged and `res` keeps it (segment_writer.cpp:93-97)
      sw.create_row_index_entry
    else { res := OLAP_SUCCESS, sw := sw, trace := [] }
  let l := for_each_root_writer (fun w x => c.cw_write w row_cursor x) Event.cw_write
    0 o.sw.root_writers o.sw.streams o.res
  let sw1 := { o.sw with root_writers := l.writers, streams := l.ctx }
  if l.returned then { res := l.res, sw := sw1, trace := o.trace ++ l.trace }
  else
    { res := l.res,
      sw := { sw1 with row_count := sw1.row_count + 1, row_in_block := sw1.row_in_block + 1 },
      trace := o.trace ++ l.trace }

/-- A caller writing the rows one after the other; the statuses are not looked at. -/
def write_all (sw : SegmentWriter c) (rows : List c.RowCursor) : SegmentWriter c :=
  rows.foldl (fun s row => (s.write row).sw) sw

/-- The calls made while the rows are written one after the other. -/
def write_all_trace (sw : SegmentWriter c) : List c.RowCursor → List Event
  | [] => []
  | row :: rows => (sw.write row).trace ++ write_all_trace (sw.write row).sw rows

/-- Method `SegmentWriter::estimate_segment_size` (segment_writer.cpp:115-129); the result is
a `uint64_t`. -/
def estimate_segment_size (sw : SegmentWriter c) : Nat :=
  let result := sw.streams.names.foldl
    (fun acc name => (acc + c.get_total_buffer_size (sw.streams.store name)) % 2 ^ 64) 0
  sw.root_writers.foldl
    (fun acc w => (acc + c.cw_estimate_buffered_memory w) % 2 ^ 64) result

/-- The loop of `_make_file_header` that asks the column writers for their bloom filter
parameters and stops at the first that reports one (segment_writer.cpp:142-153). -/
def bloom_filter_loop (c : Collaborators) :
    List c.ColumnWriter → Bool × Nat × Nat → ColumnDataHeaderMessage c.ColumnMessage →
      ColumnDataHeaderMessage c.ColumnMessage
  | [], _, file_header => file_header
  | w :: ws, vars, file_header =>
    match c.cw_get_bloom_filter_info w vars with
    | (has_bf_column, bf_hash_function_num, bf_bit_num) =>
      if has_bf_column then
        { file_header with bf_hash_function_num := some bf_hash_function_num,
                           bf_bit_num := some bf_bit_num }
      else bloom_filter_loop c ws (has_bf_column, bf_hash_function_num, bf_bit_num) file_header

/-- What the loop of `_make_file_header` over the streams leaves behind. -/
structure StreamInfoLoop (c : Collaborators) where
  returned : Bool
  res : OLAPStatus
  store : StreamName → c.OutStream
  stream_info : List StreamInfoMessage
  index_length : Nat
  data_length : Nat
  trace : List Event

/-- The loop of `_make_file_header` over `_stream_factory->streams()`
(segment_writer.cpp:173-203): a stream that is not suppressed is flushed and gets a
stream-info entry, and its length is added to `index_length` or `data_length`
(both `uint64_t`); a suppressed stream is skipped. -/
def stream_info_loop (c : Collaborators) :
    List StreamName → (StreamName → c.OutStream) → List StreamInfoMessage → Nat → Nat →
      OLAPStatus → StreamInfoLoop c
  | [], store, infos, index_length, data_length, res =>
    { returned := false, res := res, store := store, stream_info := infos,
      index_length := index_length, data_length := data_length, trace := [] }
  | name :: rest, store, infos, index_length, data_length, res =>
    if !c.is_suppressed (store name) then
      match c.flush (store name) with
      | (r, stream) =>
        let store1 := Function.update store name stream
        if r ≠ OLAP_SUCCESS then
          { returned := true, res := r, store := store1, stream_info := infos,
            index_length := index_length, data_length := data_length,
            trace := [Event.stream_flush name r] }
        else
          let infos1 := infos ++
            [{ length := c.get_stream_length stream,
               column_unique_id := name.unique_column_id, kind := name.kind }]
          let out :=
            if name.kind = ROW_INDEX ∨ name.kind = BLOOM_FILTER then
              stream_info_loop c rest store1 infos1
                ((index_length + c.get_stream_length stream) % 2 ^ 64) data_length r
            else
              stream_info_loop c rest store1 infos1
                index_length ((data_length + c.get_stream_length stream) % 2 ^ 64) r
          { out with trace := Event.stream_flush name r :: out.trace }
    else
      stream_info_loop c rest store infos index_length data_length res

/-- What `_make_file_header` leaves behind: the status, the header message, the new
state and the calls made. -/
structure HeaderOutcome (c : Collaborators) where
  res : OLAPStatus
  file_header : ColumnDataHeaderMessage c.ColumnMessage
  sw : SegmentWriter c
  trace : List Event

/-- The first part of `_make_file_header` (segment_writer.cpp:131-168): the scalar
fields, the bloom filter parameters, and `finalize` on every column writer. -/
def finalize_columns (sw : SegmentWriter c)
    (file_header : ColumnDataHeaderMessage c.ColumnMessage) :
    ColumnDataHeaderMessage c.ColumnMessage ×
      WriterLoop c.ColumnWriter (List c.ColumnMessage × StreamMap c.OutStream) :=
  let h1 := { file_header with
    number_of_rows := some sw.row_count,
    compress_kind := some sw.compress_kind,
    stream_buffer_size := some sw.stream_buffer_size,
    magic_string := some "COLUMN DATA",
    version := some 1,
    num_rows_per_block := some sw.num_rows_per_row_block }
  let h2 := bloom_filter_loop c sw.root_writers (false, 0, 0) h1
  (h2, for_each_root_writer c.cw_finalize Event.cw_finalize 0 sw.root_writers
    (h2.column, sw.streams) OLAP_SUCCESS)

/-- Method `SegmentWriter::_make_file_header` (segment_writer.cpp:131-208). -/
def _make_file_header (sw : SegmentWriter c)
    (file_header : ColumnDataHeaderMessage c.ColumnMessage) : HeaderOutcome c :=
  match finalize_columns sw file_header with
  | (h2, l) =>
    let h3 := { h2 with column := l.ctx.1 }
    let sw1 := { sw with root_writers := l.writers, streams := l.ctx.2 }
    if l.returned then { res := l.res, file_header := h3, sw := sw1, trace := l.trace }
    else
      let s := stream_info_loop c sw1.streams.names sw1.streams.store h3.stream_info 0 0 l.res
      let sw2 := { sw1 with streams := { sw1.streams with store := s.store } }
      if s.returned then
        { res := s.res, file_header := { h3 with stream_info := s.stream_info }, sw := sw2,
          trace := l.trace ++ s.trace }
      else
        { res := s.res,
          file_header := { h3 with stream_info := s.stream_info,
                                   index_length := some s.index_length,
                                   data_length := some s.data_length },
          sw := sw2, trace := l.trace ++ s.trace }

/-- What the loop of `finalize` over the streams leaves behind. -/
structure PayloadLoop (c : Collaborators) where
  returned : Bool
  res : OLAPStatus
  checksum : Nat
  file_handle : c.FileHandler
  trace : List Event

/-- The loop of `finalize` that writes the streams (segment_writer.cpp:250-268): a
stream that is not suppressed is folded into the checksum and written to the file. -/
def payload_loop (c : Collaborators) (store : StreamName → c.OutStream)
    (write_mbytes_per_sec : Nat) :
    List StreamName → Nat → c.FileHandler → OLAPStatus → PayloadLoop c
  | [], checksum, file_handle, res =>
    { returned := false, res := res, checksum := checksum, file_handle := file_handle,
      trace := [] }
  | name :: rest, checksum, file_handle, res =>
    if !c.is_suppressed (store name) then
      let checksum1 := c.crc32 (store name) checksum
      match c.write_to_file (store name) file_handle write_mbytes_per_sec with
      | (r, fh1) =>
        if r ≠ OLAP_SUCCESS then
          { returned := true, res := r, checksum := checksum1, file_handle := fh1,
            trace := [Event.stream_crc32 name, Event.stream_write_to_file name r] }
        else
          let out := payload_loop c store write_mbytes_per_sec rest checksum1 fh1 r
          { out with trace :=
              Event.stream_crc32 name :: Event.stream_write_to_file name r :: out.trace }
    else payload_loop c store write_mbytes_per_sec rest checksum file_handle res

/-- What `finalize` leaves behind: the status, the new state, the file handle, the
local `file_header`, the value stored through `segment_file_size` (`none` when nothing
was stored), and the calls made. -/
structure FinalizeOutcome (c : Collaborators) where
  res : OLAPStatus
  sw : SegmentWriter c
  file_handle : c.FileHandler
  file_header : FileHeader c.ColumnMessage
  segment_file_size : Option Nat
  trace : List Event

/-- The step of `finalize` that closes a block which holds rows
(segment_writer.cpp:222-227). -/
def finalize_index (sw : SegmentWriter c) : Outcome c :=
  if 0 < sw.row_in_block then sw.create_row_index_entry
  else { res := OLAP_SUCCESS, sw := sw, trace := [] }

/-- The step of `finalize` that builds the header message, on the fresh message of the
local `file_header` (segment_writer.cpp:229). -/
def finalize_header (sw : SegmentWriter c) : HeaderOutcome c :=
  (finalize_index sw).sw._make_file_header (ColumnDataHeaderMessage.empty c.ColumnMessage)

/-- The streams of the stream factory when the loop of `_make_file_header` over them
starts: every column writer has been finalized, no stream has been flushed by the
loop yet. -/
def streams_at_header (sw : SegmentWriter c)
    (file_header : ColumnDataHeaderMessage c.ColumnMessage) : StreamMap c.OutStream :=
  (finalize_columns sw file_header).2.ctx.2

/-- Method `SegmentWriter::finalize` (segment_writer.cpp:211-289); `file_handle` is the fresh
handle, with the file system behind it. -/
def finalize (sw : SegmentWriter c) (file_handle : c.FileHandler) : FinalizeOutcome c :=
  let file_header : FileHeader c.ColumnMessage :=
    { message := ColumnDataHeaderMessage.empty c.ColumnMessage, file_length := 0, checksum := 0 }
  match c.open_with_mode file_handle sw.file_name with
  | (res0, fh0) =>
  let t0 := [Event.file_open res0]
  if res0 ≠ OLAP_SUCCESS then
    { res := res0, sw := sw, file_handle := fh0, file_header := file_header,
      segment_file_size := none, trace := t0 }
  else
  let o := finalize_index sw
  if o.res ≠ OLAP_SUCCESS then
    { res := o.res, sw := o.sw, file_handle := fh0, file_header := file_header,
      segment_file_size := none, trace := t0 ++ o.trace }
  else
  let m := finalize_header sw
  let file_header1 := { file_header with message := m.file_header }
  let t1 := t0 ++ o.trace ++ m.trace
  if m.res ≠ OLAP_SUCCESS then
    { res := m.res, sw := m.sw, file_handle := fh0, file_header := file_header1,
      segment_file_size := none, trace := t1 }
  else
  match c.header_prepare file_header1 fh0 with
  | (res1, fh1) =>
  let t2 := t1 ++ [Event.header_prepare res1]
  if res1 ≠ OLAP_SUCCESS then
    { res := res1, sw := m.sw, file_handle := fh1, file_header := file_header1,
      segment_file_size := none, trace := t2 }
  else
  match c.seek fh1 (c.header_size file_header1) with
  | (ret, fh2) =>
  let t3 := t2 ++ [Event.file_seek (c.header_size file_header1) ret]
  if ret = -1 then
    { res := OLAP_ERR_IO_ERROR, sw := m.sw, file_handle := fh2, file_header := file_header1,
      segment_file_size := none, trace := t3 }
  else
  let p := payload_loop c m.sw.streams.store m.sw.write_mbytes_per_sec
    m.sw.streams.names c.CRC32_INIT fh2 res1
  let t4 := t3 ++ p.trace
  if p.returned then
    { res := p.res, sw := m.sw, file_handle := p.file_handle, file_header := file_header1,
      segment_file_size := none, trace := t4 }
  else
  let file_length := c.tell p.file_handle
  let file_header2 := { file_header1 with file_length := file_length, checksum := p.checksum }
  let segment_file_size := file_length % 2 ^ 32
  match c.header_serialize file_header2 p.file_handle with
  | (res2, fh3) =>
  let t5 := t4 ++ [Event.file_tell file_length, Event.header_serialize res2]
  if res2 ≠ OLAP_SUCCESS then
    { res := res2, sw := m.sw, file_handle := fh3, file_header := file_header2,
      segment_file_size := some segment_file_size, trace := t5 }
  else
  match c.close fh3 with
  | (res3, fh4) =>
    { res := res3, sw := m.sw, file_handle := fh4, file_header := file_header2,
      segment_file_size := some segment_file_size, trace := t5 ++ [Event.file_close res3] }

/-- The streams written to the file, in the order of the `write_to_file` calls. -/
def written_streams (trace : List Event) : List StreamName :=
  trace.filterMap fun e =>
    match e with
    | Event.stream_write_to_file name _ => some name
    | _ => none

/-- The stream a stream-info entry of the header names. -/
def stream_info_name (info : StreamInfoMessage) : StreamName :=
  { unique_column_id := info.column_unique_id, kind := info.kind }

end SegmentWriter

/-! ### A concrete instance of the collaborators

It is used to run the embedding on concrete inputs. -/

/-- A column writer of the concrete instance: the statuses its calls return. -/
structure DemoWriter where
  write_res : OLAPStatus
  index_res : OLAPStatus
  deriving DecidableEq, Repr

/-- An output stream of the concrete instance: its suppressed flag and its length. -/
structure DemoStream where
  suppressed : Bool
  length : Nat
  deriving DecidableEq, Repr

/-- The concrete instance: column writers return the statuses they carry, streams
flush without change, the file handle is the file offset. -/
@[reducible] def demo : Collaborators where
  ColumnWriter := DemoWriter
  OutStream := DemoStream
  FileHandler := Nat
  RowCursor := Unit
  ColumnMessage := Nat
  cw_write w _ ss := (w.write_res, w, ss)
  cw_create_row_index_entry w ss := (w.index_res, w, ss)
  cw_finalize w x := (OLAP_SUCCESS, w, x)
  cw_get_bloom_filter_info _ vars := vars
  cw_estimate_buffered_memory _ := 0
  is_suppressed s := s.suppressed
  flush s := (OLAP_SUCCESS, s)
  get_stream_length s := s.length
  get_total_buffer_size s := s.length
  crc32 s checksum := (checksum + s.length) % 2 ^ 32
  write_to_file s fh _ := (OLAP_SUCCESS, fh + s.length)
  CRC32_INIT := 0
  open_with_mode fh _ := (OLAP_SUCCESS, fh)
  seek _ offset := (offset, offset)
  tell fh := fh
  close fh := (OLAP_SUCCESS, fh)
  header_prepare _ fh := (OLAP_SUCCESS, fh)
  header_size _ := 16
  header_serialize _ fh := (OLAP_SUCCESS, fh)

/-- Four streams of two columns: the row index of column 1, a suppressed stream of
kind 1 and a stream of kind 2 of column 0, and a stream of kind 2 of column 1. -/
def demo_streams : StreamMap DemoStream where
  names := [⟨1, ROW_INDEX⟩, ⟨0, 1⟩, ⟨0, 2⟩, ⟨1, 2⟩]
  ordered := by decide
  store := fun name =>
    if name = ⟨1, ROW_INDEX⟩ then ⟨false, 10⟩
    else if name = ⟨0, 1⟩ then ⟨true, 0⟩
    else if name = ⟨0, 2⟩ then ⟨false, 30⟩
    else ⟨false, 40⟩

/-- A segment writer of the concrete instance with the given column writers, rows per
block and counters. -/
def demo_writer (writers : List DemoWriter) (n row_count row_in_block block_count : Nat) :
    SegmentWriter demo :=
  { file_name := "segment.dat", num_rows_per_row_block := n, compress_kind := 0,
    stream_buffer_size := 0, write_mbytes_per_sec := 0, root_writers := writers,
    streams := demo_streams, row_count := row_count, row_in_block := row_in_block,
    block_count := block_count }

/-! ### Notions used to state the theorems on the header -/

namespace SegmentWriter

/-- Whether the length of a stream is added to `index_length` rather than to
`data_length` (segment_writer.cpp:193-198): its kind is ROW_INDEX or BLOOM_FILTER. -/
def counts_as_index (name : StreamName) : Bool :=
  decide (name.kind = ROW_INDEX ∨ name.kind = BLOOM_FILTER)

/-- The sum of the lengths (`get_stream_length`) of the streams with the given keys. -/
def total_length (c : Collaborators) (store : StreamName → c.OutStream)
    (names : List StreamName) : Nat :=
  (names.map (fun n => c.get_stream_length (store n))).sum

/-- The keys of the streams of a stream map that are not suppressed, in the order of
the map. -/
def not_suppressed (c : Collaborators) (m : StreamMap c.OutStream) : List StreamName :=
  m.names.filter (fun n => !c.is_suppressed (m.store n))

end SegmentWriter

/-- One stream of kind 2 of column 0 that is 2^32 bytes (4 GiB) long. -/
def demo_big_streams : StreamMap DemoStream where
  names := [⟨0, 2⟩]
  ordered := by decide
  store := fun _ => ⟨false, 4294967296⟩

/-- A segment writer of the concrete instance, without rows in the open block, on the
4 GiB stream. -/
def demo_big_writer : SegmentWriter demo :=
  { file_name := "segment.dat", num_rows_per_row_block := 2, compress_kind := 0,
    stream_buffer_size := 0, write_mbytes_per_sec := 0,
    root_writers := [⟨OLAP_SUCCESS, OLAP_SUCCESS⟩],
    streams := demo_big_streams, row_count := 4, row_in_block := 0, block_count := 2 }

/-! ### Exclusive creation of the segment file -/

/-- Modelled from the spec: `FileHandler::open_with_mode` is not part of the sources.
With the flags `O_CREAT | O_EXCL | O_WRONLY` that `finalize` passes, the open is an
exclusive creation: it fails if the file already exists (spec 4.4 (b)) and leaves the
pre-existing file untouched, byte for byte (spec 8).  Here `content fh path` is the
content of the file at `path` in the file system behind the handle `fh`, if there is
such a file. -/
def exclusive_create (c : Collaborators)
    (content : c.FileHandler → String → Option (List Byte)) : Prop :=
  ∀ (fh : c.FileHandler) (file_name : String), (content fh file_name).isSome = true →
    (c.open_with_mode fh file_name).1 ≠ OLAP_SUCCESS ∧
    content (c.open_with_mode fh file_name).2 file_name = content fh file_name

/-- A column writer of the second concrete instance: whether it carries a bloom filter,
and the parameters of the filter. -/
structure DemoBloomWriter where
  has_bf_column : Bool
  hash_function_num : Nat
  bit_num : Nat
  deriving DecidableEq, Repr

/-- A file handle of the second concrete instance: the files of the file system, by
name, and the offset of the handle. -/
structure DemoFiles where
  files : List (String × List Byte)
  offset : Nat
  deriving DecidableEq, Repr

/-- The content of a file of the second concrete instance. -/
def DemoFiles.content (fh : DemoFiles) (file_name : String) : Option (List Byte) :=
  fh.files.lookup file_name

/-- The second concrete instance: a column writer reports the bloom filter it carries
and leaves the variables alone when it carries none, and opening a file creates it
unless it exists, in which case the open fails and changes nothing. -/
@[reducible] def demo_fs : Collaborators where
  ColumnWriter := DemoBloomWriter
  OutStream := DemoStream
  FileHandler := DemoFiles
  RowCursor := Unit
  ColumnMessage := Nat
  cw_write w _ ss := (OLAP_SUCCESS, w, ss)
  cw_create_row_index_entry w ss := (OLAP_SUCCESS, w, ss)
  cw_finalize w x := (OLAP_SUCCESS, w, x)
  cw_get_bloom_filter_info w vars :=
    if w.has_bf_column then (true, w.hash_function_num, w.bit_num)
    else (false, vars.2.1, vars.2.2)
  cw_estimate_buffered_memory _ := 0
  is_suppressed s := s.suppressed
  flush s := (OLAP_SUCCESS, s)
  get_stream_length s := s.length
  get_total_buffer_size s := s.length
  crc32 s checksum := (checksum + s.length) % 2 ^ 32
  write_to_file s fh _ := (OLAP_SUCCESS, { fh with offset := fh.offset + s.length })
  CRC32_INIT := 0
  open_with_mode fh file_name :=
    if (fh.content file_name).isSome then (OLAP_ERR_IO_ERROR, fh)
    else (OLAP_SUCCESS, { files := (file_name, []) :: fh.files, offset := 0 })
  seek fh offset := (offset, { fh with offset := offset })
  tell fh := fh.offset
  close fh := (OLAP_SUCCESS, fh)
  header_prepare _ fh := (OLAP_SUCCESS, fh)
  header_size _ := 16
  header_serialize _ fh := (OLAP_SUCCESS, fh)

/-- A segment writer of the second concrete instance with the given column writers. -/
def demo_fs_writer (writers : List DemoBloomWriter) : SegmentWriter demo_fs :=
  { file_name := "segment.dat", num_rows_per_row_block := 2, compress_kind := 0,
    stream_buffer_size := 0, write_mbytes_per_sec := 0, root_writers := writers,
    streams := demo_streams, row_count := 3, row_in_block := 1, block_count := 1 }

namespace SegmentWriter

/-- The values of the variables `has_bf_column`, `bf_hash_function_num` and `bf_bit_num`
after each column writer in turn has been asked for its bloom filter parameters
(segment_writer.cpp:147), one entry for each column writer, as if the loop had no
`break`. -/
def bloom_reports (c : Collaborators) :
    List c.ColumnWriter → Bool × Nat × Nat → List (Bool × Nat × Nat)
  | [], _ => []
  | w :: ws, vars =>
    c.cw_get_bloom_filter_info w vars :: bloom_reports c ws (c.cw_get_bloom_filter_info w vars)

/-- The report of the first column writer, in column order, that reports a bloom
filter, if there is one. -/
def first_bloom_report (c : Collaborators) (ws : List c.ColumnWriter) :
    Option (Bool × Nat × Nat) :=
  (bloom_reports c ws (false, 0, 0)).find? (fun report => report.1)

end SegmentWriter

namespace SegmentWriter

/-- A call on a segment writer between its construction and `finalize`: a `write`
of a row, or a `create_row_index_entry`. -/
inductive Call (c : Collaborators) where
  | write (row_cursor : c.RowCursor)
  | create_row_index_entry

/-- The outcome of one call. -/
def call (sw : SegmentWriter c) : Call c → Outcome c
  | Call.write row_cursor => sw.write row_cursor
  | Call.create_row_index_entry => sw.create_row_index_entry

/-- The state after a sequence of calls. -/
def run (sw : SegmentWriter c) : List (Call c) → SegmentWriter c
  | [] => sw
  | k :: ks => run (sw.call k).sw ks

/-- The number of `write` calls of a sequence of calls that returned `OLAP_SUCCESS`. -/
def successful_writes (sw : SegmentWriter c) : List (Call c) → Nat
  | [] => 0
  | Call.write row_cursor :: ks =>
    (if (sw.write row_cursor).res = OLAP_SUCCESS then 1 else 0) +
      successful_writes (sw.write row_cursor).sw ks
  | Call.create_row_index_entry :: ks => successful_writes sw.create_row_index_entry.sw ks

end SegmentWriter

end column_file

/-! ## DownloadAction -/

namespace DownloadAction

/-- The start value of the loop index, `int i = file_name.size() - 1`
(download_action.cpp:238): the subtraction is done in the unsigned 64-bit type of
`size()` and the result is converted to the 32-bit `int`; for the empty name it is
-1. -/
def last_index (size : Nat) : Int :=
  if (size + 2 ^ 64 - 1) % 2 ^ 64 % 2 ^ 32 < 2 ^ 31
  then (((size + 2 ^ 64 - 1) % 2 ^ 64 % 2 ^ 32 : Nat) : Int)
  else (((size + 2 ^ 64 - 1) % 2 ^ 64 % 2 ^ 32 : Nat) : Int) - 2 ^ 32

/-- The loop of `get_file_extension` from index `i` down (download_action.cpp:238-246):
it runs while `i > 0`, stops without result at a `/`, and returns the rest of the name
from `i` on when `file_name[i]` is a dot and `file_name[i-1]` is not. -/
def extension_from (file_name : List Char) : Nat → List Char
  | 0 => []
  | i + 1 =>
    if file_name.getD (i + 1) ' ' = '/' then []
    else if file_name.getD (i + 1) ' ' = '.' ∧ file_name.getD i ' ' ≠ '.' then
      file_name.drop (i + 1)
    else extension_from file_name i

/-- Method `DownloadAction::get_file_extension` (download_action.cpp:235-247); a
`std::string` is the list of its characters. -/
def get_file_extension (file_name : List Char) : List Char :=
  extension_from file_name (last_index file_name.length).toNat

/-- The rest of a name from its rightmost dot on, if it contains a dot. -/
def from_rightmost_dot : List Char → Option (List Char)
  | [] => none
  | ch :: rest =>
    match from_rightmost_dot rest with
    | some extension => some extension
    | none => if ch = '.' then some (ch :: rest) else none

/-- The result that the comment in front of `get_file_extension` describes
(download_action.cpp:232-234): if the name contains a dot but does not consist solely
of one or two dots, the substring that starts at the rightmost dot and ends at the end
of the name, otherwise the empty string. -/
def documented_extension (file_name : List Char) : List Char :=
  if file_name = ['.'] ∨ file_name = ['.', '.'] then []
  else (from_rightmost_dot file_name).getD []

end DownloadAction

/-! ## Timer -/

/-- The state of a `palo::Timer` (timer.h:119-133).  Points in time and durations are
numbers of ticks of `std::chrono::FastClock`, whose declaration (fast_clock.h) is not
part of the sources; the start time of a new timer is the epoch of the clock. -/
structure Timer where
  start_time : Int
  m_running : Bool
  m_started : Bool
  m_duration : Int
  m_remaining : Int
  deriving DecidableEq, Repr

namespace Timer

/-- Method `Timer::start` (timer.h:51-59); `now` is the value of `FastClock::now()`. -/
def start (t : Timer) (now : Int) : Timer :=
  if !t.m_running then { t with start_time := now, m_running := true, m_started := true }
  else t

/-- Method `Timer::stop` (timer.h:65-72); `now` is the value of `FastClock::now()`, and
a failed `assert(m_started)` is `none`. -/
def stop (t : Timer) (now : Int) : Option Timer :=
  if t.m_started then
    some { t with
      m_remaining :=
        if now - t.start_time < t.m_remaining then t.m_remaining - (now - t.start_time) else 0,
      m_running := false }
  else none

/-- Method `Timer::reset` (timer.h:77-83). -/
def reset (t : Timer) (start_timer : Bool) (now : Int) : Timer :=
  if start_timer then
    start { t with m_running := false, m_started := false, m_remaining := t.m_duration } now
  else { t with m_running := false, m_started := false, m_remaining := t.m_duration }

/-- Constructor `Timer::Timer(millis, start_timer)` (timer.h:40-46); `ticks` is the
number of ticks of the clock in a millisecond. -/
def create (ticks millis : Nat) (start_timer : Bool) (now : Int) : Timer :=
  if start_timer then
    start { start_time := 0, m_running := false, m_started := false,
            m_duration := (millis : Int) * ticks, m_remaining := (millis : Int) * ticks } now
  else { start_time := 0, m_running := false, m_started := false,
         m_duration := (millis : Int) * ticks, m_remaining := (millis : Int) * ticks }

/-- The conversion `duration_cast<milliseconds>(d).count()` of a duration to a
`uint32_t` number of milliseconds (timer.h:94, 116). -/
def to_millis (ticks : Nat) (d : Int) : Nat := ((d.tdiv ticks) % 2 ^ 32).toNat

/-- Method `Timer::remaining` (timer.h:89-95): the value returned and the new state;
`now1` and `now2` are the values of `FastClock::now()` in `stop` and in `start`. -/
def remaining (ticks : Nat) (t : Timer) (now1 now2 : Int) : Option (Nat × Timer) :=
  if t.m_running then
    match t.stop now1 with
    | none => none
    | some t1 => some (to_millis ticks (t1.start now2).m_remaining, t1.start now2)
  else some (to_millis ticks t.m_remaining, t)

/-- Method `Timer::expired` (timer.h:100-102). -/
def expired (ticks : Nat) (t : Timer) (now1 now2 : Int) : Option (Bool × Timer) :=
  match t.remaining ticks now1 now2 with
  | none => none
  | some (millis, t1) => some (decide (millis = 0), t1)

/-- Method `Timer::is_running` (timer.h:107-109). -/
def is_running (t : Timer) : Bool := t.m_running

/-- Method `Timer::duration` (timer.h:115-117). -/
def duration (ticks : Nat) (t : Timer) : Nat := to_millis ticks t.m_duration

end Timer

/-- A call of a method of a timer, with the number of ticks that pass on the clock
before each reading of `FastClock::now()` that the call can make.  The numbers are
natural numbers: the clock never goes back. -/
inductive TimerCall where
  | start (elapsed : Nat)
  | stop (elapsed : Nat)
  | reset (start_timer : Bool) (elapsed : Nat)
  | remaining (elapsed1 elapsed2 : Nat)
  | expired (elapsed1 elapsed2 : Nat)
  | is_running
  | duration
  deriving DecidableEq, Repr

/-- Whether a call is a `reset`. -/
def TimerCall.is_reset : TimerCall → Bool
  | TimerCall.reset _ _ => true
  | _ => false

/-- A timer together with the clock that drives it: `clock` is the present value of
`FastClock::now()`. -/
structure ClockedTimer where
  timer : Timer
  clock : Int
  deriving DecidableEq, Repr

namespace ClockedTimer

/-- One call on a timer under the clock; `none` is a failed assertion. -/
def step (ticks : Nat) (w : ClockedTimer) : TimerCall → Option ClockedTimer
  | TimerCall.start elapsed =>
    some { timer := w.timer.start (w.clock + elapsed), clock := w.clock + elapsed }
  | TimerCall.stop elapsed =>
    match w.timer.stop (w.clock + elapsed) with
    | none => none
    | some t => some { timer := t, clock := w.clock + elapsed }
  | TimerCall.reset start_timer elapsed =>
    some { timer := w.timer.reset start_timer (w.clock + elapsed), clock := w.clock + elapsed }
  | TimerCall.remaining elapsed1 elapsed2 =>
    match w.timer.remaining ticks (w.clock + elapsed1) (w.clock + elapsed1 + elapsed2) with
    | none => none
    | some (_, t) => some { timer := t, clock := w.clock + elapsed1 + elapsed2 }
  | TimerCall.expired elapsed1 elapsed2 =>
    match w.timer.expired ticks (w.clock + elapsed1) (w.clock + elapsed1 + elapsed2) with
    | none => none
    | some (_, t) => some { timer := t, clock := w.clock + elapsed1 + elapsed2 }
  | TimerCall.is_running => some w
  | TimerCall.duration => some w

/-- A sequence of calls on a timer under the clock. -/
def run (ticks : Nat) (w : ClockedTimer) : List TimerCall → Option ClockedTimer
  | [] => some w
  | call :: calls =>
    match w.step ticks call with
    | none => none
    | some w1 => run ticks w1 calls

/-- A new timer under a clock that shows `clock`, a time at or after its epoch. -/
def create (ticks millis : Nat) (start_timer : Bool) (clock : Nat) : ClockedTimer :=
  { timer := Timer.create ticks millis start_timer clock, clock := clock }

/-- The invariant of a timer under a non-decreasing clock: the remaining time lies
between zero and the duration, a timer that was started was started at or before the
present time, and a running timer was started. -/
def Inv (w : ClockedTimer) : Prop :=
  0 ≤ w.timer.m_remaining ∧ w.timer.m_remaining ≤ w.timer.m_duration ∧
  (w.timer.m_started = true → w.timer.start_time ≤ w.clock) ∧
  (w.timer.m_running = true → w.timer.m_started = true)

end ClockedTimer

namespace column_file

open OLAPStatus

/-! ### Helper lemmas on the stream-name order -/

theorem StreamName.lt_iff_cases (a b : StreamName) :
    a.lt b = true ↔
      (a.kind = ROW_INDEX ∧ b.kind = ROW_INDEX ∧ a.unique_column_id < b.unique_column_id) ∨
      (a.kind = ROW_INDEX ∧ b.kind ≠ ROW_INDEX) ∨
      (a.kind ≠ ROW_INDEX ∧ b.kind ≠ ROW_INDEX ∧
        (a.unique_column_id < b.unique_column_id ∨
          (a.unique_column_id = b.unique_column_id ∧ a.kind < b.kind))) := by
  obtain ⟨ia, ka⟩ := a
  obtain ⟨ib, kb⟩ := b
  simp only [StreamName.lt, ROW_INDEX] at *
  split_ifs <;> simp only [decide_eq_true_eq] <;> omega

theorem StreamName.lt_irrefl_aux (a : StreamName) : a.lt a = false := by
  cases h : a.lt a
  · rfl
  · rw [StreamName.lt_iff_cases] at h
    simp only [ROW_INDEX] at h
    omega

theorem StreamName.lt_trans_aux {a b c : StreamName}
    (hab : a.lt b = true) (hbc : b.lt c = true) : a.lt c = true := by
  rw [StreamName.lt_iff_cases] at *
  simp only [ROW_INDEX] at *
  omega

theorem StreamName.lt_asymm_aux {a b : StreamName}
    (hab : a.lt b = true) : b.lt a = false := by
  cases h : b.lt a
  · rfl
  · rw [StreamName.lt_iff_cases] at *
    simp only [ROW_INDEX] at *
    omega

theorem StreamName.eq_iff (a b : StreamName) : a.eq b = true ↔ a = b := by
  obtain ⟨ia, ka⟩ := a
  obtain ⟨ib, kb⟩ := b
  simp [StreamName.eq]

theorem StreamName.lt_trichotomy_aux (a b : StreamName) :
    a.lt b = true ∨ a = b ∨ b.lt a = true := by
  obtain ⟨ia, ka⟩ := a
  obtain ⟨ib, kb⟩ := b
  simp only [StreamName.lt_iff_cases, StreamName.mk.injEq, ROW_INDEX] at *
  omega

/-! ## Theorems: StreamName -/

/-- C1: a ROW_INDEX stream name is less than every stream name of another kind, and
the latter is never less than the former, whatever the two column ids are. -/
theorem StreamName.row_index_before_others (a b : StreamName)
    (ha : a.kind = ROW_INDEX) (hb : b.kind ≠ ROW_INDEX) :
    a.lt b = true ∧ b.lt a = false := by
  have h : a.lt b = true := by
    rw [StreamName.lt_iff_cases]
    exact Or.inr (Or.inl ⟨ha, hb⟩)
  exact ⟨h, StreamName.lt_asymm_aux h⟩

theorem StreamName.row_index_before_others_witness :
    (StreamName.mk 9 ROW_INDEX).lt (StreamName.mk 2 5) = true ∧
      (StreamName.mk 2 5).lt (StreamName.mk 9 ROW_INDEX) = false :=
  StreamName.row_index_before_others ⟨9, ROW_INDEX⟩ ⟨2, 5⟩ rfl (by decide)

/-- C2: `StreamName::operator<` is transitive on all stream names, ROW_INDEX
included: from a < b and b < c follows a < c. -/
theorem StreamName.lt_transitive (a b c : StreamName)
    (hab : a.lt b = true) (hbc : b.lt c = true) : a.lt c = true :=
  StreamName.lt_trans_aux hab hbc

theorem StreamName.lt_transitive_witness :
    (StreamName.mk 7 ROW_INDEX).lt (StreamName.mk 3 2) = true :=
  StreamName.lt_transitive ⟨7, ROW_INDEX⟩ ⟨1, 4⟩ ⟨3, 2⟩ (by decide) (by decide)

/-- C3: `operator<` is strict and total, consistent with `operator==`: for all
stream names a and b exactly one of a < b, a == b, b < a holds. -/
theorem StreamName.lt_trichotomous (a b : StreamName) :
    (a.lt b = true ∧ a.eq b = false ∧ b.lt a = false) ∨
    (a.lt b = false ∧ a.eq b = true ∧ b.lt a = false) ∨
    (a.lt b = false ∧ a.eq b = false ∧ b.lt a = true) := by
  rcases StreamName.lt_trichotomy_aux a b with h | h | h
  · refine Or.inl ⟨h, ?_, StreamName.lt_asymm_aux h⟩
    cases he : a.eq b
    · rfl
    · rw [StreamName.eq_iff] at he
      subst he
      rw [StreamName.lt_irrefl_aux] at h
      exact absurd h (by decide)
  · subst h
    exact Or.inr (Or.inl ⟨StreamName.lt_irrefl_aux a, (StreamName.eq_iff a a).2 rfl,
      StreamName.lt_irrefl_aux a⟩)
  · refine Or.inr (Or.inr ⟨StreamName.lt_asymm_aux h, ?_, h⟩)
    cases he : a.eq b
    · rfl
    · rw [StreamName.eq_iff] at he
      subst he
      rw [StreamName.lt_irrefl_aux] at h
      exact absurd h (by decide)

/-- C4: for two ROW_INDEX stream names a < b holds exactly when a's column id is
smaller than b's; for two stream names neither of which is ROW_INDEX a < b holds
exactly when (column id, kind) of a is lexicographically smaller than that of b. -/
theorem StreamName.lt_same_class (a b : StreamName) :
    (a.kind = ROW_INDEX → b.kind = ROW_INDEX →
      (a.lt b = true ↔ a.unique_column_id < b.unique_column_id)) ∧
    (a.kind ≠ ROW_INDEX → b.kind ≠ ROW_INDEX →
      (a.lt b = true ↔
        toLex (a.unique_column_id, a.kind) < toLex (b.unique_column_id, b.kind))) := by
  constructor
  · intro ha hb
    rw [StreamName.lt_iff_cases]
    constructor
    · rintro (h | h | h)
      · exact h.2.2
      · exact absurd hb h.2
      · exact absurd ha h.1
    · intro h
      exact Or.inl ⟨ha, hb, h⟩
  · intro ha hb
    rw [StreamName.lt_iff_cases, Prod.Lex.lt_iff]
    constructor
    · rintro (h | h | h)
      · exact absurd h.1 ha
      · exact absurd h.1 ha
      · exact h.2.2
    · intro h
      exact Or.inr (Or.inr ⟨ha, hb, h⟩)

/-! ### Helper lemmas on the run-length byte codec -/

theorem Byte.signed_ofInt (i : Int) (h1 : -128 ≤ i) (h2 : i ≤ 127) :
    (Byte.ofInt i).signed = i := by
  simp only [Byte.signed, Byte.ofInt]
  split_ifs <;> omega

theorem rle_prepend_nil (o : Option (Except OLAPStatus (List Byte))) :
    rle_prepend [] o = o := by
  rcases o with _ | (e | ws) <;> rfl

theorem rle_prepend_append (vs ws : List Byte) (o : Option (Except OLAPStatus (List Byte))) :
    rle_prepend (vs ++ ws) o = rle_prepend vs (rle_prepend ws o) := by
  rcases o with _ | (e | us) <;> simp [rle_prepend]

theorem RunLengthByteReader.read_all_succ (fuel : Nat) (r : RunLengthByteReader) :
    RunLengthByteReader.read_all (fuel + 1) r =
      if r.has_next then
        match r.next with
        | .error e => some (.error e)
        | .ok (v, r1) => rle_prepend [v] (RunLengthByteReader.read_all fuel r1)
      else some (.ok []) := by
  rw [RunLengthByteReader.read_all]
  split_ifs
  · rcases r.next with e | ⟨v, r1⟩
    · rfl
    · simp only
      rcases RunLengthByteReader.read_all fuel r1 with _ | (e | ws) <;> rfl
  · rfl

/-- Draining a run: `k` more copies of the buffered byte are delivered. -/
theorem RunLengthByteReader.read_all_drain_run (k : Nat) :
    ∀ (fuel : Nat) (inp : List Byte) (v : Byte) (n u : Nat), u + k = n →
      RunLengthByteReader.read_all (fuel + k) ⟨inp, [v], n, u, true⟩ =
        rle_prepend (List.replicate k v)
          (RunLengthByteReader.read_all fuel ⟨inp, [v], n, n, true⟩) := by
  induction k with
  | zero =>
    intro fuel inp v n u h
    have : u = n := by omega
    subst this
    simp [rle_prepend_nil]
  | succ k ih =>
    intro fuel inp v n u h
    have hne : u ≠ n := by omega
    rw [← Nat.add_assoc, RunLengthByteReader.read_all_succ]
    simp only [RunLengthByteReader.has_next, RunLengthByteReader.next, hne, ne_eq,
      not_false_eq_true, decide_True, Bool.true_or, if_true, if_false, List.headD_cons]
    rw [ih fuel inp v n (u + 1) (by omega), ← rle_prepend_append]
    rfl

/-- Draining a literal block: the bytes not yet used are delivered. -/
theorem RunLengthByteReader.read_all_drain_lits (k : Nat) :
    ∀ (fuel : Nat) (inp ls : List Byte) (u : Nat), u + k = ls.length →
      RunLengthByteReader.read_all (fuel + k) ⟨inp, ls, ls.length, u, false⟩ =
        rle_prepend (ls.drop u)
          (RunLengthByteReader.read_all fuel ⟨inp, ls, ls.length, ls.length, false⟩) := by
  induction k with
  | zero =>
    intro fuel inp ls u h
    have : u = ls.length := by omega
    subst this
    simp [rle_prepend_nil]
  | succ k ih =>
    intro fuel inp ls u h
    have hne : u ≠ ls.length := by omega
    have hlt : u < ls.length := by omega
    rw [← Nat.add_assoc, RunLengthByteReader.read_all_succ]
    simp only [RunLengthByteReader.has_next, RunLengthByteReader.next, hne, ne_eq,
      not_false_eq_true, decide_True, Bool.true_or, if_true, if_false]
    rw [ih fuel inp ls (u + 1) (by omega), ← rle_prepend_append]
    congr 1
    rw [List.getD_eq_getElem _ _ hlt]
    exact (List.drop_eq_getElem_cons hlt).symm

/-- Reading one record: a reader whose buffer is used up delivers the values of the
record at the head of its input and is then used up again, in front of the rest. -/
theorem RunLengthByteReader.read_all_record (rec : RleRecord) (hv : rec.valid)
    (r : RunLengthByteReader) (rest : List Byte) (hu : r.used = r.num_literals)
    (hin : r.input = rec.bytes ++ rest) :
    ∃ r1 : RunLengthByteReader, r1.used = r1.num_literals ∧ r1.input = rest ∧
      ∀ fuel, RunLengthByteReader.read_all (fuel + rec.values.length) r =
        rle_prepend rec.values (RunLengthByteReader.read_all fuel r1) := by
  obtain ⟨inp, ls, n0, u0, rp⟩ := r
  simp only at hu hin
  subst hu hin
  cases rec with
  | run n v =>
    simp only [RleRecord.valid] at hv
    refine ⟨⟨rest, [v], n, n, true⟩, rfl, rfl, ?_⟩
    intro fuel
    have hs : (Byte.ofInt ((n : Int) - 3)).signed = (n : Int) - 3 :=
      Byte.signed_ofInt _ (by omega) (by omega)
    have hn : ((n : Int) - 3).toNat + MIN_REPEAT_SIZE = n := by
      simp only [MIN_REPEAT_SIZE]; omega
    have hlen : fuel + (RleRecord.run n v).values.length = (fuel + (n - 1)) + 1 := by
      simp only [RleRecord.values, List.length_replicate]; omega
    rw [hlen, RunLengthByteReader.read_all_succ]
    simp only [RunLengthByteReader.has_next, RunLengthByteReader.next,
      RunLengthByteReader.read_values, RleRecord.bytes, List.cons_append, List.nil_append,
      List.isEmpty_cons, Bool.not_false, Bool.or_true, if_true, hs, hn,
      show (0 : Int) ≤ (n : Int) - 3 by omega, List.headD_cons, RleRecord.values]
    rw [RunLengthByteReader.read_all_drain_run (n - 1) fuel rest v n 1 (by omega),
      ← rle_prepend_append]
    congr 1
    obtain ⟨m, rfl⟩ : ∃ m, n = m + 1 := ⟨n - 1, by omega⟩
    simp [List.replicate_succ]
  | lits vs =>
    simp only [RleRecord.valid] at hv
    refine ⟨⟨rest, vs, vs.length, vs.length, false⟩, rfl, rfl, ?_⟩
    intro fuel
    have hs : (Byte.ofInt (-(vs.length : Int))).signed = -(vs.length : Int) :=
      Byte.signed_ofInt _ (by omega) (by omega)
    have hlen : fuel + (RleRecord.lits vs).values.length = (fuel + (vs.length - 1)) + 1 := by
      simp only [RleRecord.values]; omega
    have hpos : 0 < vs.length := by omega
    rw [hlen, RunLengthByteReader.read_all_succ]
    simp only [RunLengthByteReader.has_next, RunLengthByteReader.next,
      RunLengthByteReader.read_values, RleRecord.bytes, List.cons_append,
      List.isEmpty_cons, Bool.not_false, Bool.or_true, if_true, hs,
      show ¬ ((0 : Int) ≤ -(vs.length : Int)) by omega, if_false, neg_neg, Int.toNat_ofNat,
      List.length_append, show ¬ (vs.length + rest.length < vs.length) by omega,
      List.drop_left, List.take_left, RleRecord.values]
    rw [RunLengthByteReader.read_all_drain_lits (vs.length - 1) fuel rest vs 1 (by omega),
      ← rle_prepend_append]
    congr 1
    rw [List.getD_eq_getElem _ _ hpos]
    exact (List.drop_eq_getElem_cons hpos).symm

/-- Reading a whole stream of records delivers their values and ends the loop. -/
theorem RunLengthByteReader.read_all_records (rs : List RleRecord) :
    (∀ rec ∈ rs, rec.valid) → ∀ r : RunLengthByteReader, r.used = r.num_literals →
      r.input = rle_serialize rs → ∀ fuel,
        RunLengthByteReader.read_all (fuel + 1 + (rle_expand rs).length) r =
          some (.ok (rle_expand rs)) := by
  induction rs with
  | nil =>
    intro _ r hu hin fuel
    simp only [rle_serialize, List.map_nil, List.flatten_nil] at hin
    simp only [rle_expand, List.map_nil, List.flatten_nil, List.length_nil, Nat.add_zero]
    rw [RunLengthByteReader.read_all_succ]
    simp [RunLengthByteReader.has_next, hu, hin]
  | cons rec rs ih =>
    intro hv r hu hin fuel
    have hrec : rec.valid := hv rec (List.mem_cons_self _ _)
    have hrs : ∀ x ∈ rs, x.valid := fun x hx => hv x (List.mem_cons_of_mem _ hx)
    have hin2 : r.input = rec.bytes ++ rle_serialize rs := by
      rw [hin]; simp [rle_serialize]
    obtain ⟨r1, hu1, hin1, hread⟩ :=
      RunLengthByteReader.read_all_record rec hrec r (rle_serialize rs) hu hin2
    have hexp : rle_expand (rec :: rs) = rec.values ++ rle_expand rs := by
      simp [rle_expand]
    have hfuel : fuel + 1 + (rle_expand (rec :: rs)).length =
        (fuel + 1 + (rle_expand rs).length) + rec.values.length := by
      rw [hexp, List.length_append]; omega
    rw [hfuel, hread, ih hrs r1 hu1 hin1 fuel, hexp]
    rfl

theorem rle_expand_length_le (rs : List RleRecord) (hv : ∀ rec ∈ rs, rec.valid) :
    (rle_expand rs).length ≤ 130 * (rle_serialize rs).length := by
  induction rs with
  | nil => simp [rle_expand, rle_serialize]
  | cons rec rs ih =>
    have hrec : rec.valid := hv rec (List.mem_cons_self _ _)
    have hrs := ih (fun x hx => hv x (List.mem_cons_of_mem _ hx))
    have h1 : rle_expand (rec :: rs) = rec.values ++ rle_expand rs := by simp [rle_expand]
    have h2 : rle_serialize (rec :: rs) = rec.bytes ++ rle_serialize rs := by
      simp [rle_serialize]
    rw [h1, h2, List.length_append, List.length_append]
    have h3 : rec.values.length ≤ 130 * rec.bytes.length := by
      cases rec with
      | run n v =>
        simp only [RleRecord.valid] at hrec
        simp only [RleRecord.values, RleRecord.bytes, List.length_replicate, List.length_cons,
          List.length_nil]
        omega
      | lits vs =>
        simp only [RleRecord.values, RleRecord.bytes, List.length_cons]
        omega
    omega

/-- Decoding the stream of a sequence of valid records yields their values. -/
theorem rle_decode_serialize (rs : List RleRecord) (hv : ∀ rec ∈ rs, rec.valid) :
    rle_decode (rle_serialize rs) = some (.ok (rle_expand rs)) := by
  have hle := rle_expand_length_le rs hv
  have hfuel : 130 * (rle_serialize rs).length + 1 =
      (130 * (rle_serialize rs).length - (rle_expand rs).length) + 1 +
        (rle_expand rs).length := by omega
  rw [rle_decode, hfuel]
  exact RunLengthByteReader.read_all_records rs hv _ rfl rfl _

theorem rle_serialize_append (rs : List RleRecord) (rec : RleRecord) :
    rle_serialize (rs ++ [rec]) = rle_serialize rs ++ rec.bytes := by
  simp [rle_serialize]

theorem rle_expand_append (rs : List RleRecord) (rec : RleRecord) :
    rle_expand (rs ++ [rec]) = rle_expand rs ++ rec.values := by
  simp [rle_expand]

/-- Emitting the buffer appends one valid record that stands for the buffered values
and leaves the buffer empty. -/
theorem RunLengthByteWriter.write_values_spec (w : RunLengthByteWriter)
    (rs : List RleRecord) (hv : ∀ rec ∈ rs, rec.valid) (hout : w.output = rle_serialize rs)
    (hr : w.repeat_ = true → 3 ≤ w.num_literals ∧ w.num_literals ≤ 130 ∧ w.literals ≠ [])
    (hl : w.repeat_ = false → w.num_literals ≤ 128 ∧ w.num_literals ≤ w.literals.length) :
    ∃ rs1 : List RleRecord, (∀ rec ∈ rs1, rec.valid) ∧
      w.write_values.output = rle_serialize rs1 ∧
      rle_expand rs1 = rle_expand rs ++ w.pending ∧
      w.write_values.num_literals = 0 ∧ w.write_values.repeat_ = false ∧
      w.write_values.literals = w.literals ∧
      (w.num_literals ≠ 0 → w.write_values.tail_run_length = 0) := by
  obtain ⟨out, ls, n, rp, tl⟩ := w
  simp only at hout hr hl
  subst hout
  by_cases h0 : n = 0
  · subst h0
    have hrp : rp = false := by
      cases rp
      · rfl
      · exact absurd (hr rfl).1 (by omega)
    subst hrp
    exact ⟨rs, hv, by simp [RunLengthByteWriter.write_values],
      by simp [RunLengthByteWriter.pending], by simp [RunLengthByteWriter.write_values],
      by simp [RunLengthByteWriter.write_values], by simp [RunLengthByteWriter.write_values],
      by simp⟩
  · cases rp with
    | true =>
      obtain ⟨h3, h130, hne⟩ := hr rfl
      obtain ⟨x, xs, rfl⟩ := List.exists_cons_of_ne_nil hne
      refine ⟨rs ++ [RleRecord.run n x], ?_, ?_, ?_, ?_, ?_, ?_, ?_⟩
      · intro rec hrec
        rcases List.mem_append.1 hrec with h | h
        · exact hv rec h
        · rw [List.mem_singleton] at h
          subst h
          exact ⟨h3, h130⟩
      · simp [RunLengthByteWriter.write_values, h0, rle_serialize_append, RleRecord.bytes,
          MIN_REPEAT_SIZE]
      · simp [rle_expand_append, RleRecord.values, RunLengthByteWriter.pending]
      · simp [RunLengthByteWriter.write_values, h0]
      · simp [RunLengthByteWriter.write_values, h0]
      · simp [RunLengthByteWriter.write_values, h0]
      · simp [RunLengthByteWriter.write_values, h0]
    | false =>
      obtain ⟨h128, hlen⟩ := hl rfl
      have htl : (ls.take n).length = n := by simp [hlen]
      refine ⟨rs ++ [RleRecord.lits (ls.take n)], ?_, ?_, ?_, ?_, ?_, ?_, ?_⟩
      · intro rec hrec
        rcases List.mem_append.1 hrec with h | h
        · exact hv rec h
        · rw [List.mem_singleton] at h
          subst h
          simp only [RleRecord.valid, htl]
          omega
      · simp [RunLengthByteWriter.write_values, h0, rle_serialize_append, RleRecord.bytes,
          hlen]
      · simp [rle_expand_append, RleRecord.values, RunLengthByteWriter.pending]
      · simp [RunLengthByteWriter.write_values, h0]
      · simp [RunLengthByteWriter.write_values, h0]
      · simp [RunLengthByteWriter.write_values, h0]
      · simp [RunLengthByteWriter.write_values, h0]

theorem List.replicate_succ_snoc (n : Nat) (v : Byte) :
    List.replicate (n + 1) v = List.replicate n v ++ [v] := by
  induction n with
  | zero => rfl
  | succ n ih =>
    show v :: List.replicate (n + 1) v = (v :: List.replicate n v) ++ [v]
    rw [ih]
    rfl

theorem List.take_two_equal_tail (l : List Byte) (n : Nat) (v : Byte) (h2 : 2 ≤ n)
    (hlen : n ≤ l.length) (ha : l[n - 2]? = some v) (hb : l[n - 1]? = some v) :
    l.take n = l.take (n - 2) ++ [v, v] := by
  obtain ⟨m, rfl⟩ : ∃ m, n = m + 2 := ⟨n - 2, by omega⟩
  have e1 : m + 2 - 2 = m := by omega
  have e2 : m + 2 - 1 = m + 1 := by omega
  rw [e1] at ha
  rw [e2] at hb
  rw [e1, List.take_succ, List.take_succ, ha, hb]
  simp

/-- Appending a literal to the buffer (and flushing a full buffer) keeps the
invariant of the writer. -/
theorem RunLengthByteWriter.append_literal_inv (out ls : List Byte) (n t : Nat) (v : Byte)
    (rs : List RleRecord) (hv : ∀ rec ∈ rs, rec.valid) (hout : out = rle_serialize rs)
    (h128 : n < 128) (hlen : n ≤ ls.length)
    (ht : t = 2 → 1 ≤ n ∧ ls[n - 1]? = some v) :
    (if n + 1 = MAX_LITERAL_SIZE
      then RunLengthByteWriter.write_values ⟨out, ls.take n ++ [v], n + 1, false, t⟩
      else ⟨out, ls.take n ++ [v], n + 1, false, t⟩).Inv
      (rle_expand rs ++ ls.take n ++ [v]) := by
  have hlen1 : (ls.take n ++ [v]).length = n + 1 := by simp [hlen]
  have hpend : RunLengthByteWriter.pending ⟨out, ls.take n ++ [v], n + 1, false, t⟩ =
      ls.take n ++ [v] := by
    simp only [RunLengthByteWriter.pending, Bool.false_eq_true, if_false]
    rw [← hlen1, List.take_length]
  by_cases hmax : n + 1 = MAX_LITERAL_SIZE
  · rw [if_pos hmax]
    obtain ⟨rs1, hv1, hout1, hexp1, hn1, hrp1, hls1, htl1⟩ :=
      RunLengthByteWriter.write_values_spec ⟨out, ls.take n ++ [v], n + 1, false, t⟩ rs hv hout
        (fun hc => by simp at hc)
        (fun _ => ⟨by simp only; omega, by simp only [hlen1]; omega⟩)
    refine ⟨⟨rs1, hv1, hout1, ?_⟩, ?_, ?_⟩
    · rw [hexp1, hpend]
      simp [RunLengthByteWriter.pending, hn1, hrp1]
    · intro hc
      rw [hrp1] at hc
      exact absurd hc (by decide)
    · intro _
      rw [hn1, htl1 (by simp)]
      simp
  · rw [if_neg hmax]
    simp only [MAX_LITERAL_SIZE] at hmax
    refine ⟨⟨rs, hv, hout, ?_⟩, ?_, ?_⟩
    · rw [hpend, List.append_assoc]
    · intro hc
      simp at hc
    · intro _
      refine ⟨by simp only; omega, by simp only [hlen1]; omega, ?_⟩
      intro h2
      obtain ⟨h1, hlast⟩ := ht h2
      refine ⟨by simp only; omega, ?_⟩
      have e1 : n + 1 - 2 = n - 1 := by omega
      have e2 : n + 1 - 1 = n := by omega
      have hlt : n - 1 < (ls.take n).length := by simp [hlen]; omega
      have hn : (ls.take n).length = n := by simp [hlen]
      simp only [e1, e2]
      rw [List.getElem?_append_left hlt, List.getElem?_append_right (by omega), hn,
        List.getElem?_take_of_lt (by omega), hlast]
      simp

/-- Writing one byte keeps the invariant of the writer. -/
theorem RunLengthByteWriter.write_inv (w : RunLengthByteWriter) (consumed : List Byte)
    (v : Byte) (h : w.Inv consumed) : (w.write v).Inv (consumed ++ [v]) := by
  obtain ⟨⟨rs, hv, hout, hexp⟩, hr, hl⟩ := h
  obtain ⟨out, ls, n, rp, tl⟩ := w
  simp only at hout hr hl
  subst hexp
  by_cases h0 : n = 0
  · subst h0
    have hrp : rp = false := by
      cases rp
      · rfl
      · exact absurd (hr rfl).1 (by omega)
    subst hrp
    refine ⟨⟨rs, hv, by simp [RunLengthByteWriter.write, hout], ?_⟩, ?_, ?_⟩
    · simp [RunLengthByteWriter.write, RunLengthByteWriter.pending]
    · simp [RunLengthByteWriter.write]
    · simp [RunLengthByteWriter.write]
  · cases rp with
    | true =>
      obtain ⟨h3, h130, hne⟩ := hr rfl
      obtain ⟨x, xs, rfl⟩ := List.exists_cons_of_ne_nil hne
      by_cases hx : v = x
      · subst hx
        by_cases hmax : n + 1 = 130
        · obtain ⟨rs1, hv1, hout1, hexp1, hn1, hrp1, hls1, htl1⟩ :=
            RunLengthByteWriter.write_values_spec ⟨out, v :: xs, n + 1, true, tl⟩ rs hv hout
              (fun _ => ⟨by simp only; omega, by simp only; omega, by simp⟩)
              (fun hc => by simp at hc)
          have hw : RunLengthByteWriter.write ⟨out, v :: xs, n, true, tl⟩ v =
              RunLengthByteWriter.write_values ⟨out, v :: xs, n + 1, true, tl⟩ := by
            simp [RunLengthByteWriter.write, h0, hmax, MAX_REPEAT_SIZE, MIN_REPEAT_SIZE]
          rw [hw]
          refine ⟨⟨rs1, hv1, hout1, ?_⟩, ?_, ?_⟩
          · rw [hexp1]
            simp [RunLengthByteWriter.pending, hn1, hrp1, List.replicate_succ_snoc]
          · intro hc
            rw [hrp1] at hc
            exact absurd hc (by decide)
          · intro _
            rw [hn1, htl1 (by simp)]
            simp
        · have hw : RunLengthByteWriter.write ⟨out, v :: xs, n, true, tl⟩ v =
              ⟨out, v :: xs, n + 1, true, tl⟩ := by
            simp [RunLengthByteWriter.write, h0, hmax, MAX_REPEAT_SIZE, MIN_REPEAT_SIZE]
          rw [hw]
          refine ⟨⟨rs, hv, hout, ?_⟩, ?_, ?_⟩
          · simp [RunLengthByteWriter.pending, List.replicate_succ_snoc]
          · intro _
            exact ⟨by simp only; omega, by simp only; omega, by simp⟩
          · intro hc
            simp at hc
      · obtain ⟨rs1, hv1, hout1, hexp1, hn1, hrp1, hls1, htl1⟩ :=
          RunLengthByteWriter.write_values_spec ⟨out, x :: xs, n, true, tl⟩ rs hv hout
            (fun _ => ⟨h3, by simp only; omega, by simp⟩) (fun hc => by simp at hc)
        have hw : RunLengthByteWriter.write ⟨out, x :: xs, n, true, tl⟩ v =
            { RunLengthByteWriter.write_values ⟨out, x :: xs, n, true, tl⟩ with
              literals := [v], num_literals := 1, tail_run_length := 1 } := by
          simp [RunLengthByteWriter.write, h0, hx]
        rw [hw]
        refine ⟨⟨rs1, hv1, hout1, ?_⟩, ?_, ?_⟩
        · rw [hexp1]
          simp [RunLengthByteWriter.pending, hrp1]
        · intro hc
          simp only [hrp1] at hc
          exact absurd hc (by decide)
        · intro _
          simp
    | false =>
      obtain ⟨h128, hlen, htail⟩ := hl rfl
      by_cases heq : some v = ls[n - 1]?
      · by_cases ht : tl + 1 = 3
        · obtain ⟨h2, hprev⟩ := htail (by omega)
          have hb : ls[n - 1]? = some v := heq.symm
          have ha : ls[n - 2]? = some v := hprev.trans hb
          have htake := List.take_two_equal_tail ls n v h2 hlen ha hb
          by_cases hn2 : n + 1 = 3
          · have hw : RunLengthByteWriter.write ⟨out, ls, n, false, tl⟩ v =
                ⟨out, ls, n + 1, true, tl + 1⟩ := by
              simp [RunLengthByteWriter.write, h0, heq, ht, hn2, MIN_REPEAT_SIZE]
            rw [hw]
            have hn : n = 2 := by omega
            subst hn
            obtain ⟨x, xs, rfl⟩ : ∃ x xs, ls = x :: xs := by
              cases ls with
              | nil => simp at hlen
              | cons x xs => exact ⟨x, xs, rfl⟩
            have hxv : x = v := by simpa using ha
            subst hxv
            refine ⟨⟨rs, hv, hout, ?_⟩, ?_, ?_⟩
            · simp only [RunLengthByteWriter.pending, Bool.false_eq_true, if_false, if_true,
                List.headD_cons]
              rw [htake]
              simp [List.replicate]
            · intro _
              exact ⟨by simp only; omega, by simp only; omega, by simp⟩
            · intro hc
              simp at hc
          · obtain ⟨rs1, hv1, hout1, hexp1, hn1, hrp1, hls1, htl1⟩ :=
              RunLengthByteWriter.write_values_spec ⟨out, ls, n - 2, false, tl + 1⟩ rs hv hout
                (fun hc => by simp at hc)
                (fun _ => ⟨by simp only; omega, by simp only; omega⟩)
            have hw : RunLengthByteWriter.write ⟨out, ls, n, false, tl⟩ v =
                { RunLengthByteWriter.write_values ⟨out, ls, n - 2, false, tl + 1⟩ with
                  literals := [v], repeat_ := true, num_literals := 3 } := by
              simp [RunLengthByteWriter.write, h0, heq, ht, hn2, MIN_REPEAT_SIZE]
            rw [hw]
            refine ⟨⟨rs1, hv1, hout1, ?_⟩, ?_, ?_⟩
            · rw [hexp1]
              simp only [RunLengthByteWriter.pending, Bool.false_eq_true, if_false, if_true,
                List.headD_cons]
              rw [htake]
              simp [List.replicate]
            · intro _
              exact ⟨by simp only; omega, by simp only; omega, by simp⟩
            · intro hc
              simp at hc
        · have hw : RunLengthByteWriter.write ⟨out, ls, n, false, tl⟩ v =
              (if n + 1 = MAX_LITERAL_SIZE
                then RunLengthByteWriter.write_values ⟨out, ls.take n ++ [v], n + 1, false, tl + 1⟩
                else ⟨out, ls.take n ++ [v], n + 1, false, tl + 1⟩) := by
            simp [RunLengthByteWriter.write, h0, heq, ht, MIN_REPEAT_SIZE]
          rw [hw]
          have := RunLengthByteWriter.append_literal_inv out ls n (tl + 1) v rs hv hout h128 hlen
            (fun _ => ⟨by omega, heq.symm⟩)
          simpa [RunLengthByteWriter.pending] using this
      · have hw : RunLengthByteWriter.write ⟨out, ls, n, false, tl⟩ v =
            (if n + 1 = MAX_LITERAL_SIZE
              then RunLengthByteWriter.write_values ⟨out, ls.take n ++ [v], n + 1, false, 1⟩
              else ⟨out, ls.take n ++ [v], n + 1, false, 1⟩) := by
          simp [RunLengthByteWriter.write, h0, heq, MIN_REPEAT_SIZE]
        rw [hw]
        have := RunLengthByteWriter.append_literal_inv out ls n 1 v rs hv hout h128 hlen
          (fun hc => absurd hc (by decide))
        simpa [RunLengthByteWriter.pending] using this

theorem RunLengthByteWriter.init_inv : RunLengthByteWriter.init.Inv [] := by
  refine ⟨⟨[], by simp, rfl, rfl⟩, ?_, ?_⟩
  · intro hc
    simp [RunLengthByteWriter.init] at hc
  · intro _
    simp [RunLengthByteWriter.init]

theorem RunLengthByteWriter.foldl_write_inv (bytes : List Byte) :
    ∀ (w : RunLengthByteWriter) (consumed : List Byte), w.Inv consumed →
      (bytes.foldl RunLengthByteWriter.write w).Inv (consumed ++ bytes) := by
  induction bytes with
  | nil =>
    intro w consumed h
    simpa using h
  | cons v vs ih =>
    intro w consumed h
    have := ih (w.write v) (consumed ++ [v]) (RunLengthByteWriter.write_inv w consumed v h)
    simpa using this

/-- The encoder emits a sequence of valid records that stands for its input. -/
theorem rle_encode_records (bytes : List Byte) :
    ∃ rs : List RleRecord, (∀ rec ∈ rs, rec.valid) ∧ rle_encode bytes = rle_serialize rs ∧
      rle_expand rs = bytes := by
  have hinv := RunLengthByteWriter.foldl_write_inv bytes RunLengthByteWriter.init []
    RunLengthByteWriter.init_inv
  rw [List.nil_append] at hinv
  obtain ⟨⟨rs, hv, hout, hexp⟩, hr, hl⟩ := hinv
  obtain ⟨rs1, hv1, hout1, hexp1, -⟩ :=
    RunLengthByteWriter.write_values_spec _ rs hv hout
      (fun hc => by obtain ⟨h1, h2, h3⟩ := hr hc; exact ⟨h1, by omega, h3⟩)
      (fun hc => by obtain ⟨h1, h2, -⟩ := hl hc; exact ⟨by omega, h2⟩)
  exact ⟨rs1, hv1, hout1, by rw [hexp1, hexp]⟩

/-! ## Theorems: run-length byte codec -/

/-- C5: for every byte sequence, encoding it with the run-length byte codec and
decoding the result with `RunLengthByteReader` (`next` repeated until `has_next` is
false) terminates without error and yields exactly the original sequence. -/
theorem rle_roundtrip (bytes : List Byte) :
    rle_decode (rle_encode bytes) = some (.ok bytes) := by
  obtain ⟨rs, hv, henc, hexp⟩ := rle_encode_records bytes
  rw [henc, rle_decode_serialize rs hv, hexp]

/-! ### Helper lemmas on the loops over the column writers -/

theorem for_each_root_writer_nil {W X : Type} (call : W → X → OLAPStatus × W × X)
    (ev : Nat → OLAPStatus → Event) (i : Nat) (x : X) (res : OLAPStatus) :
    for_each_root_writer call ev i [] x res =
      { returned := false, res := res, writers := [], ctx := x, trace := [] } := by
  rw [for_each_root_writer]

theorem for_each_root_writer_cons {W X : Type} (call : W → X → OLAPStatus × W × X)
    (ev : Nat → OLAPStatus → Event) (i : Nat) (w : W) (ws : List W) (x : X)
    (res : OLAPStatus) :
    for_each_root_writer call ev i (w :: ws) x res =
      if (call w x).1 ≠ OLAP_SUCCESS then
        { returned := true, res := (call w x).1, writers := (call w x).2.1 :: ws,
          ctx := (call w x).2.2, trace := [ev i (call w x).1] }
      else
        { for_each_root_writer call ev (i + 1) ws (call w x).2.2 (call w x).1 with
          writers := (call w x).2.1 ::
            (for_each_root_writer call ev (i + 1) ws (call w x).2.2 (call w x).1).writers,
          trace := ev i (call w x).1 ::
            (for_each_root_writer call ev (i + 1) ws (call w x).2.2 (call w x).1).trace } := by
  rw [for_each_root_writer]

/-- When every call made by the loop succeeded, the loop ran to its end and `res` is
a success, provided it was one when the loop was entered. -/
theorem for_each_root_writer_success {W X : Type} (call : W → X → OLAPStatus × W × X)
    (ev : Nat → OLAPStatus → Event)
    (hev : ∀ i r, (ev i r).cw_failed = decide (r ≠ OLAP_SUCCESS))
    (ws : List W) : ∀ (i : Nat) (x : X) (res : OLAPStatus), res = OLAP_SUCCESS →
      (∀ e ∈ (for_each_root_writer call ev i ws x res).trace, e.cw_failed = false) →
      (for_each_root_writer call ev i ws x res).returned = false ∧
      (for_each_root_writer call ev i ws x res).res = OLAP_SUCCESS := by
  induction ws with
  | nil =>
    intro i x res hres _
    rw [for_each_root_writer_nil]
    exact ⟨rfl, hres⟩
  | cons w ws ih =>
    intro i x res _ htr
    rw [for_each_root_writer_cons] at htr ⊢
    by_cases hr : (call w x).1 = OLAP_SUCCESS
    · rw [if_neg (by simp [hr])] at htr ⊢
      exact ih (i + 1) _ _ hr (fun e he => htr e (List.mem_cons_of_mem _ he))
    · rw [if_pos hr] at htr
      have := htr _ (List.mem_singleton.2 rfl)
      rw [hev] at this
      simp [hr] at this

/-- A loop that executed `return res` returns a failure. -/
theorem for_each_root_writer_returned {W X : Type} (call : W → X → OLAPStatus × W × X)
    (ev : Nat → OLAPStatus → Event) (ws : List W) :
    ∀ (i : Nat) (x : X) (res : OLAPStatus),
      (for_each_root_writer call ev i ws x res).returned = true →
      (for_each_root_writer call ev i ws x res).res ≠ OLAP_SUCCESS := by
  induction ws with
  | nil =>
    intro i x res h
    rw [for_each_root_writer_nil] at h
    exact absurd h (by simp)
  | cons w ws ih =>
    intro i x res h
    rw [for_each_root_writer_cons] at h ⊢
    by_cases hr : (call w x).1 = OLAP_SUCCESS
    · rw [if_neg (by simp [hr])] at h ⊢
      exact ih (i + 1) _ _ h
    · rw [if_pos hr]
      exact hr

/-- Every event of the loop is a call of a column writer at or after the start
position. -/
theorem for_each_root_writer_trace_form {W X : Type} (call : W → X → OLAPStatus × W × X)
    (ev : Nat → OLAPStatus → Event) (ws : List W) :
    ∀ (i : Nat) (x : X) (res : OLAPStatus),
      ∀ e ∈ (for_each_root_writer call ev i ws x res).trace, ∃ k r, i ≤ k ∧ e = ev k r := by
  induction ws with
  | nil =>
    intro i x res e he
    rw [for_each_root_writer_nil] at he
    exact absurd he (List.not_mem_nil e)
  | cons w ws ih =>
    intro i x res e he
    rw [for_each_root_writer_cons] at he
    by_cases hr : (call w x).1 = OLAP_SUCCESS
    · rw [if_neg (by simp [hr])] at he
      rcases List.mem_cons.1 he with h | h
      · exact ⟨i, _, Nat.le_refl i, h⟩
      · obtain ⟨k, r, hk, hkr⟩ := ih (i + 1) _ _ e h
        exact ⟨k, r, by omega, hkr⟩
    · rw [if_pos hr] at he
      rw [List.mem_singleton] at he
      exact ⟨i, _, Nat.le_refl i, he⟩

/-- A failed call ends the loop: the loop returns the status of that call and calls
no column writer at a later position. -/
theorem for_each_root_writer_failure {W X : Type} (call : W → X → OLAPStatus × W × X)
    (ev : Nat → OLAPStatus → Event)
    (hev : ∀ a b a1 b1, ev a b = ev a1 b1 → a = a1 ∧ b = b1) (ws : List W) :
    ∀ (i : Nat) (x : X) (res : OLAPStatus) (k : Nat) (r : OLAPStatus),
      ev k r ∈ (for_each_root_writer call ev i ws x res).trace → r ≠ OLAP_SUCCESS →
      (for_each_root_writer call ev i ws x res).returned = true ∧
      (for_each_root_writer call ev i ws x res).res = r ∧
      ∀ j r1, k < j → ev j r1 ∉ (for_each_root_writer call ev i ws x res).trace := by
  induction ws with
  | nil =>
    intro i x res k r he
    rw [for_each_root_writer_nil] at he
    exact absurd he (List.not_mem_nil _)
  | cons w ws ih =>
    intro i x res k r he hne
    rw [for_each_root_writer_cons] at he ⊢
    by_cases hr : (call w x).1 = OLAP_SUCCESS
    · rw [if_neg (by simp [hr])] at he ⊢
      rcases List.mem_cons.1 he with h | h
      · exact absurd ((hev _ _ _ _ h).2.trans hr) hne
      · obtain ⟨h1, h2, h3⟩ := ih (i + 1) _ _ k r h hne
        obtain ⟨k1, r1, hk1, hkr1⟩ := for_each_root_writer_trace_form call ev ws (i + 1) _ _ _ h
        have hk : i + 1 ≤ k := by
          rw [(hev _ _ _ _ hkr1).1]; exact hk1
        refine ⟨h1, h2, ?_⟩
        intro j r2 hj hmem
        rcases List.mem_cons.1 hmem with h4 | h4
        · have := (hev _ _ _ _ h4).1
          omega
        · exact h3 j r2 hj h4
    · rw [if_pos hr] at he ⊢
      rw [List.mem_singleton] at he
      obtain ⟨hk, hkr⟩ := hev _ _ _ _ he
      refine ⟨rfl, hkr.symm, ?_⟩
      intro j r1 hj hmem
      rw [List.mem_singleton] at hmem
      have := (hev _ _ _ _ hmem).1
      omega

/-! ### Helper lemmas on `create_row_index_entry` and `write` -/

theorem SegmentWriter.create_row_index_entry_config {c : Collaborators} (sw : SegmentWriter c) :
    sw.create_row_index_entry.sw.row_count = sw.row_count ∧
    sw.create_row_index_entry.sw.num_rows_per_row_block = sw.num_rows_per_row_block ∧
    (sw.create_row_index_entry.sw.row_in_block = sw.row_in_block ∨
      sw.create_row_index_entry.sw.row_in_block = 0) := by
  unfold SegmentWriter.create_row_index_entry
  simp only
  split_ifs <;> simp

theorem SegmentWriter.create_row_index_entry_success {c : Collaborators} (sw : SegmentWriter c)
    (hi : ∀ e ∈ sw.create_row_index_entry.trace, e.cw_failed = false) :
    sw.create_row_index_entry.res = OLAP_SUCCESS ∧
    sw.create_row_index_entry.sw.row_count = sw.row_count ∧
    sw.create_row_index_entry.sw.num_rows_per_row_block = sw.num_rows_per_row_block ∧
    sw.create_row_index_entry.sw.row_in_block = 0 ∧
    sw.create_row_index_entry.sw.block_count = sw.block_count + 1 := by
  have htr : sw.create_row_index_entry.trace =
      (for_each_root_writer c.cw_create_row_index_entry Event.cw_create_row_index_entry
        0 sw.root_writers sw.streams OLAP_SUCCESS).trace := by
    unfold SegmentWriter.create_row_index_entry
    simp only
    split_ifs <;> rfl
  rw [htr] at hi
  obtain ⟨h1, h2⟩ := for_each_root_writer_success c.cw_create_row_index_entry
    Event.cw_create_row_index_entry (fun _ _ => rfl) sw.root_writers 0 sw.streams
    OLAP_SUCCESS rfl hi
  unfold SegmentWriter.create_row_index_entry
  simp only [h1, h2]
  simp

theorem SegmentWriter.create_row_index_entry_trace {c : Collaborators} (sw : SegmentWriter c) :
    ∀ e ∈ sw.create_row_index_entry.trace, ∃ k r, e = Event.cw_create_row_index_entry k r := by
  intro e he
  have htr : sw.create_row_index_entry.trace =
      (for_each_root_writer c.cw_create_row_index_entry Event.cw_create_row_index_entry
        0 sw.root_writers sw.streams OLAP_SUCCESS).trace := by
    unfold SegmentWriter.create_row_index_entry
    simp only
    split_ifs <;> rfl
  rw [htr] at he
  obtain ⟨k, r, -, h⟩ := for_each_root_writer_trace_form _ _ _ _ _ _ e he
  exact ⟨k, r, h⟩

/-- What a write does to the counters when every call of a column writer that it
made succeeded. -/
theorem SegmentWriter.write_success {c : Collaborators} (sw : SegmentWriter c)
    (row : c.RowCursor) (hcalls : ∀ e ∈ (sw.write row).trace, e.cw_failed = false) :
    (sw.write row).res = OLAP_SUCCESS ∧
    (sw.write row).sw.num_rows_per_row_block = sw.num_rows_per_row_block ∧
    (sw.write row).sw.row_count = sw.row_count + 1 ∧
    (sw.write row).sw.row_in_block =
      (if sw.row_in_block = sw.num_rows_per_row_block then 1 else sw.row_in_block + 1) ∧
    (sw.write row).sw.block_count =
      sw.block_count + (if sw.row_in_block = sw.num_rows_per_row_block then 1 else 0) := by
  by_cases hb : sw.row_in_block = sw.num_rows_per_row_block
  · have htr : (sw.write row).trace = sw.create_row_index_entry.trace ++
        (for_each_root_writer (fun w x => c.cw_write w row x) Event.cw_write 0
          sw.create_row_index_entry.sw.root_writers sw.create_row_index_entry.sw.streams
          sw.create_row_index_entry.res).trace := by
      unfold SegmentWriter.write
      simp only [if_pos hb]
      split_ifs <;> rfl
    rw [htr] at hcalls
    obtain ⟨h1, h2, h3, h4, h5⟩ := SegmentWriter.create_row_index_entry_success sw
      (fun e he => hcalls e (List.mem_append_left _ he))
    obtain ⟨g1, g2⟩ := for_each_root_writer_success (fun w x => c.cw_write w row x)
      Event.cw_write (fun _ _ => rfl) sw.create_row_index_entry.sw.root_writers 0
      sw.create_row_index_entry.sw.streams sw.create_row_index_entry.res h1
      (fun e he => hcalls e (List.mem_append_right _ he))
    unfold SegmentWriter.write
    simp only [if_pos hb, g1, g2]
    simp [h2, h3, h4, h5]
  · have htr : (sw.write row).trace =
        (for_each_root_writer (fun w x => c.cw_write w row x) Event.cw_write 0
          sw.root_writers sw.streams OLAP_SUCCESS).trace := by
      unfold SegmentWriter.write
      simp only [if_neg hb]
      split_ifs <;> rfl
    rw [htr] at hcalls
    obtain ⟨g1, g2⟩ := for_each_root_writer_success (fun w x => c.cw_write w row x)
      Event.cw_write (fun _ _ => rfl) sw.root_writers 0 sw.streams OLAP_SUCCESS rfl hcalls
    unfold SegmentWriter.write
    simp only [if_neg hb, g1, g2]
    simp

/-- The first step of `write`: the state, status and calls after the block boundary
has been handled. -/
theorem SegmentWriter.write_eq {c : Collaborators} (sw : SegmentWriter c) (row : c.RowCursor) :
    ∃ o : Outcome c,
      (o = sw.create_row_index_entry ∨ o = { res := OLAP_SUCCESS, sw := sw, trace := [] }) ∧
      (sw.write row).trace = o.trace ++
        (for_each_root_writer (fun w x => c.cw_write w row x) Event.cw_write 0
          o.sw.root_writers o.sw.streams o.res).trace ∧
      (sw.write row).res =
        (for_each_root_writer (fun w x => c.cw_write w row x) Event.cw_write 0
          o.sw.root_writers o.sw.streams o.res).res ∧
      ((for_each_root_writer (fun w x => c.cw_write w row x) Event.cw_write 0
          o.sw.root_writers o.sw.streams o.res).returned = true →
        (sw.write row).sw.row_count = o.sw.row_count ∧
        (sw.write row).sw.row_in_block = o.sw.row_in_block) := by
  by_cases hb : sw.row_in_block = sw.num_rows_per_row_block
  · refine ⟨sw.create_row_index_entry, Or.inl rfl, ?_, ?_, ?_⟩
    · unfold SegmentWriter.write
      simp only [if_pos hb]
      split_ifs <;> rfl
    · unfold SegmentWriter.write
      simp only [if_pos hb]
      split_ifs <;> rfl
    · intro hret
      unfold SegmentWriter.write
      simp only [if_pos hb, hret, if_true, and_self]
  · refine ⟨{ res := OLAP_SUCCESS, sw := sw, trace := [] }, Or.inr rfl, ?_, ?_, ?_⟩
    · unfold SegmentWriter.write
      simp only [if_neg hb]
      split_ifs <;> rfl
    · unfold SegmentWriter.write
      simp only [if_neg hb]
      split_ifs <;> rfl
    · intro hret
      unfold SegmentWriter.write
      simp only [if_neg hb, hret, if_true, and_self]

theorem SegmentWriter.write_all_invariant {c : Collaborators} (rows : List c.RowCursor) :
    ∀ sw : SegmentWriter c, 1 ≤ sw.num_rows_per_row_block →
      sw.row_count = sw.num_rows_per_row_block * sw.block_count + sw.row_in_block →
      sw.row_in_block ≤ sw.num_rows_per_row_block →
      (∀ e ∈ sw.write_all_trace rows, e.cw_failed = false) →
      (sw.write_all rows).num_rows_per_row_block = sw.num_rows_per_row_block ∧
      (sw.write_all rows).row_count = sw.row_count + rows.length ∧
      (sw.write_all rows).row_count =
        sw.num_rows_per_row_block * (sw.write_all rows).block_count +
          (sw.write_all rows).row_in_block ∧
      (sw.write_all rows).row_in_block ≤ sw.num_rows_per_row_block := by
  induction rows with
  | nil =>
    intro sw _ h1 h2 _
    exact ⟨rfl, rfl, h1, h2⟩
  | cons row rows ih =>
    intro sw hN h1 h2 hcalls
    have htr : sw.write_all_trace (row :: rows) =
        (sw.write row).trace ++ (sw.write row).sw.write_all_trace rows := rfl
    rw [htr] at hcalls
    obtain ⟨-, g2, g3, g4, g5⟩ := SegmentWriter.write_success sw row
      (fun e he => hcalls e (List.mem_append_left _ he))
    have hstep : (sw.write_all (row :: rows)) = (sw.write row).sw.write_all rows := rfl
    rw [hstep]
    have hinv : (sw.write row).sw.row_count =
        sw.num_rows_per_row_block * (sw.write row).sw.block_count +
          (sw.write row).sw.row_in_block ∧
        (sw.write row).sw.row_in_block ≤ sw.num_rows_per_row_block := by
      by_cases hb : sw.row_in_block = sw.num_rows_per_row_block
      · rw [if_pos hb] at g4 g5
        rw [g3, g4, g5, h1, hb, Nat.mul_add, Nat.mul_one]
        omega
      · rw [if_neg hb] at g4 g5
        rw [Nat.add_zero] at g5
        rw [g3, g4, g5, h1]
        omega
    obtain ⟨k1, k2, k3, k4⟩ := ih (sw.write row).sw (by rw [g2]; exact hN)
      (by rw [g2]; exact hinv.1) (by rw [g2]; exact hinv.2)
      (fun e he => hcalls e (List.mem_append_right _ he))
    rw [g2] at k1 k3 k4
    refine ⟨k1, ?_, k3, k4⟩
    rw [k2, g3, List.length_cons]
    omega

/-! ## Theorems: SegmentWriter::write -/

/-- C6: with rows-per-block N >= 1, after any sequence of writes on a new segment
writer during which every column-writer call succeeded, `_row_count` is the number of
rows written, `_row_count = N * _block_count + _row_in_block` and `_row_in_block <= N`;
and a further write whose column-writer calls succeed returns success and creates a
row-index checkpoint exactly when `_row_in_block = N`, that is when N rows have been
written since the last checkpoint. -/
theorem SegmentWriter.checkpoint_every_block {c : Collaborators} (sw0 : SegmentWriter c)
    (rows : List c.RowCursor) (hN : 1 ≤ sw0.num_rows_per_row_block)
    (h0 : sw0.row_count = 0 ∧ sw0.row_in_block = 0 ∧ sw0.block_count = 0)
    (hcalls : ∀ e ∈ sw0.write_all_trace rows, e.cw_failed = false) :
    (sw0.write_all rows).row_count = rows.length ∧
    (sw0.write_all rows).row_count =
      sw0.num_rows_per_row_block * (sw0.write_all rows).block_count +
        (sw0.write_all rows).row_in_block ∧
    (sw0.write_all rows).row_in_block ≤ sw0.num_rows_per_row_block ∧
    ∀ row, (∀ e ∈ ((sw0.write_all rows).write row).trace, e.cw_failed = false) →
      ((sw0.write_all rows).write row).res = OLAP_SUCCESS ∧
      (((sw0.write_all rows).write row).sw.block_count = (sw0.write_all rows).block_count + 1 ↔
        (sw0.write_all rows).row_in_block = sw0.num_rows_per_row_block) := by
  obtain ⟨hrc, hrb, hbc⟩ := h0
  obtain ⟨k1, k2, k3, k4⟩ := SegmentWriter.write_all_invariant rows sw0 hN
    (by rw [hrc, hrb, hbc]; simp) (by rw [hrb]; omega) hcalls
  refine ⟨by rw [k2, hrc]; simp, k3, k4, ?_⟩
  intro row hrow
  obtain ⟨g1, -, -, -, g5⟩ := SegmentWriter.write_success (sw0.write_all rows) row hrow
  refine ⟨g1, ?_⟩
  rw [g5, k1]
  by_cases hb : (sw0.write_all rows).row_in_block = sw0.num_rows_per_row_block
  · simp [hb]
  · simp [hb]

theorem SegmentWriter.checkpoint_every_block_witness :
    ((demo_writer [⟨OLAP_SUCCESS, OLAP_SUCCESS⟩] 2 0 0 0).write_all [(), (), (), (), ()]).row_count
        = 5 ∧
    ((demo_writer [⟨OLAP_SUCCESS, OLAP_SUCCESS⟩] 2 0 0 0).write_all [(), (), (), (), ()]).row_count
        = 2 * ((demo_writer [⟨OLAP_SUCCESS, OLAP_SUCCESS⟩] 2 0 0 0).write_all
            [(), (), (), (), ()]).block_count +
          ((demo_writer [⟨OLAP_SUCCESS, OLAP_SUCCESS⟩] 2 0 0 0).write_all
            [(), (), (), (), ()]).row_in_block ∧
    ((demo_writer [⟨OLAP_SUCCESS, OLAP_SUCCESS⟩] 2 0 0 0).write_all [(), (), (), (), ()]).row_in_block
        ≤ 2 :=
  have h := SegmentWriter.checkpoint_every_block
    (demo_writer [⟨OLAP_SUCCESS, OLAP_SUCCESS⟩] 2 0 0 0) [(), (), (), (), ()]
    (by decide) (by decide) (by decide)
  ⟨h.1, h.2.1, h.2.2.1⟩

/-- C7: if the write of the column writer at position `i` fails with status `e` during
`SegmentWriter::write`, then `write` returns `e`, no column writer at a later position
is called, `_row_count` is unchanged and `_row_in_block` is not incremented. -/
theorem SegmentWriter.write_failure_aborts {c : Collaborators} (sw : SegmentWriter c)
    (row : c.RowCursor) (i : Nat) (e : OLAPStatus) (he : e ≠ OLAP_SUCCESS)
    (hcall : Event.cw_write i e ∈ (sw.write row).trace) :
    (sw.write row).res = e ∧
    (∀ j r, i < j → Event.cw_write j r ∉ (sw.write row).trace) ∧
    (sw.write row).sw.row_count = sw.row_count ∧
    (sw.write row).sw.row_in_block ≤ sw.row_in_block := by
  obtain ⟨o, ho, htrace, hres, hcnt⟩ := SegmentWriter.write_eq sw row
  have hotrace : ∀ j r, Event.cw_write j r ∉ o.trace := by
    intro j r hmem
    rcases ho with h | h
    · rw [h] at hmem
      obtain ⟨k, r1, hk⟩ := SegmentWriter.create_row_index_entry_trace sw _ hmem
      exact absurd hk (by simp)
    · rw [h] at hmem
      exact absurd hmem (List.not_mem_nil _)
  have hosw : o.sw.row_count = sw.row_count ∧ o.sw.row_in_block ≤ sw.row_in_block := by
    rcases ho with h | h
    · rw [h]
      obtain ⟨h1, -, h3⟩ := SegmentWriter.create_row_index_entry_config sw
      exact ⟨h1, by omega⟩
    · rw [h]
      exact ⟨rfl, Nat.le_refl _⟩
  rw [htrace] at hcall
  have hl := (List.mem_append.1 hcall).resolve_left (hotrace i e)
  obtain ⟨h1, h2, h3⟩ := for_each_root_writer_failure (fun w x => c.cw_write w row x)
    Event.cw_write (fun a b a1 b1 h => by simpa using h) _ 0 _ _ i e hl he
  obtain ⟨h4, h5⟩ := hcnt h1
  refine ⟨hres.trans h2, ?_, h4.trans hosw.1, by rw [h5]; exact hosw.2⟩
  intro j r hj hmem
  rw [htrace] at hmem
  exact h3 j r hj ((List.mem_append.1 hmem).resolve_left (hotrace j r))

theorem SegmentWriter.write_failure_aborts_witness :
    ((demo_writer [⟨OLAP_SUCCESS, OLAP_SUCCESS⟩, ⟨OLAP_ERR_IO_ERROR, OLAP_SUCCESS⟩,
        ⟨OLAP_SUCCESS, OLAP_SUCCESS⟩] 2 4 2 1).write ()).res = OLAP_ERR_IO_ERROR :=
  (SegmentWriter.write_failure_aborts
    (demo_writer [⟨OLAP_SUCCESS, OLAP_SUCCESS⟩, ⟨OLAP_ERR_IO_ERROR, OLAP_SUCCESS⟩,
      ⟨OLAP_SUCCESS, OLAP_SUCCESS⟩] 2 4 2 1) () 1 OLAP_ERR_IO_ERROR (by decide) (by decide)).1

/-- C8 (the code at the failing input): with one column writer whose
`create_row_index_entry` fails and whose `write` succeeds, at a block boundary
(`_row_in_block = N = 1`), `SegmentWriter::write` calls `create_row_index_entry`, gets
the failure, and returns `OLAP_SUCCESS`; `_row_in_block` becomes 2, above N, while
`create_row_index_entry` called on the same state returns the error. -/
theorem SegmentWriter.write_swallows_index_failure :
    ((demo_writer [⟨OLAP_SUCCESS, OLAP_ERR_MALLOC_ERROR⟩] 1 1 1 0).write ()).trace =
      [Event.cw_create_row_index_entry 0 OLAP_ERR_MALLOC_ERROR,
        Event.cw_write 0 OLAP_SUCCESS] ∧
    ((demo_writer [⟨OLAP_SUCCESS, OLAP_ERR_MALLOC_ERROR⟩] 1 1 1 0).write ()).res =
      OLAP_SUCCESS ∧
    ((demo_writer [⟨OLAP_SUCCESS, OLAP_ERR_MALLOC_ERROR⟩] 1 1 1 0).write ()).sw.row_in_block
      = 2 ∧
    (demo_writer [⟨OLAP_SUCCESS, OLAP_ERR_MALLOC_ERROR⟩] 1 1 1 0).create_row_index_entry.res =
      OLAP_ERR_MALLOC_ERROR := by
  decide

/-! ### Helper lemmas on the loops over the streams -/

theorem SegmentWriter.stream_info_loop_nil (c : Collaborators) (store : StreamName → c.OutStream)
    (infos : List StreamInfoMessage) (il dl : Nat) (res : OLAPStatus) :
    SegmentWriter.stream_info_loop c [] store infos il dl res =
      { returned := false, res := res, store := store, stream_info := infos,
        index_length := il, data_length := dl, trace := [] } := by
  rw [SegmentWriter.stream_info_loop]

theorem SegmentWriter.stream_info_loop_suppressed (c : Collaborators) (name : StreamName)
    (rest : List StreamName) (store : StreamName → c.OutStream)
    (infos : List StreamInfoMessage) (il dl : Nat) (res : OLAPStatus)
    (h : c.is_suppressed (store name) = true) :
    SegmentWriter.stream_info_loop c (name :: rest) store infos il dl res =
      SegmentWriter.stream_info_loop c rest store infos il dl res := by
  rw [SegmentWriter.stream_info_loop]
  simp [h]

theorem SegmentWriter.stream_info_loop_flush_failed (c : Collaborators) (name : StreamName)
    (rest : List StreamName) (store : StreamName → c.OutStream)
    (infos : List StreamInfoMessage) (il dl : Nat) (res : OLAPStatus)
    (h : c.is_suppressed (store name) = false)
    (hf : (c.flush (store name)).1 ≠ OLAP_SUCCESS) :
    SegmentWriter.stream_info_loop c (name :: rest) store infos il dl res =
      { returned := true, res := (c.flush (store name)).1,
        store := Function.update store name (c.flush (store name)).2, stream_info := infos,
        index_length := il, data_length := dl,
        trace := [Event.stream_flush name (c.flush (store name)).1] } := by
  rw [SegmentWriter.stream_info_loop]
  simp [h, hf]

/-- One round of the loop on a stream that is not suppressed and flushes: the entry
is appended, the length is added to one of the two totals, and the rest of the loop
runs on the flushed stream. -/
theorem SegmentWriter.stream_info_loop_flushed (c : Collaborators) (name : StreamName)
    (rest : List StreamName) (store : StreamName → c.OutStream)
    (infos : List StreamInfoMessage) (il dl : Nat) (res : OLAPStatus)
    (h : c.is_suppressed (store name) = false)
    (hf : (c.flush (store name)).1 = OLAP_SUCCESS) :
    SegmentWriter.stream_info_loop c (name :: rest) store infos il dl res =
      { SegmentWriter.stream_info_loop c rest
          (Function.update store name (c.flush (store name)).2)
          (infos ++ [{ length := c.get_stream_length (c.flush (store name)).2,
                       column_unique_id := name.unique_column_id, kind := name.kind }])
          (if name.kind = ROW_INDEX ∨ name.kind = BLOOM_FILTER
            then (il + c.get_stream_length (c.flush (store name)).2) % 2 ^ 64 else il)
          (if name.kind = ROW_INDEX ∨ name.kind = BLOOM_FILTER
            then dl else (dl + c.get_stream_length (c.flush (store name)).2) % 2 ^ 64)
          OLAP_SUCCESS with
        trace := Event.stream_flush name OLAP_SUCCESS ::
          (SegmentWriter.stream_info_loop c rest
            (Function.update store name (c.flush (store name)).2)
            (infos ++ [{ length := c.get_stream_length (c.flush (store name)).2,
                         column_unique_id := name.unique_column_id, kind := name.kind }])
            (if name.kind = ROW_INDEX ∨ name.kind = BLOOM_FILTER
              then (il + c.get_stream_length (c.flush (store name)).2) % 2 ^ 64 else il)
            (if name.kind = ROW_INDEX ∨ name.kind = BLOOM_FILTER
              then dl else (dl + c.get_stream_length (c.flush (store name)).2) % 2 ^ 64)
            OLAP_SUCCESS).trace } := by
  by_cases hk : name.kind = ROW_INDEX ∨ name.kind = BLOOM_FILTER
  · rw [SegmentWriter.stream_info_loop]
    simp [h, hf, hk]
  · rw [SegmentWriter.stream_info_loop]
    simp [h, hf, hk]

/-- A stream loop that executed `return res` returns a failure. -/
theorem SegmentWriter.stream_info_loop_returned (c : Collaborators) (names : List StreamName) :
    ∀ (store : StreamName → c.OutStream) (infos : List StreamInfoMessage) (il dl : Nat)
      (res : OLAPStatus),
      (SegmentWriter.stream_info_loop c names store infos il dl res).returned = true →
      (SegmentWriter.stream_info_loop c names store infos il dl res).res ≠ OLAP_SUCCESS := by
  induction names with
  | nil =>
    intro store infos il dl res h
    rw [SegmentWriter.stream_info_loop_nil] at h
    exact absurd h (by simp)
  | cons name rest ih =>
    intro store infos il dl res h
    by_cases hs : c.is_suppressed (store name) = true
    · rw [SegmentWriter.stream_info_loop_suppressed c name rest store infos il dl res hs] at h ⊢
      exact ih _ _ _ _ _ h
    · have hs1 : c.is_suppressed (store name) = false := by simpa using hs
      by_cases hf : (c.flush (store name)).1 = OLAP_SUCCESS
      · rw [SegmentWriter.stream_info_loop_flushed c name rest store infos il dl res hs1 hf] at h ⊢
        exact ih _ _ _ _ _ h
      · rw [SegmentWriter.stream_info_loop_flush_failed c name rest store infos il dl res hs1 hf]
        exact hf

/-- The loop leaves alone every stream that is not among the keys it visits. -/
theorem SegmentWriter.stream_info_loop_store_other (c : Collaborators) (names : List StreamName) :
    ∀ (store : StreamName → c.OutStream) (infos : List StreamInfoMessage) (il dl : Nat)
      (res : OLAPStatus) (n : StreamName), n ∉ names →
      (SegmentWriter.stream_info_loop c names store infos il dl res).store n = store n := by
  induction names with
  | nil =>
    intro store infos il dl res n _
    rw [SegmentWriter.stream_info_loop_nil]
  | cons name rest ih =>
    intro store infos il dl res n hn
    have hne : n ≠ name := fun h => hn (h ▸ List.mem_cons_self _ _)
    have hrest : n ∉ rest := fun h => hn (List.mem_cons_of_mem _ h)
    by_cases hs : c.is_suppressed (store name) = true
    · rw [SegmentWriter.stream_info_loop_suppressed c name rest store infos il dl res hs]
      exact ih _ _ _ _ _ n hrest
    · have hs1 : c.is_suppressed (store name) = false := by simpa using hs
      by_cases hf : (c.flush (store name)).1 = OLAP_SUCCESS
      · rw [SegmentWriter.stream_info_loop_flushed c name rest store infos il dl res hs1 hf]
        simp only
        rw [ih _ _ _ _ _ n hrest, Function.update_noteq hne]
      · rw [SegmentWriter.stream_info_loop_flush_failed c name rest store infos il dl res hs1 hf]
        simp only
        rw [Function.update_noteq hne]

/-- A loop that ran to its end over distinct keys has flushed exactly the streams that
were not suppressed and has appended one entry for each of them, in the order of the
keys, with the length of the flushed stream. -/
theorem SegmentWriter.stream_info_loop_spec (c : Collaborators) (names : List StreamName) :
    ∀ (store : StreamName → c.OutStream) (infos : List StreamInfoMessage) (il dl : Nat)
      (res : OLAPStatus), names.Nodup →
      (SegmentWriter.stream_info_loop c names store infos il dl res).returned = false →
      (∀ n ∈ names,
        (SegmentWriter.stream_info_loop c names store infos il dl res).store n =
          if c.is_suppressed (store n) then store n else (c.flush (store n)).2) ∧
      (SegmentWriter.stream_info_loop c names store infos il dl res).stream_info =
        infos ++ (names.filter (fun n => !c.is_suppressed (store n))).map (fun n =>
          { length := c.get_stream_length
              ((SegmentWriter.stream_info_loop c names store infos il dl res).store n),
            column_unique_id := n.unique_column_id, kind := n.kind }) := by
  induction names with
  | nil =>
    intro store infos il dl res _ _
    rw [SegmentWriter.stream_info_loop_nil]
    simp
  | cons name rest ih =>
    intro store infos il dl res hnd hret
    have hnotin : name ∉ rest := (List.nodup_cons.1 hnd).1
    have hnd1 : rest.Nodup := (List.nodup_cons.1 hnd).2
    by_cases hs : c.is_suppressed (store name) = true
    · rw [SegmentWriter.stream_info_loop_suppressed c name rest store infos il dl res hs] at hret ⊢
      obtain ⟨h1, h2⟩ := ih store infos il dl res hnd1 hret
      refine ⟨?_, ?_⟩
      · intro n hn
        rcases List.mem_cons.1 hn with h | h
        · subst h
          rw [SegmentWriter.stream_info_loop_store_other c rest store infos il dl res n hnotin,
            if_pos hs]
        · exact h1 n h
      · rw [h2, List.filter_cons_of_neg (by simp [hs])]
    · have hs1 : c.is_suppressed (store name) = false := by simpa using hs
      by_cases hf : (c.flush (store name)).1 = OLAP_SUCCESS
      · rw [SegmentWriter.stream_info_loop_flushed c name rest store infos il dl res hs1 hf]
          at hret ⊢
        simp only at hret ⊢
        obtain ⟨h1, h2⟩ := ih _ _ _ _ _ hnd1 hret
        have hupd : ∀ n ∈ rest,
            Function.update store name (c.flush (store name)).2 n = store n := by
          intro n hn
          have hne : n ≠ name := fun h => hnotin (h ▸ hn)
          exact Function.update_noteq hne _ _
        have hname := SegmentWriter.stream_info_loop_store_other c rest
          (Function.update store name (c.flush (store name)).2)
          (infos ++ [{ length := c.get_stream_length (c.flush (store name)).2,
                       column_unique_id := name.unique_column_id, kind := name.kind }])
          (if name.kind = ROW_INDEX ∨ name.kind = BLOOM_FILTER
            then (il + c.get_stream_length (c.flush (store name)).2) % 2 ^ 64 else il)
          (if name.kind = ROW_INDEX ∨ name.kind = BLOOM_FILTER
            then dl else (dl + c.get_stream_length (c.flush (store name)).2) % 2 ^ 64)
          OLAP_SUCCESS name hnotin
        rw [Function.update_same] at hname
        refine ⟨?_, ?_⟩
        · intro n hn
          rcases List.mem_cons.1 hn with h | h
          · subst h
            rw [hname, hs1]
            simp
          · rw [h1 n h, hupd n h]
        · rw [h2, List.filter_cons_of_pos (by simp [hs1]), List.map_cons, hname,
            List.append_assoc, List.singleton_append]
          congr 2
          apply congrArg
          apply List.filter_congr
          intro n hn
          rw [hupd n hn]
      · rw [SegmentWriter.stream_info_loop_flush_failed c name rest store infos il dl res hs1 hf]
          at hret
        exact absurd hret (by simp)

/-! ### Helper lemmas on `_make_file_header` -/

theorem SegmentWriter.bloom_filter_loop_stream_info (c : Collaborators)
    (ws : List c.ColumnWriter) :
    ∀ (vars : Bool × Nat × Nat) (file_header : ColumnDataHeaderMessage c.ColumnMessage),
      (SegmentWriter.bloom_filter_loop c ws vars file_header).stream_info =
        file_header.stream_info := by
  induction ws with
  | nil =>
    intro vars file_header
    rw [SegmentWriter.bloom_filter_loop]
  | cons w ws ih =>
    intro vars file_header
    rw [SegmentWriter.bloom_filter_loop]
    rcases c.cw_get_bloom_filter_info w vars with ⟨has_bf, num, bits⟩
    simp only
    split_ifs
    · rfl
    · exact ih _ _

/-- A successful `_make_file_header` ran both of its loops to their end; its result is
what the loop over the streams, started on the streams the column writers left, has
produced. -/
theorem SegmentWriter.make_file_header_success {c : Collaborators} (sw : SegmentWriter c)
    (file_header : ColumnDataHeaderMessage c.ColumnMessage)
    (hres : (sw._make_file_header file_header).res = OLAP_SUCCESS) :
    ∃ res0 : OLAPStatus,
      (SegmentWriter.stream_info_loop c (sw.streams_at_header file_header).names
        (sw.streams_at_header file_header).store file_header.stream_info 0 0 res0).returned
          = false ∧
      (sw._make_file_header file_header).file_header.stream_info =
        (SegmentWriter.stream_info_loop c (sw.streams_at_header file_header).names
          (sw.streams_at_header file_header).store file_header.stream_info 0 0 res0).stream_info ∧
      (sw._make_file_header file_header).file_header.index_length =
        some (SegmentWriter.stream_info_loop c (sw.streams_at_header file_header).names
          (sw.streams_at_header file_header).store file_header.stream_info 0 0 res0).index_length ∧
      (sw._make_file_header file_header).file_header.data_length =
        some (SegmentWriter.stream_info_loop c (sw.streams_at_header file_header).names
          (sw.streams_at_header file_header).store file_header.stream_info 0 0 res0).data_length ∧
      (sw._make_file_header file_header).sw.streams.names =
        (sw.streams_at_header file_header).names ∧
      (sw._make_file_header file_header).sw.streams.store =
        (SegmentWriter.stream_info_loop c (sw.streams_at_header file_header).names
          (sw.streams_at_header file_header).store file_header.stream_info 0 0 res0).store ∧
      (sw._make_file_header file_header).sw.write_mbytes_per_sec = sw.write_mbytes_per_sec := by
  have hsi : (sw.finalize_columns file_header).1.stream_info = file_header.stream_info := by
    unfold SegmentWriter.finalize_columns
    simp only
    rw [SegmentWriter.bloom_filter_loop_stream_info]
  refine ⟨(sw.finalize_columns file_header).2.res, ?_⟩
  unfold SegmentWriter.streams_at_header
  rw [← hsi]
  unfold SegmentWriter._make_file_header at hres ⊢
  by_cases hl : (sw.finalize_columns file_header).2.returned = true
  · have hne := for_each_root_writer_returned c.cw_finalize Event.cw_finalize sw.root_writers 0
      ((sw.finalize_columns file_header).1.column, sw.streams) OLAP_SUCCESS hl
    simp only [hl, if_true] at hres
    exact absurd hres hne
  · simp only [hl] at hres ⊢
    by_cases hs : (SegmentWriter.stream_info_loop c (sw.finalize_columns file_header).2.ctx.2.names
        (sw.finalize_columns file_header).2.ctx.2.store
        (sw.finalize_columns file_header).1.stream_info 0 0
        (sw.finalize_columns file_header).2.res).returned = true
    · have hne := SegmentWriter.stream_info_loop_returned c _ _ _ _ _ _ hs
      simp only [hs, if_true] at hres
      exact absurd hres hne
    · simp only [hs]
      simp

/-- The keys of a stream map are distinct. -/
theorem StreamMap.names_nodup {S : Type} (m : StreamMap S) : m.names.Nodup := by
  refine List.Pairwise.imp ?_ m.ordered
  intro a b hab heq
  subst heq
  rw [StreamName.lt_irrefl_aux] at hab
  exact absurd hab (by decide)

/-! ### Helper lemmas on `finalize` -/

theorem SegmentWriter.payload_loop_nil (c : Collaborators) (store : StreamName → c.OutStream)
    (rate checksum : Nat) (fh : c.FileHandler) (res : OLAPStatus) :
    SegmentWriter.payload_loop c store rate [] checksum fh res =
      { returned := false, res := res, checksum := checksum, file_handle := fh,
        trace := [] } := by
  rw [SegmentWriter.payload_loop]

theorem SegmentWriter.payload_loop_suppressed (c : Collaborators)
    (store : StreamName → c.OutStream) (rate checksum : Nat) (fh : c.FileHandler)
    (res : OLAPStatus) (name : StreamName) (rest : List StreamName)
    (h : c.is_suppressed (store name) = true) :
    SegmentWriter.payload_loop c store rate (name :: rest) checksum fh res =
      SegmentWriter.payload_loop c store rate rest checksum fh res := by
  rw [SegmentWriter.payload_loop]
  simp [h]

theorem SegmentWriter.payload_loop_write_failed (c : Collaborators)
    (store : StreamName → c.OutStream) (rate checksum : Nat) (fh : c.FileHandler)
    (res : OLAPStatus) (name : StreamName) (rest : List StreamName)
    (h : c.is_suppressed (store name) = false)
    (hf : (c.write_to_file (store name) fh rate).1 ≠ OLAP_SUCCESS) :
    SegmentWriter.payload_loop c store rate (name :: rest) checksum fh res =
      { returned := true, res := (c.write_to_file (store name) fh rate).1,
        checksum := c.crc32 (store name) checksum,
        file_handle := (c.write_to_file (store name) fh rate).2,
        trace := [Event.stream_crc32 name,
          Event.stream_write_to_file name (c.write_to_file (store name) fh rate).1] } := by
  rw [SegmentWriter.payload_loop]
  simp [h, hf]

theorem SegmentWriter.payload_loop_written (c : Collaborators)
    (store : StreamName → c.OutStream) (rate checksum : Nat) (fh : c.FileHandler)
    (res : OLAPStatus) (name : StreamName) (rest : List StreamName)
    (h : c.is_suppressed (store name) = false)
    (hf : (c.write_to_file (store name) fh rate).1 = OLAP_SUCCESS) :
    SegmentWriter.payload_loop c store rate (name :: rest) checksum fh res =
      { SegmentWriter.payload_loop c store rate rest (c.crc32 (store name) checksum)
          (c.write_to_file (store name) fh rate).2 OLAP_SUCCESS with
        trace := Event.stream_crc32 name :: Event.stream_write_to_file name OLAP_SUCCESS ::
          (SegmentWriter.payload_loop c store rate rest (c.crc32 (store name) checksum)
            (c.write_to_file (store name) fh rate).2 OLAP_SUCCESS).trace } := by
  rw [SegmentWriter.payload_loop]
  simp [h, hf]

/-- A payload loop that executed `return res` returns a failure. -/
theorem SegmentWriter.payload_loop_returned (c : Collaborators)
    (store : StreamName → c.OutStream) (rate : Nat) (names : List StreamName) :
    ∀ (checksum : Nat) (fh : c.FileHandler) (res : OLAPStatus),
      (SegmentWriter.payload_loop c store rate names checksum fh res).returned = true →
      (SegmentWriter.payload_loop c store rate names checksum fh res).res ≠ OLAP_SUCCESS := by
  induction names with
  | nil =>
    intro checksum fh res h
    rw [SegmentWriter.payload_loop_nil] at h
    exact absurd h (by simp)
  | cons name rest ih =>
    intro checksum fh res h
    by_cases hs : c.is_suppressed (store name) = true
    · rw [SegmentWriter.payload_loop_suppressed c store rate checksum fh res name rest hs] at h ⊢
      exact ih _ _ _ h
    · have hs1 : c.is_suppressed (store name) = false := by simpa using hs
      by_cases hf : (c.write_to_file (store name) fh rate).1 = OLAP_SUCCESS
      · rw [SegmentWriter.payload_loop_written c store rate checksum fh res name rest hs1 hf]
          at h ⊢
        exact ih _ _ _ h
      · rw [SegmentWriter.payload_loop_write_failed c store rate checksum fh res name rest hs1 hf]
        exact hf

/-- A payload loop that ran to its end has written exactly the streams that are not
suppressed, each once, in the order of the keys. -/
theorem SegmentWriter.payload_loop_streams (c : Collaborators)
    (store : StreamName → c.OutStream) (rate : Nat) (names : List StreamName) :
    ∀ (checksum : Nat) (fh : c.FileHandler) (res : OLAPStatus),
      (SegmentWriter.payload_loop c store rate names checksum fh res).returned = false →
      SegmentWriter.written_streams
          (SegmentWriter.payload_loop c store rate names checksum fh res).trace =
        names.filter (fun n => !c.is_suppressed (store n)) := by
  induction names with
  | nil =>
    intro checksum fh res _
    rw [SegmentWriter.payload_loop_nil]
    rfl
  | cons name rest ih =>
    intro checksum fh res h
    by_cases hs : c.is_suppressed (store name) = true
    · rw [SegmentWriter.payload_loop_suppressed c store rate checksum fh res name rest hs] at h ⊢
      rw [ih _ _ _ h, List.filter_cons_of_neg (by simp [hs])]
    · have hs1 : c.is_suppressed (store name) = false := by simpa using hs
      by_cases hf : (c.write_to_file (store name) fh rate).1 = OLAP_SUCCESS
      · rw [SegmentWriter.payload_loop_written c store rate checksum fh res name rest hs1 hf]
          at h ⊢
        simp only at h ⊢
        rw [List.filter_cons_of_pos (by simp [hs1]), ← ih _ _ _ h]
        simp [SegmentWriter.written_streams]
      · rw [SegmentWriter.payload_loop_write_failed c store rate checksum fh res name rest hs1 hf]
          at h
        exact absurd h (by simp)

theorem SegmentWriter.written_streams_append (t1 t2 : List Event) :
    SegmentWriter.written_streams (t1 ++ t2) =
      SegmentWriter.written_streams t1 ++ SegmentWriter.written_streams t2 := by
  simp [SegmentWriter.written_streams, List.filterMap_append]

/-- No stream is written to the file by a loop over the column writers. -/
theorem for_each_root_writer_written {W X : Type} (call : W → X → OLAPStatus × W × X)
    (ev : Nat → OLAPStatus → Event)
    (hev : ∀ i r, SegmentWriter.written_streams [ev i r] = [])
    (ws : List W) (i : Nat) (x : X) (res : OLAPStatus) :
    SegmentWriter.written_streams (for_each_root_writer call ev i ws x res).trace = [] := by
  have hform := for_each_root_writer_trace_form call ev ws i x res
  generalize (for_each_root_writer call ev i ws x res).trace = t at hform
  induction t with
  | nil => rfl
  | cons e t ih =>
    have h1 : SegmentWriter.written_streams (e :: t) =
        SegmentWriter.written_streams [e] ++ SegmentWriter.written_streams t :=
      SegmentWriter.written_streams_append [e] t
    obtain ⟨k, r, -, hk⟩ := hform e (List.mem_cons_self _ _)
    rw [h1, ih (fun e1 he1 => hform e1 (List.mem_cons_of_mem _ he1)), hk, hev]
    rfl

/-- No stream is written to the file by the loop of `_make_file_header`. -/
theorem SegmentWriter.stream_info_loop_written (c : Collaborators) (names : List StreamName) :
    ∀ (store : StreamName → c.OutStream) (infos : List StreamInfoMessage) (il dl : Nat)
      (res : OLAPStatus),
      SegmentWriter.written_streams
        (SegmentWriter.stream_info_loop c names store infos il dl res).trace = [] := by
  induction names with
  | nil =>
    intro store infos il dl res
    rw [SegmentWriter.stream_info_loop_nil]
    rfl
  | cons name rest ih =>
    intro store infos il dl res
    by_cases hs : c.is_suppressed (store name) = true
    · rw [SegmentWriter.stream_info_loop_suppressed c name rest store infos il dl res hs]
      exact ih _ _ _ _ _
    · have hs1 : c.is_suppressed (store name) = false := by simpa using hs
      by_cases hf : (c.flush (store name)).1 = OLAP_SUCCESS
      · rw [SegmentWriter.stream_info_loop_flushed c name rest store infos il dl res hs1 hf]
        simp only
        have := ih (Function.update store name (c.flush (store name)).2)
          (infos ++ [{ length := c.get_stream_length (c.flush (store name)).2,
                       column_unique_id := name.unique_column_id, kind := name.kind }])
          (if name.kind = ROW_INDEX ∨ name.kind = BLOOM_FILTER
            then (il + c.get_stream_length (c.flush (store name)).2) % 2 ^ 64 else il)
          (if name.kind = ROW_INDEX ∨ name.kind = BLOOM_FILTER
            then dl else (dl + c.get_stream_length (c.flush (store name)).2) % 2 ^ 64)
          OLAP_SUCCESS
        simpa [SegmentWriter.written_streams] using this
      · rw [SegmentWriter.stream_info_loop_flush_failed c name rest store infos il dl res hs1 hf]
        rfl

theorem SegmentWriter.create_row_index_entry_written {c : Collaborators} (sw : SegmentWriter c) :
    SegmentWriter.written_streams sw.create_row_index_entry.trace = [] := by
  have htr : sw.create_row_index_entry.trace =
      (for_each_root_writer c.cw_create_row_index_entry Event.cw_create_row_index_entry
        0 sw.root_writers sw.streams OLAP_SUCCESS).trace := by
    unfold SegmentWriter.create_row_index_entry
    simp only
    split_ifs <;> rfl
  rw [htr]
  exact for_each_root_writer_written c.cw_create_row_index_entry
    Event.cw_create_row_index_entry (fun _ _ => rfl) _ _ _ _

theorem SegmentWriter.finalize_index_written {c : Collaborators} (sw : SegmentWriter c) :
    SegmentWriter.written_streams sw.finalize_index.trace = [] := by
  unfold SegmentWriter.finalize_index
  split_ifs
  · exact SegmentWriter.create_row_index_entry_written sw
  · rfl

theorem SegmentWriter.make_file_header_written {c : Collaborators} (sw : SegmentWriter c)
    (file_header : ColumnDataHeaderMessage c.ColumnMessage) :
    SegmentWriter.written_streams (sw._make_file_header file_header).trace = [] := by
  have h1 : SegmentWriter.written_streams (sw.finalize_columns file_header).2.trace = [] := by
    unfold SegmentWriter.finalize_columns
    exact for_each_root_writer_written c.cw_finalize Event.cw_finalize (fun _ _ => rfl) _ _ _ _
  unfold SegmentWriter._make_file_header
  simp only
  split_ifs
  · exact h1
  · simp only [SegmentWriter.written_streams_append, h1, List.nil_append]
    exact SegmentWriter.stream_info_loop_written c _ _ _ _ _ _
  · simp only [SegmentWriter.written_streams_append, h1, List.nil_append]
    exact SegmentWriter.stream_info_loop_written c _ _ _ _ _ _

/-- A successful `finalize` went through every step: the block was closed, the header
was built, the payload loop ran to its end on the streams `_make_file_header` left, and
the header that was written last carries the checksum of that loop and the file offset
after it. -/
theorem SegmentWriter.finalize_success {c : Collaborators} (sw : SegmentWriter c)
    (file_handle : c.FileHandler) (hres : (sw.finalize file_handle).res = OLAP_SUCCESS) :
    sw.finalize_index.res = OLAP_SUCCESS ∧ sw.finalize_header.res = OLAP_SUCCESS ∧
    ∃ (fh2 : c.FileHandler) (res1 : OLAPStatus) (pre post : List Event),
      (SegmentWriter.payload_loop c sw.finalize_header.sw.streams.store
        sw.finalize_header.sw.write_mbytes_per_sec sw.finalize_header.sw.streams.names
        c.CRC32_INIT fh2 res1).returned = false ∧
      (sw.finalize file_handle).sw = sw.finalize_header.sw ∧
      (sw.finalize file_handle).file_header.message = sw.finalize_header.file_header ∧
      (sw.finalize file_handle).file_header.checksum =
        (SegmentWriter.payload_loop c sw.finalize_header.sw.streams.store
          sw.finalize_header.sw.write_mbytes_per_sec sw.finalize_header.sw.streams.names
          c.CRC32_INIT fh2 res1).checksum ∧
      (sw.finalize file_handle).file_header.file_length =
        c.tell (SegmentWriter.payload_loop c sw.finalize_header.sw.streams.store
          sw.finalize_header.sw.write_mbytes_per_sec sw.finalize_header.sw.streams.names
          c.CRC32_INIT fh2 res1).file_handle ∧
      (sw.finalize file_handle).segment_file_size =
        some (c.tell (SegmentWriter.payload_loop c sw.finalize_header.sw.streams.store
          sw.finalize_header.sw.write_mbytes_per_sec sw.finalize_header.sw.streams.names
          c.CRC32_INIT fh2 res1).file_handle % 2 ^ 32) ∧
      (sw.finalize file_handle).trace = pre ++
        (SegmentWriter.payload_loop c sw.finalize_header.sw.streams.store
          sw.finalize_header.sw.write_mbytes_per_sec sw.finalize_header.sw.streams.names
          c.CRC32_INIT fh2 res1).trace ++ post ∧
      SegmentWriter.written_streams pre = [] ∧ SegmentWriter.written_streams post = [] := by
  unfold SegmentWriter.finalize at hres ⊢
  rcases hopen : c.open_with_mode file_handle sw.file_name with ⟨res0, fh0⟩
  simp only [hopen] at hres ⊢
  by_cases h0 : res0 = OLAP_SUCCESS
  swap
  · simp only [ne_eq, h0, not_false_eq_true, if_true] at hres
  simp only [ne_eq, h0, not_true_eq_false, if_false] at hres ⊢
  by_cases h1 : sw.finalize_index.res = OLAP_SUCCESS
  swap
  · simp only [h1, not_false_eq_true, if_true] at hres
  simp only [h1, not_true_eq_false, if_false] at hres ⊢
  by_cases h2 : sw.finalize_header.res = OLAP_SUCCESS
  swap
  · simp only [h2, not_false_eq_true, if_true] at hres
  simp only [h2, not_true_eq_false, if_false] at hres ⊢
  rcases hprep : c.header_prepare
    { message := sw.finalize_header.file_header, file_length := 0, checksum := 0 } fh0
    with ⟨res1, fh1⟩
  simp only [hprep] at hres ⊢
  by_cases h3 : res1 = OLAP_SUCCESS
  swap
  · simp only [h3, not_false_eq_true, if_true] at hres
  simp only [h3, not_true_eq_false, if_false] at hres ⊢
  rcases hseek : c.seek fh1 (c.header_size
    { message := sw.finalize_header.file_header, file_length := 0, checksum := 0 })
    with ⟨ret, fh2⟩
  simp only [hseek] at hres ⊢
  by_cases h4 : ret = -1
  · simp only [h4, if_true] at hres
    exact absurd hres (by decide)
  simp only [h4, if_false] at hres ⊢
  by_cases h5 : (SegmentWriter.payload_loop c sw.finalize_header.sw.streams.store
      sw.finalize_header.sw.write_mbytes_per_sec sw.finalize_header.sw.streams.names
      c.CRC32_INIT fh2 OLAP_SUCCESS).returned = true
  · have hne := SegmentWriter.payload_loop_returned c _ _ _ _ _ _ h5
    simp only [h5, if_true] at hres
    exact absurd hres hne
  have h5f : (SegmentWriter.payload_loop c sw.finalize_header.sw.streams.store
      sw.finalize_header.sw.write_mbytes_per_sec sw.finalize_header.sw.streams.names
      c.CRC32_INIT fh2 OLAP_SUCCESS).returned = false := by simpa using h5
  simp only [h5f, Bool.false_eq_true, if_false] at hres ⊢
  rcases hser : c.header_serialize
    { message := sw.finalize_header.file_header,
      file_length := c.tell (SegmentWriter.payload_loop c sw.finalize_header.sw.streams.store
        sw.finalize_header.sw.write_mbytes_per_sec sw.finalize_header.sw.streams.names
        c.CRC32_INIT fh2 OLAP_SUCCESS).file_handle,
      checksum := (SegmentWriter.payload_loop c sw.finalize_header.sw.streams.store
        sw.finalize_header.sw.write_mbytes_per_sec sw.finalize_header.sw.streams.names
        c.CRC32_INIT fh2 OLAP_SUCCESS).checksum }
    (SegmentWriter.payload_loop c sw.finalize_header.sw.streams.store
      sw.finalize_header.sw.write_mbytes_per_sec sw.finalize_header.sw.streams.names
      c.CRC32_INIT fh2 OLAP_SUCCESS).file_handle with ⟨res2, fh3⟩
  simp only [hser] at hres ⊢
  by_cases h6 : res2 = OLAP_SUCCESS
  swap
  · simp only [h6, not_false_eq_true, if_true] at hres
  simp only [h6, not_true_eq_false, if_false] at hres ⊢
  refine ⟨trivial, trivial, fh2, OLAP_SUCCESS,
    [Event.file_open OLAP_SUCCESS] ++ sw.finalize_index.trace ++ sw.finalize_header.trace ++
      [Event.header_prepare OLAP_SUCCESS] ++
      [Event.file_seek (c.header_size
        { message := sw.finalize_header.file_header, file_length := 0, checksum := 0 }) ret],
    [Event.file_tell (c.tell (SegmentWriter.payload_loop c sw.finalize_header.sw.streams.store
        sw.finalize_header.sw.write_mbytes_per_sec sw.finalize_header.sw.streams.names
        c.CRC32_INIT fh2 OLAP_SUCCESS).file_handle), Event.header_serialize OLAP_SUCCESS] ++
      [Event.file_close (c.close fh3).1],
    ?_⟩
  have hpre : SegmentWriter.written_streams
      ([Event.file_open OLAP_SUCCESS] ++ sw.finalize_index.trace ++ sw.finalize_header.trace ++
        [Event.header_prepare OLAP_SUCCESS] ++
        [Event.file_seek (c.header_size
          { message := sw.finalize_header.file_header, file_length := 0, checksum := 0 }) ret])
      = [] := by
    simp only [SegmentWriter.written_streams_append, SegmentWriter.finalize_index_written,
      SegmentWriter.finalize_header, SegmentWriter.make_file_header_written]
    rfl
  rw [hpre]
  simp only [h5f, List.append_assoc, true_and, and_true]
  rfl

/-! ## Theorems: the header and the payload -/

/-- C9: when `_make_file_header` succeeds on a header without stream-info entries,
the stream-info list of the header is the list of the entries of the streams of the
stream factory that are not suppressed (those the loop finds not suppressed, after the
column writers have been finalized), one for each and none for a suppressed stream,
in the order of the keys, which is ascending for `StreamName::operator<`; the entry
of a stream carries the length of that stream, its column id and its kind. -/
theorem SegmentWriter.make_file_header_stream_info {c : Collaborators} (sw : SegmentWriter c)
    (file_header : ColumnDataHeaderMessage c.ColumnMessage)
    (hres : (sw._make_file_header file_header).res = OLAP_SUCCESS)
    (hempty : file_header.stream_info = []) :
    (sw._make_file_header file_header).sw.streams.names =
      (sw.streams_at_header file_header).names ∧
    (sw._make_file_header file_header).file_header.stream_info =
      ((sw.streams_at_header file_header).names.filter
        (fun n => !c.is_suppressed ((sw.streams_at_header file_header).store n))).map
        (fun n =>
          { length := c.get_stream_length ((sw._make_file_header file_header).sw.streams.store n),
            column_unique_id := n.unique_column_id, kind := n.kind }) ∧
    ((sw.streams_at_header file_header).names.filter
      (fun n => !c.is_suppressed ((sw.streams_at_header file_header).store n))).Pairwise
      (fun a b => a.lt b = true) := by
  obtain ⟨res0, hret, hinfo, -, -, hnames, hstore, -⟩ :=
    SegmentWriter.make_file_header_success sw file_header hres
  obtain ⟨-, hspec⟩ := SegmentWriter.stream_info_loop_spec c _ _ _ _ _ _
    (StreamMap.names_nodup (sw.streams_at_header file_header)) hret
  refine ⟨hnames, ?_, List.Pairwise.filter _ (sw.streams_at_header file_header).ordered⟩
  rw [hinfo, hspec, hstore, hempty, List.nil_append]

theorem SegmentWriter.make_file_header_stream_info_witness :
    ((demo_writer [⟨OLAP_SUCCESS, OLAP_SUCCESS⟩] 2 3 1 1)._make_file_header
      (ColumnDataHeaderMessage.empty Nat)).file_header.stream_info =
      [⟨10, 1, ROW_INDEX⟩, ⟨30, 0, 2⟩, ⟨40, 1, 2⟩] :=
  (SegmentWriter.make_file_header_stream_info (demo_writer [⟨OLAP_SUCCESS, OLAP_SUCCESS⟩] 2 3 1 1)
    (ColumnDataHeaderMessage.empty Nat) (by decide) rfl).2.1

/-- C10: in a successful `finalize` the streams written to the file after the header
are exactly the streams of the stream factory that are not suppressed, each once, in
the order of the keys, which is ascending for `StreamName::operator<`; and provided
flushing does not change the suppressed flag of a stream, the streams named by the
stream-info entries of the header are the same sequence, entry by entry. -/
theorem SegmentWriter.finalize_payload_order {c : Collaborators} (sw : SegmentWriter c)
    (file_handle : c.FileHandler) (hres : (sw.finalize file_handle).res = OLAP_SUCCESS) :
    SegmentWriter.written_streams (sw.finalize file_handle).trace =
      (sw.finalize file_handle).sw.streams.names.filter
        (fun n => !c.is_suppressed ((sw.finalize file_handle).sw.streams.store n)) ∧
    (SegmentWriter.written_streams (sw.finalize file_handle).trace).Pairwise
      (fun a b => a.lt b = true) ∧
    ((∀ s, c.is_suppressed (c.flush s).2 = c.is_suppressed s) →
      (sw.finalize file_handle).file_header.message.stream_info.map
          SegmentWriter.stream_info_name =
        SegmentWriter.written_streams (sw.finalize file_handle).trace) := by
  obtain ⟨-, hm, fh2, res1, pre, post, hret, hsw, hmsg, -, -, -, htrace, hpre, hpost⟩ :=
    SegmentWriter.finalize_success sw file_handle hres
  have hwritten : SegmentWriter.written_streams (sw.finalize file_handle).trace =
      (sw.finalize file_handle).sw.streams.names.filter
        (fun n => !c.is_suppressed ((sw.finalize file_handle).sw.streams.store n)) := by
    rw [htrace, SegmentWriter.written_streams_append, SegmentWriter.written_streams_append,
      hpre, hpost, List.nil_append, List.append_nil,
      SegmentWriter.payload_loop_streams c _ _ _ _ _ _ hret, hsw]
  refine ⟨hwritten, ?_, ?_⟩
  · rw [hwritten]
    exact List.Pairwise.filter _ (sw.finalize file_handle).sw.streams.ordered
  · intro hflush
    unfold SegmentWriter.finalize_header at hm
    obtain ⟨res0, hloop, hinfo, -, -, hnames, hstore, -⟩ :=
      SegmentWriter.make_file_header_success sw.finalize_index.sw
        (ColumnDataHeaderMessage.empty c.ColumnMessage) hm
    obtain ⟨hst, hspec⟩ := SegmentWriter.stream_info_loop_spec c _ _ _ _ _ _
      (StreamMap.names_nodup (sw.finalize_index.sw.streams_at_header
        (ColumnDataHeaderMessage.empty c.ColumnMessage))) hloop
    have hhdr : (sw.finalize file_handle).file_header.message.stream_info =
        (sw.finalize_index.sw._make_file_header
          (ColumnDataHeaderMessage.empty c.ColumnMessage)).file_header.stream_info := by
      rw [hmsg]
      rfl
    have hfin : (sw.finalize file_handle).sw =
        (sw.finalize_index.sw._make_file_header
          (ColumnDataHeaderMessage.empty c.ColumnMessage)).sw := by
      rw [hsw]
      rfl
    rw [hwritten, hhdr, hfin, hinfo, hspec, hnames, hstore]
    simp only [ColumnDataHeaderMessage.empty, List.nil_append, List.map_map]
    have hmap : ∀ l : List StreamName,
        List.map (SegmentWriter.stream_info_name ∘ fun n =>
          ({ length := c.get_stream_length
              ((SegmentWriter.stream_info_loop c
                (sw.finalize_index.sw.streams_at_header
                  (ColumnDataHeaderMessage.empty c.ColumnMessage)).names
                (sw.finalize_index.sw.streams_at_header
                  (ColumnDataHeaderMessage.empty c.ColumnMessage)).store [] 0 0 res0).store n),
             column_unique_id := n.unique_column_id, kind := n.kind } : StreamInfoMessage)) l
          = l := by
      intro l
      induction l with
      | nil => rfl
      | cons a l ih => rw [List.map_cons, ih]; rfl
    simp only [ColumnDataHeaderMessage.empty] at hmap
    rw [hmap]
    apply List.filter_congr
    intro n hn
    have := hst n hn
    simp only [ColumnDataHeaderMessage.empty] at this
    rw [this]
    by_cases hs : c.is_suppressed
        ((sw.finalize_index.sw.streams_at_header
          { number_of_rows := none, compress_kind := none, stream_buffer_size := none,
            magic_string := none, version := none, num_rows_per_block := none,
            bf_hash_function_num := none, bf_bit_num := none, column := [], stream_info := [],
            index_length := none, data_length := none }).store n) = true
    · rw [if_pos hs]
    · rw [if_neg hs, hflush]

theorem SegmentWriter.finalize_payload_order_witness :
    SegmentWriter.written_streams
        ((demo_writer [⟨OLAP_SUCCESS, OLAP_SUCCESS⟩] 2 3 1 1).finalize 0).trace =
      [⟨1, ROW_INDEX⟩, ⟨0, 2⟩, ⟨1, 2⟩] :=
  (SegmentWriter.finalize_payload_order (demo_writer [⟨OLAP_SUCCESS, OLAP_SUCCESS⟩] 2 3 1 1) 0
    (by decide)).1

/-! ### Helper lemmas on the length totals of `_make_file_header` -/

theorem SegmentWriter.total_length_cons (c : Collaborators) (store : StreamName → c.OutStream)
    (n : StreamName) (names : List StreamName) :
    SegmentWriter.total_length c store (n :: names) =
      c.get_stream_length (store n) + SegmentWriter.total_length c store names := by
  simp [SegmentWriter.total_length]

theorem SegmentWriter.total_length_congr (c : Collaborators)
    (store1 store2 : StreamName → c.OutStream) (names : List StreamName)
    (h : ∀ n ∈ names, store1 n = store2 n) :
    SegmentWriter.total_length c store1 names = SegmentWriter.total_length c store2 names := by
  unfold SegmentWriter.total_length
  congr 1
  apply List.map_congr_left
  intro n hn
  rw [h n hn]

/-- The lengths of the index streams and of the other streams add up to the length of
all streams. -/
theorem SegmentWriter.total_length_split (c : Collaborators) (store : StreamName → c.OutStream)
    (names : List StreamName) :
    SegmentWriter.total_length c store (names.filter SegmentWriter.counts_as_index) +
      SegmentWriter.total_length c store
        (names.filter (fun n => !SegmentWriter.counts_as_index n)) =
      SegmentWriter.total_length c store names := by
  induction names with
  | nil => rfl
  | cons n names ih =>
    by_cases hk : SegmentWriter.counts_as_index n = true
    · rw [List.filter_cons_of_pos hk, List.filter_cons_of_neg (by simp [hk]),
        SegmentWriter.total_length_cons, SegmentWriter.total_length_cons]
      omega
    · rw [List.filter_cons_of_neg hk, List.filter_cons_of_pos (by simp [hk]),
        SegmentWriter.total_length_cons, SegmentWriter.total_length_cons]
      omega

/-- A loop that ran to its end over distinct keys has added the length of every stream
that was not suppressed to one of the two totals, in 64-bit arithmetic: the lengths of
the ROW_INDEX and BLOOM_FILTER streams to `index_length`, the others to
`data_length`. -/
theorem SegmentWriter.stream_info_loop_lengths (c : Collaborators) (names : List StreamName) :
    ∀ (store : StreamName → c.OutStream) (infos : List StreamInfoMessage) (il dl : Nat)
      (res : OLAPStatus), names.Nodup →
      (SegmentWriter.stream_info_loop c names store infos il dl res).returned = false →
      (SegmentWriter.stream_info_loop c names store infos il dl res).index_length % 2 ^ 64 =
        (il + SegmentWriter.total_length c
          (SegmentWriter.stream_info_loop c names store infos il dl res).store
          ((names.filter (fun n => !c.is_suppressed (store n))).filter
            SegmentWriter.counts_as_index)) % 2 ^ 64 ∧
      (SegmentWriter.stream_info_loop c names store infos il dl res).data_length % 2 ^ 64 =
        (dl + SegmentWriter.total_length c
          (SegmentWriter.stream_info_loop c names store infos il dl res).store
          ((names.filter (fun n => !c.is_suppressed (store n))).filter
            (fun n => !SegmentWriter.counts_as_index n))) % 2 ^ 64 ∧
      (il < 2 ^ 64 →
        (SegmentWriter.stream_info_loop c names store infos il dl res).index_length < 2 ^ 64) ∧
      (dl < 2 ^ 64 →
        (SegmentWriter.stream_info_loop c names store infos il dl res).data_length < 2 ^ 64) := by
  induction names with
  | nil =>
    intro store infos il dl res _ _
    rw [SegmentWriter.stream_info_loop_nil]
    simp [SegmentWriter.total_length]
  | cons name rest ih =>
    intro store infos il dl res hnd hret
    have hnotin : name ∉ rest := (List.nodup_cons.1 hnd).1
    have hnd1 : rest.Nodup := (List.nodup_cons.1 hnd).2
    by_cases hs : c.is_suppressed (store name) = true
    · rw [SegmentWriter.stream_info_loop_suppressed c name rest store infos il dl res hs] at hret ⊢
      rw [List.filter_cons_of_neg (by simp [hs])]
      exact ih store infos il dl res hnd1 hret
    · have hs1 : c.is_suppressed (store name) = false := by simpa using hs
      by_cases hf : (c.flush (store name)).1 = OLAP_SUCCESS
      · rw [SegmentWriter.stream_info_loop_flushed c name rest store infos il dl res hs1 hf]
          at hret ⊢
        simp only at hret ⊢
        have hupd : ∀ n ∈ rest,
            Function.update store name (c.flush (store name)).2 n = store n := by
          intro n hn
          have hne : n ≠ name := fun h => hnotin (h ▸ hn)
          exact Function.update_noteq hne _ _
        have hfilter : rest.filter (fun n =>
              !c.is_suppressed (Function.update store name (c.flush (store name)).2 n)) =
            rest.filter (fun n => !c.is_suppressed (store n)) := by
          apply List.filter_congr
          intro n hn
          rw [hupd n hn]
        obtain ⟨h1, h2, h3, h4⟩ := ih _ _ _ _ _ hnd1 hret
        rw [hfilter] at h1 h2
        have hname := SegmentWriter.stream_info_loop_store_other c rest
          (Function.update store name (c.flush (store name)).2)
          (infos ++ [{ length := c.get_stream_length (c.flush (store name)).2,
                       column_unique_id := name.unique_column_id, kind := name.kind }])
          (if name.kind = ROW_INDEX ∨ name.kind = BLOOM_FILTER
            then (il + c.get_stream_length (c.flush (store name)).2) % 2 ^ 64 else il)
          (if name.kind = ROW_INDEX ∨ name.kind = BLOOM_FILTER
            then dl else (dl + c.get_stream_length (c.flush (store name)).2) % 2 ^ 64)
          OLAP_SUCCESS name hnotin
        rw [Function.update_same] at hname
        rw [List.filter_cons_of_pos (by simp [hs1])]
        by_cases hk : name.kind = ROW_INDEX ∨ name.kind = BLOOM_FILTER
        · have hki : SegmentWriter.counts_as_index name = true := by
            simp [SegmentWriter.counts_as_index, hk]
          simp only [if_pos hk] at h1 h2 h3 h4 hname ⊢
          rw [List.filter_cons_of_pos hki, List.filter_cons_of_neg (by simp [hki]),
            SegmentWriter.total_length_cons, hname]
          refine ⟨?_, h2, fun _ => h3 (Nat.mod_lt _ (by norm_num)), h4⟩
          rw [h1]
          omega
        · have hki : SegmentWriter.counts_as_index name = false := by
            simp [SegmentWriter.counts_as_index, hk]
          simp only [if_neg hk] at h1 h2 h3 h4 hname ⊢
          rw [List.filter_cons_of_neg (by simp [hki]), List.filter_cons_of_pos (by simp [hki]),
            SegmentWriter.total_length_cons, hname]
          refine ⟨h1, ?_, h3, fun _ => h4 (Nat.mod_lt _ (by norm_num))⟩
          rw [h2]
          omega
      · rw [SegmentWriter.stream_info_loop_flush_failed c name rest store infos il dl res hs1 hf]
          at hret
        exact absurd hret (by simp)

/-! ## Theorems: the totals, the checksum and the size of the file -/

/-- C11: when `_make_file_header` succeeds, `index_length` is the sum of the lengths
of the streams that are not suppressed and have kind ROW_INDEX or BLOOM_FILTER,
`data_length` is the sum of the lengths of the other streams that are not suppressed,
both sums taken in the 64-bit arithmetic of the code; the two sums add up to the
total length of the streams that are not suppressed, and as long as that total is
below 2^64 the header holds the sums themselves. -/
theorem SegmentWriter.make_file_header_lengths {c : Collaborators} (sw : SegmentWriter c)
    (file_header : ColumnDataHeaderMessage c.ColumnMessage)
    (hres : (sw._make_file_header file_header).res = OLAP_SUCCESS) :
    (sw._make_file_header file_header).file_header.index_length =
      some (SegmentWriter.total_length c (sw._make_file_header file_header).sw.streams.store
        ((SegmentWriter.not_suppressed c (sw.streams_at_header file_header)).filter
          SegmentWriter.counts_as_index) % 2 ^ 64) ∧
    (sw._make_file_header file_header).file_header.data_length =
      some (SegmentWriter.total_length c (sw._make_file_header file_header).sw.streams.store
        ((SegmentWriter.not_suppressed c (sw.streams_at_header file_header)).filter
          (fun n => !SegmentWriter.counts_as_index n)) % 2 ^ 64) ∧
    SegmentWriter.total_length c (sw._make_file_header file_header).sw.streams.store
        ((SegmentWriter.not_suppressed c (sw.streams_at_header file_header)).filter
          SegmentWriter.counts_as_index) +
      SegmentWriter.total_length c (sw._make_file_header file_header).sw.streams.store
        ((SegmentWriter.not_suppressed c (sw.streams_at_header file_header)).filter
          (fun n => !SegmentWriter.counts_as_index n)) =
      SegmentWriter.total_length c (sw._make_file_header file_header).sw.streams.store
        (SegmentWriter.not_suppressed c (sw.streams_at_header file_header)) ∧
    (SegmentWriter.total_length c (sw._make_file_header file_header).sw.streams.store
        (SegmentWriter.not_suppressed c (sw.streams_at_header file_header)) < 2 ^ 64 →
      (sw._make_file_header file_header).file_header.index_length =
        some (SegmentWriter.total_length c (sw._make_file_header file_header).sw.streams.store
          ((SegmentWriter.not_suppressed c (sw.streams_at_header file_header)).filter
            SegmentWriter.counts_as_index)) ∧
      (sw._make_file_header file_header).file_header.data_length =
        some (SegmentWriter.total_length c (sw._make_file_header file_header).sw.streams.store
          ((SegmentWriter.not_suppressed c (sw.streams_at_header file_header)).filter
            (fun n => !SegmentWriter.counts_as_index n)))) := by
  obtain ⟨res0, hret, -, hil, hdl, -, hstore, -⟩ :=
    SegmentWriter.make_file_header_success sw file_header hres
  obtain ⟨h1, h2, h3, h4⟩ := SegmentWriter.stream_info_loop_lengths c _ _ _ _ _ _
    (StreamMap.names_nodup (sw.streams_at_header file_header)) hret
  have h3a := h3 (by norm_num)
  have h4a := h4 (by norm_num)
  rw [Nat.mod_eq_of_lt h3a, Nat.zero_add] at h1
  rw [Nat.mod_eq_of_lt h4a, Nat.zero_add] at h2
  have hsplit := SegmentWriter.total_length_split c
    (sw._make_file_header file_header).sw.streams.store
    (SegmentWriter.not_suppressed c (sw.streams_at_header file_header))
  rw [hil, hdl, hstore] at *
  unfold SegmentWriter.not_suppressed at *
  refine ⟨by rw [h1], by rw [h2], hsplit, ?_⟩
  intro hlt
  rw [h1, h2, Nat.mod_eq_of_lt (by omega), Nat.mod_eq_of_lt (by omega)]
  exact ⟨rfl, rfl⟩

theorem SegmentWriter.make_file_header_lengths_witness :
    ((demo_writer [⟨OLAP_SUCCESS, OLAP_SUCCESS⟩] 2 3 1 1)._make_file_header
      (ColumnDataHeaderMessage.empty Nat)).file_header.index_length = some 10 ∧
    ((demo_writer [⟨OLAP_SUCCESS, OLAP_SUCCESS⟩] 2 3 1 1)._make_file_header
      (ColumnDataHeaderMessage.empty Nat)).file_header.data_length = some 70 :=
  (SegmentWriter.make_file_header_lengths (demo_writer [⟨OLAP_SUCCESS, OLAP_SUCCESS⟩] 2 3 1 1)
    (ColumnDataHeaderMessage.empty Nat) (by decide)).2.2.2 (by decide)

/-- A payload loop that ran to its end has folded exactly the streams that are not
suppressed into the checksum, in the order of the keys. -/
theorem SegmentWriter.payload_loop_checksum (c : Collaborators)
    (store : StreamName → c.OutStream) (rate : Nat) (names : List StreamName) :
    ∀ (checksum : Nat) (fh : c.FileHandler) (res : OLAPStatus),
      (SegmentWriter.payload_loop c store rate names checksum fh res).returned = false →
      (SegmentWriter.payload_loop c store rate names checksum fh res).checksum =
        (names.filter (fun n => !c.is_suppressed (store n))).foldl
          (fun ck n => c.crc32 (store n) ck) checksum := by
  induction names with
  | nil =>
    intro checksum fh res _
    rw [SegmentWriter.payload_loop_nil]
    rfl
  | cons name rest ih =>
    intro checksum fh res h
    by_cases hs : c.is_suppressed (store name) = true
    · rw [SegmentWriter.payload_loop_suppressed c store rate checksum fh res name rest hs] at h ⊢
      rw [ih _ _ _ h, List.filter_cons_of_neg (by simp [hs])]
    · have hs1 : c.is_suppressed (store name) = false := by simpa using hs
      by_cases hf : (c.write_to_file (store name) fh rate).1 = OLAP_SUCCESS
      · rw [SegmentWriter.payload_loop_written c store rate checksum fh res name rest hs1 hf]
          at h ⊢
        simp only at h ⊢
        rw [List.filter_cons_of_pos (by simp [hs1]), ih _ _ _ h, List.foldl_cons]
      · rw [SegmentWriter.payload_loop_write_failed c store rate checksum fh res name rest hs1 hf]
          at h
        exact absurd h (by simp)

/-- C12: in a successful `finalize` the checksum stored in the header is the left fold
of `OutStream::crc32` over the streams that are not suppressed, in the order of the
keys (ascending for `StreamName::operator<`), starting from `CRC32_INIT`; a suppressed
stream contributes nothing, and when no stream is left the checksum is `CRC32_INIT`. -/
theorem SegmentWriter.finalize_checksum {c : Collaborators} (sw : SegmentWriter c)
    (file_handle : c.FileHandler) (hres : (sw.finalize file_handle).res = OLAP_SUCCESS) :
    (sw.finalize file_handle).file_header.checksum =
      (SegmentWriter.not_suppressed c (sw.finalize file_handle).sw.streams).foldl
        (fun ck n => c.crc32 ((sw.finalize file_handle).sw.streams.store n) ck) c.CRC32_INIT ∧
    (SegmentWriter.not_suppressed c (sw.finalize file_handle).sw.streams).Pairwise
      (fun a b => a.lt b = true) ∧
    (SegmentWriter.not_suppressed c (sw.finalize file_handle).sw.streams = [] →
      (sw.finalize file_handle).file_header.checksum = c.CRC32_INIT) := by
  obtain ⟨-, -, fh2, res1, pre, post, hret, hsw, -, hck, -⟩ :=
    SegmentWriter.finalize_success sw file_handle hres
  have hfold : (sw.finalize file_handle).file_header.checksum =
      (SegmentWriter.not_suppressed c (sw.finalize file_handle).sw.streams).foldl
        (fun ck n => c.crc32 ((sw.finalize file_handle).sw.streams.store n) ck)
        c.CRC32_INIT := by
    rw [hck, SegmentWriter.payload_loop_checksum c _ _ _ _ _ _ hret, hsw]
    rfl
  refine ⟨hfold, ?_, ?_⟩
  · exact List.Pairwise.filter _ (sw.finalize file_handle).sw.streams.ordered
  · intro hnil
    rw [hfold, hnil]
    rfl

theorem SegmentWriter.finalize_checksum_witness :
    ((demo_writer [⟨OLAP_SUCCESS, OLAP_SUCCESS⟩] 2 3 1 1).finalize 0).file_header.checksum =
      80 :=
  (SegmentWriter.finalize_checksum (demo_writer [⟨OLAP_SUCCESS, OLAP_SUCCESS⟩] 2 3 1 1) 0
    (by decide)).1

/-- The value stored through `segment_file_size` by a successful `finalize` is the
file length recorded in the header reduced modulo 2^32 (the parameter points to a
`uint32_t`, the file length is a `uint64_t`). -/
theorem SegmentWriter.finalize_size_mod {c : Collaborators} (sw : SegmentWriter c)
    (file_handle : c.FileHandler) (hres : (sw.finalize file_handle).res = OLAP_SUCCESS) :
    (sw.finalize file_handle).segment_file_size =
      some ((sw.finalize file_handle).file_header.file_length % 2 ^ 32) := by
  obtain ⟨-, -, fh2, res1, pre, post, -, -, -, -, hlen, hsize, -⟩ :=
    SegmentWriter.finalize_success sw file_handle hres
  rw [hsize, hlen]

/-- C13 (the code at the failing input): with a header of 16 bytes and one stream of
2^32 bytes, `finalize` succeeds, records the file length 2^32 + 16 in the header and
stores 16 through `segment_file_size`. -/
theorem SegmentWriter.finalize_size_truncated :
    (demo_big_writer.finalize 0).res = OLAP_SUCCESS ∧
    (demo_big_writer.finalize 0).file_header.file_length = 4294967312 ∧
    (demo_big_writer.finalize 0).segment_file_size = some 16 := by
  decide

/-! ## Theorems: the destination file, the bloom filter and the row count -/

/-- The second concrete instance opens files by exclusive creation. -/
theorem demo_fs_exclusive_create : exclusive_create demo_fs DemoFiles.content := by
  intro fh file_name h
  have hexists : (DemoFiles.content fh file_name).isSome = true := h
  constructor
  · show (if (fh.content file_name).isSome = true then (OLAP_ERR_IO_ERROR, fh)
        else (OLAP_SUCCESS, ({ files := (file_name, []) :: fh.files, offset := 0 } :
          DemoFiles))).1 ≠ OLAP_SUCCESS
    rw [if_pos hexists]
    simp
  · show DemoFiles.content (if (fh.content file_name).isSome = true then (OLAP_ERR_IO_ERROR, fh)
        else (OLAP_SUCCESS, ({ files := (file_name, []) :: fh.files, offset := 0 } :
          DemoFiles))).2 file_name = DemoFiles.content fh file_name
    rw [if_pos hexists]

/-- C14: when the open of the destination file is an exclusive creation and the
destination path already exists, `finalize` returns the error of the open, the content
of the existing file is what it was, the open is the only call that `finalize` makes
(no seek, no write, no call of a column writer or a stream), the segment writer is
unchanged and nothing is stored through `segment_file_size`. -/
theorem SegmentWriter.finalize_existing_path {c : Collaborators}
    (content : c.FileHandler → String → Option (List Byte))
    (hexcl : exclusive_create c content) (sw : SegmentWriter c) (file_handle : c.FileHandler)
    (hexists : (content file_handle sw.file_name).isSome = true) :
    (sw.finalize file_handle).res = (c.open_with_mode file_handle sw.file_name).1 ∧
    (sw.finalize file_handle).res ≠ OLAP_SUCCESS ∧
    content (sw.finalize file_handle).file_handle sw.file_name =
      content file_handle sw.file_name ∧
    (sw.finalize file_handle).trace =
      [Event.file_open (c.open_with_mode file_handle sw.file_name).1] ∧
    (sw.finalize file_handle).sw = sw ∧
    (sw.finalize file_handle).segment_file_size = none := by
  obtain ⟨hfail, hsame⟩ := hexcl file_handle sw.file_name hexists
  unfold SegmentWriter.finalize
  rcases hopen : c.open_with_mode file_handle sw.file_name with ⟨res0, fh0⟩
  rw [hopen] at hfail hsame
  simp only at hfail hsame
  simp only [ne_eq, hfail, not_false_eq_true, if_true]
  exact ⟨trivial, trivial, hsame, trivial, trivial, trivial⟩

theorem SegmentWriter.finalize_existing_path_witness :
    ((demo_fs_writer []).finalize ⟨[("segment.dat", [1, 2, 3])], 0⟩).res = OLAP_ERR_IO_ERROR ∧
    DemoFiles.content ((demo_fs_writer []).finalize ⟨[("segment.dat", [1, 2, 3])], 0⟩).file_handle
      "segment.dat" = some [1, 2, 3] :=
  have h := SegmentWriter.finalize_existing_path DemoFiles.content demo_fs_exclusive_create
    (demo_fs_writer []) ⟨[("segment.dat", [1, 2, 3])], 0⟩ (by decide)
  ⟨h.1, h.2.2.1⟩

/-- The bloom filter loop writes the report of the first column writer that reports a
bloom filter and nothing else. -/
theorem SegmentWriter.bloom_filter_loop_spec (c : Collaborators) (ws : List c.ColumnWriter) :
    ∀ (vars : Bool × Nat × Nat) (file_header : ColumnDataHeaderMessage c.ColumnMessage),
      (SegmentWriter.bloom_filter_loop c ws vars file_header).bf_hash_function_num =
        (match (SegmentWriter.bloom_reports c ws vars).find? (fun report => report.1) with
          | some report => some report.2.1
          | none => file_header.bf_hash_function_num) ∧
      (SegmentWriter.bloom_filter_loop c ws vars file_header).bf_bit_num =
        (match (SegmentWriter.bloom_reports c ws vars).find? (fun report => report.1) with
          | some report => some report.2.2
          | none => file_header.bf_bit_num) ∧
      (SegmentWriter.bloom_filter_loop c ws vars file_header).number_of_rows =
        file_header.number_of_rows := by
  induction ws with
  | nil =>
    intro vars file_header
    rw [SegmentWriter.bloom_filter_loop, SegmentWriter.bloom_reports]
    exact ⟨rfl, rfl, rfl⟩
  | cons w ws ih =>
    intro vars file_header
    rw [SegmentWriter.bloom_filter_loop, SegmentWriter.bloom_reports]
    rcases hrep : c.cw_get_bloom_filter_info w vars with ⟨has_bf, num, bits⟩
    cases has_bf with
    | true => simp
    | false =>
      simp only [Bool.false_eq_true, if_false, List.find?_cons_of_neg, not_false_eq_true]
      exact ih _ _

/-- The scalar fields of the header that `_make_file_header` returns are those set
before the loops over the column writers and the streams. -/
theorem SegmentWriter.make_file_header_scalars {c : Collaborators} (sw : SegmentWriter c)
    (file_header : ColumnDataHeaderMessage c.ColumnMessage) :
    (sw._make_file_header file_header).file_header.bf_hash_function_num =
      (sw.finalize_columns file_header).1.bf_hash_function_num ∧
    (sw._make_file_header file_header).file_header.bf_bit_num =
      (sw.finalize_columns file_header).1.bf_bit_num ∧
    (sw._make_file_header file_header).file_header.number_of_rows =
      (sw.finalize_columns file_header).1.number_of_rows := by
  unfold SegmentWriter._make_file_header
  simp only
  split_ifs <;> exact ⟨rfl, rfl, rfl⟩

/-- C15 (counterexample): with a first column writer that reports no bloom filter and
a second one that reports a filter with 3 hash functions and 100 bits,
`_make_file_header` writes 3 and 100 to the header, which are not the values that the
first column writer in column order reported. -/
theorem SegmentWriter.bloom_filter_not_first_writer :
    ((demo_fs_writer [⟨false, 0, 0⟩, ⟨true, 3, 100⟩])._make_file_header
      (ColumnDataHeaderMessage.empty Nat)).file_header.bf_hash_function_num = some 3 ∧
    ((demo_fs_writer [⟨false, 0, 0⟩, ⟨true, 3, 100⟩])._make_file_header
      (ColumnDataHeaderMessage.empty Nat)).file_header.bf_bit_num = some 100 ∧
    demo_fs.cw_get_bloom_filter_info ⟨false, 0, 0⟩ (false, 0, 0) = (false, 0, 0) ∧
    ((demo_fs_writer [⟨false, 0, 0⟩, ⟨true, 3, 100⟩])._make_file_header
      (ColumnDataHeaderMessage.empty Nat)).file_header.bf_hash_function_num ≠
        some (demo_fs.cw_get_bloom_filter_info ⟨false, 0, 0⟩ (false, 0, 0)).2.1 ∧
    ((demo_fs_writer [⟨false, 0, 0⟩, ⟨true, 3, 100⟩])._make_file_header
      (ColumnDataHeaderMessage.empty Nat)).file_header.bf_bit_num ≠
        some (demo_fs.cw_get_bloom_filter_info ⟨false, 0, 0⟩ (false, 0, 0)).2.2 := by
  decide

/-- C15 (amended): the bloom-filter hash-function count and bit count that
`_make_file_header` writes to the header are the parameters reported by the first
column writer, in column order, that reports a bloom filter; when no column writer
reports a bloom filter the two fields of the header are left as they were (unset, for
the header that `finalize` passes). -/
theorem SegmentWriter.make_file_header_bloom_filter {c : Collaborators} (sw : SegmentWriter c)
    (file_header : ColumnDataHeaderMessage c.ColumnMessage) :
    (sw._make_file_header file_header).file_header.bf_hash_function_num =
      (match SegmentWriter.first_bloom_report c sw.root_writers with
        | some report => some report.2.1
        | none => file_header.bf_hash_function_num) ∧
    (sw._make_file_header file_header).file_header.bf_bit_num =
      (match SegmentWriter.first_bloom_report c sw.root_writers with
        | some report => some report.2.2
        | none => file_header.bf_bit_num) ∧
    (SegmentWriter.first_bloom_report c sw.root_writers = none →
      (sw._make_file_header (ColumnDataHeaderMessage.empty c.ColumnMessage)).file_header.bf_hash_function_num
        = none ∧
      (sw._make_file_header (ColumnDataHeaderMessage.empty c.ColumnMessage)).file_header.bf_bit_num
        = none) := by
  have key : ∀ fh : ColumnDataHeaderMessage c.ColumnMessage,
      (sw._make_file_header fh).file_header.bf_hash_function_num =
        (match SegmentWriter.first_bloom_report c sw.root_writers with
          | some report => some report.2.1
          | none => fh.bf_hash_function_num) ∧
      (sw._make_file_header fh).file_header.bf_bit_num =
        (match SegmentWriter.first_bloom_report c sw.root_writers with
          | some report => some report.2.2
          | none => fh.bf_bit_num) := by
    intro fh
    obtain ⟨h1, h2, -⟩ := SegmentWriter.make_file_header_scalars sw fh
    have hloop : (sw.finalize_columns fh).1 =
        SegmentWriter.bloom_filter_loop c sw.root_writers (false, 0, 0)
          { fh with
            number_of_rows := some sw.row_count,
            compress_kind := some sw.compress_kind,
            stream_buffer_size := some sw.stream_buffer_size,
            magic_string := some "COLUMN DATA",
            version := some 1,
            num_rows_per_block := some sw.num_rows_per_row_block } := rfl
    obtain ⟨g1, g2, -⟩ := SegmentWriter.bloom_filter_loop_spec c sw.root_writers (false, 0, 0)
      { fh with
        number_of_rows := some sw.row_count,
        compress_kind := some sw.compress_kind,
        stream_buffer_size := some sw.stream_buffer_size,
        magic_string := some "COLUMN DATA",
        version := some 1,
        num_rows_per_block := some sw.num_rows_per_row_block }
    constructor
    · rw [h1, hloop, g1]
      rfl
    · rw [h2, hloop, g2]
      rfl
  refine ⟨(key file_header).1, (key file_header).2, ?_⟩
  intro hnone
  obtain ⟨k1, k2⟩ := key (ColumnDataHeaderMessage.empty c.ColumnMessage)
  rw [hnone] at k1 k2
  exact ⟨k1, k2⟩

/-- The loop keeps the number of column writers. -/
theorem for_each_root_writer_length {W X : Type} (call : W → X → OLAPStatus × W × X)
    (ev : Nat → OLAPStatus → Event) (ws : List W) :
    ∀ (i : Nat) (x : X) (res : OLAPStatus),
      (for_each_root_writer call ev i ws x res).writers.length = ws.length := by
  induction ws with
  | nil =>
    intro i x res
    rw [for_each_root_writer_nil]
  | cons w ws ih =>
    intro i x res
    rw [for_each_root_writer_cons]
    split_ifs
    · rfl
    · simp only [List.length_cons, ih]

/-- A loop that ran to its end leaves a success in `res`, unless there is no column
writer, in which case `res` is what it was. -/
theorem for_each_root_writer_completed {W X : Type} (call : W → X → OLAPStatus × W × X)
    (ev : Nat → OLAPStatus → Event) (ws : List W) :
    ∀ (i : Nat) (x : X) (res : OLAPStatus),
      (for_each_root_writer call ev i ws x res).returned = false →
      (ws = [] → (for_each_root_writer call ev i ws x res).res = res) ∧
      (ws ≠ [] → (for_each_root_writer call ev i ws x res).res = OLAP_SUCCESS) := by
  induction ws with
  | nil =>
    intro i x res _
    rw [for_each_root_writer_nil]
    exact ⟨fun _ => rfl, fun h => absurd rfl h⟩
  | cons w ws ih =>
    intro i x res h
    rw [for_each_root_writer_cons] at h ⊢
    by_cases hr : (call w x).1 = OLAP_SUCCESS
    · rw [if_neg (by simp [hr])] at h ⊢
      simp only at h ⊢
      obtain ⟨h1, h2⟩ := ih _ _ _ h
      refine ⟨fun hc => absurd hc (by simp), fun _ => ?_⟩
      by_cases hws : ws = []
      · rw [h1 hws, hr]
      · exact h2 hws
    · rw [if_pos hr] at h
      exact absurd h (by simp)

theorem SegmentWriter.create_row_index_entry_eq {c : Collaborators} (sw : SegmentWriter c) :
    sw.create_row_index_entry.res =
      (for_each_root_writer c.cw_create_row_index_entry Event.cw_create_row_index_entry
        0 sw.root_writers sw.streams OLAP_SUCCESS).res ∧
    sw.create_row_index_entry.sw.root_writers =
      (for_each_root_writer c.cw_create_row_index_entry Event.cw_create_row_index_entry
        0 sw.root_writers sw.streams OLAP_SUCCESS).writers ∧
    sw.create_row_index_entry.sw.block_count = sw.block_count +
      (if (for_each_root_writer c.cw_create_row_index_entry Event.cw_create_row_index_entry
        0 sw.root_writers sw.streams OLAP_SUCCESS).returned then 0 else 1) := by
  unfold SegmentWriter.create_row_index_entry
  simp only
  split_ifs <;> exact ⟨rfl, rfl, rfl⟩

/-- Without column writers `create_row_index_entry` succeeds. -/
theorem SegmentWriter.create_row_index_entry_no_writers {c : Collaborators}
    (sw : SegmentWriter c) (h : sw.create_row_index_entry.sw.root_writers = []) :
    sw.create_row_index_entry.res = OLAP_SUCCESS := by
  obtain ⟨e1, e2, -⟩ := SegmentWriter.create_row_index_entry_eq sw
  have hlen := for_each_root_writer_length c.cw_create_row_index_entry
    Event.cw_create_row_index_entry sw.root_writers 0 sw.streams OLAP_SUCCESS
  rw [← e2, h] at hlen
  have hnil : sw.root_writers = [] := List.length_eq_zero.1 hlen.symm
  rw [e1, hnil, for_each_root_writer_nil]

/-- The loop of `write` over the column writers returns a failure when it executed
`return res` and a success when it ran to its end. -/
theorem SegmentWriter.write_loop_res {c : Collaborators} (o : Outcome c) (row : c.RowCursor)
    (ho : o.sw.root_writers = [] → o.res = OLAP_SUCCESS) :
    ((for_each_root_writer (fun w x => c.cw_write w row x) Event.cw_write 0
        o.sw.root_writers o.sw.streams o.res).returned = true →
      (for_each_root_writer (fun w x => c.cw_write w row x) Event.cw_write 0
        o.sw.root_writers o.sw.streams o.res).res ≠ OLAP_SUCCESS) ∧
    ((for_each_root_writer (fun w x => c.cw_write w row x) Event.cw_write 0
        o.sw.root_writers o.sw.streams o.res).returned = false →
      (for_each_root_writer (fun w x => c.cw_write w row x) Event.cw_write 0
        o.sw.root_writers o.sw.streams o.res).res = OLAP_SUCCESS) := by
  refine ⟨for_each_root_writer_returned _ _ _ _ _ _, fun hret => ?_⟩
  obtain ⟨h1, h2⟩ := for_each_root_writer_completed (fun w x => c.cw_write w row x)
    Event.cw_write o.sw.root_writers 0 o.sw.streams o.res hret
  by_cases hw : o.sw.root_writers = []
  · rw [h1 hw, ho hw]
  · exact h2 hw

/-- A write returns `OLAP_SUCCESS` exactly when it counts the row. -/
theorem SegmentWriter.write_row_count {c : Collaborators} (sw : SegmentWriter c)
    (row : c.RowCursor) :
    (sw.write row).sw.row_count =
      sw.row_count + (if (sw.write row).res = OLAP_SUCCESS then 1 else 0) := by
  by_cases hb : sw.row_in_block = sw.num_rows_per_row_block
  · obtain ⟨h1, h2⟩ := SegmentWriter.write_loop_res sw.create_row_index_entry row
      (SegmentWriter.create_row_index_entry_no_writers sw)
    have hrc := (SegmentWriter.create_row_index_entry_config sw).1
    unfold SegmentWriter.write
    simp only [if_pos hb]
    by_cases hret : (for_each_root_writer (fun w x => c.cw_write w row x) Event.cw_write 0
        sw.create_row_index_entry.sw.root_writers sw.create_row_index_entry.sw.streams
        sw.create_row_index_entry.res).returned = true
    · simp only [hret, if_true, if_neg (h1 hret), hrc, Nat.add_zero]
    · have hret1 : (for_each_root_writer (fun w x => c.cw_write w row x) Event.cw_write 0
          sw.create_row_index_entry.sw.root_writers sw.create_row_index_entry.sw.streams
          sw.create_row_index_entry.res).returned = false := by simpa using hret
      simp only [hret1, Bool.false_eq_true, if_false, if_pos (h2 hret1), hrc]
  · obtain ⟨h1, h2⟩ := SegmentWriter.write_loop_res
      ({ res := OLAP_SUCCESS, sw := sw, trace := [] } : Outcome c) row (fun _ => rfl)
    simp only at h1 h2
    unfold SegmentWriter.write
    simp only [if_neg hb]
    by_cases hret : (for_each_root_writer (fun w x => c.cw_write w row x) Event.cw_write 0
        sw.root_writers sw.streams OLAP_SUCCESS).returned = true
    · simp only [hret, if_true, if_neg (h1 hret), Nat.add_zero]
    · have hret1 : (for_each_root_writer (fun w x => c.cw_write w row x) Event.cw_write 0
          sw.root_writers sw.streams OLAP_SUCCESS).returned = false := by simpa using hret
      simp only [hret1, Bool.false_eq_true, if_false, if_pos (h2 hret1)]

theorem SegmentWriter.make_file_header_bloom_filter_witness :
    ((demo_fs_writer [⟨false, 0, 0⟩, ⟨false, 5, 7⟩])._make_file_header
      (ColumnDataHeaderMessage.empty Nat)).file_header.bf_hash_function_num = none ∧
    ((demo_fs_writer [⟨false, 0, 0⟩, ⟨false, 5, 7⟩])._make_file_header
      (ColumnDataHeaderMessage.empty Nat)).file_header.bf_bit_num = none :=
  (SegmentWriter.make_file_header_bloom_filter (demo_fs_writer [⟨false, 0, 0⟩, ⟨false, 5, 7⟩])
    (ColumnDataHeaderMessage.empty Nat)).2.2 (by decide)

theorem SegmentWriter.run_row_count {c : Collaborators} (calls : List (SegmentWriter.Call c)) :
    ∀ sw : SegmentWriter c,
      (sw.run calls).row_count = sw.row_count + sw.successful_writes calls := by
  induction calls with
  | nil =>
    intro sw
    rfl
  | cons k ks ih =>
    intro sw
    cases k with
    | write row =>
      show ((sw.write row).sw.run ks).row_count = sw.row_count +
        ((if (sw.write row).res = OLAP_SUCCESS then 1 else 0) +
          (sw.write row).sw.successful_writes ks)
      rw [ih, SegmentWriter.write_row_count]
      omega
    | create_row_index_entry =>
      show (sw.create_row_index_entry.sw.run ks).row_count = sw.row_count +
        sw.create_row_index_entry.sw.successful_writes ks
      rw [ih, (SegmentWriter.create_row_index_entry_config sw).1]

theorem SegmentWriter.make_file_header_number_of_rows {c : Collaborators} (sw : SegmentWriter c)
    (file_header : ColumnDataHeaderMessage c.ColumnMessage) :
    (sw._make_file_header file_header).file_header.number_of_rows = some sw.row_count := by
  rw [(SegmentWriter.make_file_header_scalars sw file_header).2.2]
  unfold SegmentWriter.finalize_columns
  simp only
  rw [(SegmentWriter.bloom_filter_loop_spec c sw.root_writers (false, 0, 0) _).2.2]

/-- C16: after any sequence of `write` and `create_row_index_entry` calls on a new
segment writer, the `number_of_rows` that `_make_file_header` stores in the header is
the number of the `write` calls that returned `OLAP_SUCCESS`; a `write` that returns
a failure and a `create_row_index_entry` leave `_row_count` as it is. -/
theorem SegmentWriter.header_counts_successful_writes {c : Collaborators}
    (sw0 : SegmentWriter c) (calls : List (SegmentWriter.Call c))
    (file_header : ColumnDataHeaderMessage c.ColumnMessage) (h0 : sw0.row_count = 0) :
    ((sw0.run calls)._make_file_header file_header).file_header.number_of_rows =
      some (sw0.successful_writes calls) ∧
    (∀ (sw : SegmentWriter c) (row : c.RowCursor), (sw.write row).res ≠ OLAP_SUCCESS →
      (sw.write row).sw.row_count = sw.row_count) ∧
    (∀ (sw : SegmentWriter c) (row : c.RowCursor), (sw.write row).res = OLAP_SUCCESS →
      (sw.write row).sw.row_count = sw.row_count + 1) ∧
    (∀ sw : SegmentWriter c, sw.create_row_index_entry.sw.row_count = sw.row_count) := by
  refine ⟨?_, ?_, ?_, ?_⟩
  · rw [SegmentWriter.make_file_header_number_of_rows, SegmentWriter.run_row_count, h0,
      Nat.zero_add]
  · intro sw row hne
    rw [SegmentWriter.write_row_count, if_neg hne, Nat.add_zero]
  · intro sw row hsucc
    rw [SegmentWriter.write_row_count, if_pos hsucc]
  · intro sw
    exact (SegmentWriter.create_row_index_entry_config sw).1

theorem SegmentWriter.header_counts_successful_writes_witness :
    (((demo_writer [⟨OLAP_SUCCESS, OLAP_ERR_MALLOC_ERROR⟩] 2 0 0 0).run
      [.write (), .write (), .create_row_index_entry, .write ()])._make_file_header
        (ColumnDataHeaderMessage.empty Nat)).file_header.number_of_rows = some 3 :=
  (SegmentWriter.header_counts_successful_writes
    (demo_writer [⟨OLAP_SUCCESS, OLAP_ERR_MALLOC_ERROR⟩] 2 0 0 0)
    [.write (), .write (), .create_row_index_entry, .write ()]
    (ColumnDataHeaderMessage.empty Nat) rfl).1

/-! ## Theorems: the size estimate and the number of blocks -/

/-- Adding up in 64-bit arithmetic gives the sum modulo 2^64. -/
theorem List.foldl_add_mod {α : Type} (f : α → Nat) (l : List α) :
    ∀ a : Nat, a < 2 ^ 64 →
      l.foldl (fun acc x => (acc + f x) % 2 ^ 64) a = (a + (l.map f).sum) % 2 ^ 64 := by
  induction l with
  | nil =>
    intro a ha
    simp only [List.foldl_nil, List.map_nil, List.sum_nil, Nat.add_zero]
    exact (Nat.mod_eq_of_lt ha).symm
  | cons x xs ih =>
    intro a _
    rw [List.foldl_cons, ih _ (Nat.mod_lt _ (by norm_num)), List.map_cons, List.sum_cons]
    omega

/-- C17: `estimate_segment_size` returns the sum of `get_total_buffer_size` over every
stream of the stream factory, suppressed or not, plus the sum of
`estimate_buffered_memory` over every column writer, in the 64-bit arithmetic of the
code: the sum itself as long as it is below 2^64.  The method is a function of the
state: the embedding has no new state to return. -/
theorem SegmentWriter.estimate_segment_size_sum {c : Collaborators} (sw : SegmentWriter c) :
    sw.estimate_segment_size =
      ((sw.streams.names.map (fun n => c.get_total_buffer_size (sw.streams.store n))).sum +
        (sw.root_writers.map c.cw_estimate_buffered_memory).sum) % 2 ^ 64 ∧
    ((sw.streams.names.map (fun n => c.get_total_buffer_size (sw.streams.store n))).sum +
        (sw.root_writers.map c.cw_estimate_buffered_memory).sum < 2 ^ 64 →
      sw.estimate_segment_size =
        (sw.streams.names.map (fun n => c.get_total_buffer_size (sw.streams.store n))).sum +
          (sw.root_writers.map c.cw_estimate_buffered_memory).sum) := by
  have h : sw.estimate_segment_size =
      ((sw.streams.names.map (fun n => c.get_total_buffer_size (sw.streams.store n))).sum +
        (sw.root_writers.map c.cw_estimate_buffered_memory).sum) % 2 ^ 64 := by
    unfold SegmentWriter.estimate_segment_size
    simp only
    rw [List.foldl_add_mod (fun n => c.get_total_buffer_size (sw.streams.store n))
        sw.streams.names 0 (by norm_num),
      List.foldl_add_mod c.cw_estimate_buffered_memory sw.root_writers _
        (Nat.mod_lt _ (by norm_num)), Nat.zero_add]
    omega
  refine ⟨h, fun hlt => ?_⟩
  rw [h, Nat.mod_eq_of_lt hlt]

theorem SegmentWriter.estimate_segment_size_sum_witness :
    (demo_writer [⟨OLAP_SUCCESS, OLAP_SUCCESS⟩] 2 3 1 1).estimate_segment_size = 80 :=
  (SegmentWriter.estimate_segment_size_sum
    (demo_writer [⟨OLAP_SUCCESS, OLAP_SUCCESS⟩] 2 3 1 1)).2 (by decide)

/-- After at least one write whose column-writer calls succeeded the open block holds
at least one row. -/
theorem SegmentWriter.write_all_row_in_block_pos {c : Collaborators} (rows : List c.RowCursor) :
    ∀ sw : SegmentWriter c, rows ≠ [] →
      (∀ e ∈ sw.write_all_trace rows, e.cw_failed = false) →
      1 ≤ (sw.write_all rows).row_in_block := by
  induction rows with
  | nil =>
    intro sw h _
    exact absurd rfl h
  | cons row rows ih =>
    intro sw _ hcalls
    have htr : sw.write_all_trace (row :: rows) =
        (sw.write row).trace ++ (sw.write row).sw.write_all_trace rows := rfl
    rw [htr] at hcalls
    have hstep : (sw.write_all (row :: rows)) = (sw.write row).sw.write_all rows := rfl
    rw [hstep]
    by_cases hrows : rows = []
    · subst hrows
      obtain ⟨-, -, -, g4, -⟩ := SegmentWriter.write_success sw row
        (fun e he => hcalls e (List.mem_append_left _ he))
      show 1 ≤ (sw.write row).sw.row_in_block
      rw [g4]
      split_ifs <;> omega
    · exact ih (sw.write row).sw hrows (fun e he => hcalls e (List.mem_append_right _ he))

theorem SegmentWriter.make_file_header_block_count {c : Collaborators} (sw : SegmentWriter c)
    (file_header : ColumnDataHeaderMessage c.ColumnMessage) :
    (sw._make_file_header file_header).sw.block_count = sw.block_count := by
  unfold SegmentWriter._make_file_header
  simp only
  split_ifs <;> rfl

/-- A successful closing of the open block in `finalize` creates one row-index entry
when the block holds rows and none when it is empty. -/
theorem SegmentWriter.finalize_index_block_count {c : Collaborators} (sw : SegmentWriter c)
    (hres : sw.finalize_index.res = OLAP_SUCCESS) :
    sw.finalize_index.sw.block_count =
      sw.block_count + (if 0 < sw.row_in_block then 1 else 0) := by
  unfold SegmentWriter.finalize_index at hres ⊢
  by_cases hpos : 0 < sw.row_in_block
  · rw [if_pos hpos] at hres ⊢
    rw [if_pos hpos]
    obtain ⟨e1, -, e3⟩ := SegmentWriter.create_row_index_entry_eq sw
    by_cases hret : (for_each_root_writer c.cw_create_row_index_entry
        Event.cw_create_row_index_entry 0 sw.root_writers sw.streams OLAP_SUCCESS).returned = true
    · have hne := for_each_root_writer_returned _ _ _ _ _ _ hret
      rw [← e1] at hne
      exact absurd hres hne
    · rw [e3, if_neg hret]
  · rw [if_neg hpos, if_neg hpos]
    rfl

/-- C19: with rows-per-block N >= 1, after R writes on a new segment writer during
which every column-writer call succeeded, followed by a successful `finalize`,
`_block_count` is the ceiling of R / N: `finalize` creates one more row-index entry
after the writes whenever R > 0, also when R is a multiple of N, and none when
R = 0. -/
theorem SegmentWriter.finalize_block_count {c : Collaborators} (sw0 : SegmentWriter c)
    (rows : List c.RowCursor) (file_handle : c.FileHandler)
    (hN : 1 ≤ sw0.num_rows_per_row_block)
    (h0 : sw0.row_count = 0 ∧ sw0.row_in_block = 0 ∧ sw0.block_count = 0)
    (hcalls : ∀ e ∈ sw0.write_all_trace rows, e.cw_failed = false)
    (hfin : ((sw0.write_all rows).finalize file_handle).res = OLAP_SUCCESS) :
    ((sw0.write_all rows).finalize file_handle).sw.block_count =
      (rows.length + sw0.num_rows_per_row_block - 1) / sw0.num_rows_per_row_block ∧
    ((sw0.write_all rows).finalize file_handle).sw.block_count =
      (sw0.write_all rows).block_count + (if 0 < rows.length then 1 else 0) := by
  obtain ⟨hrc, hrb, hbc⟩ := h0
  obtain ⟨-, k2, k3, k4⟩ := SegmentWriter.write_all_invariant rows sw0 hN
    (by rw [hrc, hrb, hbc]; simp) (by rw [hrb]; omega) hcalls
  rw [hrc, Nat.zero_add] at k2
  obtain ⟨hidx, -, fh2, res1, pre, post, -, hsw, -⟩ :=
    SegmentWriter.finalize_success (sw0.write_all rows) file_handle hfin
  have hblocks : ((sw0.write_all rows).finalize file_handle).sw.block_count =
      (sw0.write_all rows).block_count +
        (if 0 < (sw0.write_all rows).row_in_block then 1 else 0) := by
    rw [hsw]
    unfold SegmentWriter.finalize_header
    rw [SegmentWriter.make_file_header_block_count,
      SegmentWriter.finalize_index_block_count _ hidx]
  by_cases hrows : rows = []
  · subst hrows
    have hsame : sw0.write_all [] = sw0 := rfl
    rw [hsame] at hblocks ⊢
    rw [hblocks, hrb, hbc]
    simp only [List.length_nil, Nat.lt_irrefl, if_false, Nat.add_zero, Nat.zero_add, and_true]
    have hlt : sw0.num_rows_per_row_block - 1 < sw0.num_rows_per_row_block := by omega
    exact (Nat.div_eq_of_lt hlt).symm
  · have hpos := SegmentWriter.write_all_row_in_block_pos rows sw0 hrows hcalls
    have hlen : 0 < rows.length := List.length_pos.2 hrows
    rw [hblocks, if_pos (by omega), if_pos hlen]
    refine ⟨?_, rfl⟩
    have hR : rows.length + sw0.num_rows_per_row_block - 1 =
        sw0.num_rows_per_row_block * ((sw0.write_all rows).block_count + 1) +
          ((sw0.write_all rows).row_in_block - 1) := by
      rw [← k2, k3, Nat.mul_add, Nat.mul_one]
      omega
    rw [hR, Nat.mul_add_div (by omega), Nat.div_eq_of_lt (by omega), Nat.add_zero]

theorem SegmentWriter.finalize_block_count_witness :
    (((demo_writer [⟨OLAP_SUCCESS, OLAP_SUCCESS⟩] 2 0 0 0).write_all
      [(), (), (), ()]).finalize 0).sw.block_count = 2 :=
  (SegmentWriter.finalize_block_count (demo_writer [⟨OLAP_SUCCESS, OLAP_SUCCESS⟩] 2 0 0 0)
    [(), (), (), ()] 0 (by decide) (by decide) (by decide) (by decide)).1

end column_file

/-! ### Helper lemmas on `get_file_extension` -/

/-- For a name shorter than 2^31 characters the loop starts at the last index, and
does not run at all for the empty name. -/
theorem DownloadAction.last_index_toNat (size : Nat) (h : size < 2 ^ 31) :
    (DownloadAction.last_index size).toNat = size - 1 := by
  unfold DownloadAction.last_index
  split_ifs <;> omega

/-- What the loop returns from index `i` down: nothing, or the rest of the name from
an index `j` with a dot at `j`, no dot before it and no `/` after it up to `i`. -/
theorem DownloadAction.extension_from_spec (file_name : List Char) :
    ∀ i : Nat, DownloadAction.extension_from file_name i = [] ∨
      ∃ j : Nat, 0 < j ∧ j ≤ i ∧ DownloadAction.extension_from file_name i = file_name.drop j ∧
        file_name.getD j ' ' = '.' ∧ file_name.getD (j - 1) ' ' ≠ '.' ∧
        ∀ k : Nat, j < k → k ≤ i → file_name.getD k ' ' ≠ '/' := by
  intro i
  induction i with
  | zero => exact Or.inl rfl
  | succ i ih =>
    rw [DownloadAction.extension_from]
    by_cases hslash : file_name.getD (i + 1) ' ' = '/'
    · rw [if_pos hslash]
      exact Or.inl rfl
    · rw [if_neg hslash]
      by_cases hdot : file_name.getD (i + 1) ' ' = '.' ∧ file_name.getD i ' ' ≠ '.'
      · rw [if_pos hdot]
        refine Or.inr ⟨i + 1, by omega, Nat.le_refl _, rfl, hdot.1, hdot.2, ?_⟩
        intro k hk1 hk2
        omega
      · rw [if_neg hdot]
        rcases ih with h | ⟨j, hj0, hji, hdrop, hd1, hd2, hk⟩
        · exact Or.inl h
        · refine Or.inr ⟨j, hj0, by omega, hdrop, hd1, hd2, ?_⟩
          intro k hk1 hk2
          by_cases hki : k ≤ i
          · exact hk k hk1 hki
          · have hk3 : k = i + 1 := by omega
            rw [hk3]
            exact hslash

/-! ## Theorems: DownloadAction::get_file_extension -/

/-- C18 (the code at the failing inputs): for the name `a..b` the code returns `..b`
where the comment in front of the function promises the substring from the rightmost
dot, `.b`; for the name `.a` the code returns the empty string where the comment
promises `.a`. -/
theorem DownloadAction.get_file_extension_not_as_documented :
    DownloadAction.get_file_extension ['a', '.', '.', 'b'] = ['.', '.', 'b'] ∧
    DownloadAction.documented_extension ['a', '.', '.', 'b'] = ['.', 'b'] ∧
    DownloadAction.get_file_extension ['.', 'a'] = [] ∧
    DownloadAction.documented_extension ['.', 'a'] = ['.', 'a'] := by
  decide

/-- C20: for every file name (shorter than 2^31 characters, so that the `int` index
holds the last position) the result of `get_file_extension` is empty or a proper
suffix of the name that starts with a dot, contains no `/` and is preceded in the
name by a character other than a dot; the function is total, and for the empty name
the loop does not run and the result is empty. -/
theorem DownloadAction.get_file_extension_safe (file_name : List Char)
    (hlen : file_name.length < 2 ^ 31) :
    (DownloadAction.get_file_extension file_name = [] ∨
      ∃ (pre : List Char) (ch : Char),
        file_name = pre ++ ch :: DownloadAction.get_file_extension file_name ∧
        ch ≠ '.' ∧
        (DownloadAction.get_file_extension file_name).head? = some '.' ∧
        '/' ∉ DownloadAction.get_file_extension file_name) ∧
    DownloadAction.get_file_extension [] = [] := by
  refine ⟨?_, by decide⟩
  unfold DownloadAction.get_file_extension
  rw [DownloadAction.last_index_toNat _ hlen]
  rcases DownloadAction.extension_from_spec file_name (file_name.length - 1) with
    h | ⟨j, hj0, hji, hdrop, hd1, hd2, hk⟩
  · exact Or.inl h
  · right
    have hjlt : j < file_name.length := by omega
    have hj1lt : j - 1 < file_name.length := by omega
    rw [List.getD_eq_getElem _ _ hjlt] at hd1
    rw [List.getD_eq_getElem _ _ hj1lt] at hd2
    refine ⟨file_name.take (j - 1), file_name[j - 1], ?_, hd2, ?_, ?_⟩
    · rw [hdrop]
      have hsplit : file_name.drop (j - 1) = file_name[j - 1] :: file_name.drop j := by
        rw [List.drop_eq_getElem_cons hj1lt]
        congr 2
        omega
      rw [← hsplit, List.take_append_drop]
    · rw [hdrop, List.drop_eq_getElem_cons hjlt, List.head?_cons, hd1]
    · rw [hdrop]
      intro hmem
      obtain ⟨m, hm, hget⟩ := List.mem_iff_getElem.1 hmem
      rw [List.getElem_drop] at hget
      have hmlen : j + m < file_name.length := by
        rw [List.length_drop] at hm
        omega
      by_cases hm0 : m = 0
      · subst hm0
        simp only [Nat.add_zero] at hget
        rw [hd1] at hget
        exact absurd hget (by decide)
      · have := hk (j + m) (by omega) (by omega)
        rw [List.getD_eq_getElem _ _ hmlen] at this
        exact this hget

theorem DownloadAction.get_file_extension_safe_witness :
    DownloadAction.get_file_extension ['x', '/', 'a', '.', 't', 'a', 'r', '.', 'g', 'z'] = [] ∨
      ∃ (pre : List Char) (ch : Char),
        ['x', '/', 'a', '.', 't', 'a', 'r', '.', 'g', 'z'] =
          pre ++ ch :: DownloadAction.get_file_extension
            ['x', '/', 'a', '.', 't', 'a', 'r', '.', 'g', 'z'] ∧
        ch ≠ '.' ∧
        (DownloadAction.get_file_extension
          ['x', '/', 'a', '.', 't', 'a', 'r', '.', 'g', 'z']).head? = some '.' ∧
        '/' ∉ DownloadAction.get_file_extension
          ['x', '/', 'a', '.', 't', 'a', 'r', '.', 'g', 'z'] :=
  (DownloadAction.get_file_extension_safe ['x', '/', 'a', '.', 't', 'a', 'r', '.', 'g', 'z']
    (by decide)).1

/-! ### Helper lemmas on the timer -/

theorem Timer.start_spec (t : Timer) (now : Int) :
    (t.start now).m_remaining = t.m_remaining ∧ (t.start now).m_duration = t.m_duration ∧
    (t.start now).m_running = true ∧
    (((t.start now).start_time = now ∧ (t.start now).m_started = true) ∨
      (t.m_running = true ∧ t.start now = t)) := by
  unfold Timer.start
  cases h : t.m_running <;> simp [h]

theorem Timer.stop_spec (t t1 : Timer) (now : Int) (h : t.stop now = some t1) :
    t.m_started = true ∧ t1.m_duration = t.m_duration ∧ t1.start_time = t.start_time ∧
    t1.m_started = true ∧ t1.m_running = false ∧
    t1.m_remaining =
      (if now - t.start_time < t.m_remaining then t.m_remaining - (now - t.start_time)
        else 0) := by
  unfold Timer.stop at h
  cases hs : t.m_started
  · rw [hs] at h
    simp at h
  · rw [hs] at h
    simp only [if_true, Option.some.injEq] at h
    subst h
    simp [hs]

theorem Timer.reset_spec (t : Timer) (start_timer : Bool) (now : Int) :
    (t.reset start_timer now).m_remaining = t.m_duration ∧
    (t.reset start_timer now).m_duration = t.m_duration ∧
    ((t.reset start_timer now).m_started = true → (t.reset start_timer now).start_time = now) ∧
    ((t.reset start_timer now).m_running = true → (t.reset start_timer now).m_started = true) := by
  unfold Timer.reset Timer.start
  cases start_timer <;> simp

/-- What `remaining` does to the state: nothing when the timer is not running, `stop`
and then `start` when it is. -/
theorem Timer.remaining_spec (ticks : Nat) (t t1 : Timer) (now1 now2 : Int) (v : Nat)
    (h : t.remaining ticks now1 now2 = some (v, t1)) :
    v = Timer.to_millis ticks t1.m_remaining ∧
    ((t.m_running = false ∧ t1 = t) ∨
      (t.m_running = true ∧ ∃ t0, t.stop now1 = some t0 ∧ t1 = t0.start now2)) := by
  unfold Timer.remaining at h
  cases hr : t.m_running
  · rw [hr] at h
    simp only [Bool.false_eq_true, if_false, Option.some.injEq, Prod.mk.injEq] at h
    obtain ⟨hv, ht⟩ := h
    subst ht
    exact ⟨hv.symm, Or.inl ⟨rfl, rfl⟩⟩
  · rw [hr] at h
    simp only [if_true] at h
    cases hstop : t.stop now1 with
    | none =>
      rw [hstop] at h
      simp at h
    | some t0 =>
      rw [hstop] at h
      simp only [Option.some.injEq, Prod.mk.injEq] at h
      obtain ⟨hv, ht⟩ := h
      subst ht
      exact ⟨hv.symm, Or.inr ⟨rfl, t0, rfl, rfl⟩⟩

/-- The number of milliseconds of a duration between zero and `millis` milliseconds is
at most `millis`, and it grows with the duration. -/
theorem Timer.to_millis_le (ticks millis : Nat) (hmillis : millis < 2 ^ 32) (a b : Int)
    (ha : 0 ≤ a) (hab : a ≤ b) (hb : b ≤ (millis : Int) * ticks) :
    Timer.to_millis ticks a ≤ Timer.to_millis ticks b ∧ Timer.to_millis ticks b ≤ millis := by
  obtain ⟨n, rfl⟩ := Int.eq_ofNat_of_zero_le ha
  obtain ⟨m, rfl⟩ := Int.eq_ofNat_of_zero_le (Int.le_trans ha hab)
  have hnm : n ≤ m := by exact_mod_cast hab
  have hm : m ≤ millis * ticks := by exact_mod_cast hb
  have hdiv : ∀ k : Nat, Timer.to_millis ticks (k : Int) = (k / ticks) % 2 ^ 32 := by
    intro k
    unfold Timer.to_millis
    rw [Int.tdiv_eq_ediv (Int.ofNat_nonneg k) (Int.ofNat_nonneg ticks)]
    have : ((k : Int) / (ticks : Int)) = ((k / ticks : Nat) : Int) := by norm_cast
    rw [this]
    omega
  have hmdiv : m / ticks ≤ millis := Nat.div_le_of_le_mul (by rw [Nat.mul_comm]; exact hm)
  have hndiv : n / ticks ≤ m / ticks := Nat.div_le_div_right hnm
  rw [hdiv, hdiv, Nat.mod_eq_of_lt (by omega), Nat.mod_eq_of_lt (by omega)]
  exact ⟨hndiv, hmdiv⟩

theorem ClockedTimer.Inv_mono (t : Timer) (c now : Int) (hinv : ClockedTimer.Inv ⟨t, c⟩)
    (hc : c ≤ now) : ClockedTimer.Inv ⟨t, now⟩ := by
  obtain ⟨h0, h1, h2, h3⟩ := hinv
  exact ⟨h0, h1, fun hs => Int.le_trans (h2 hs) hc, h3⟩

theorem ClockedTimer.start_inv (t : Timer) (c now : Int) (hinv : ClockedTimer.Inv ⟨t, c⟩)
    (hc : c ≤ now) :
    ClockedTimer.Inv ⟨t.start now, now⟩ ∧ (t.start now).m_remaining = t.m_remaining ∧
    (t.start now).m_duration = t.m_duration := by
  obtain ⟨hrem, hdur, hrun, hcase⟩ := Timer.start_spec t now
  obtain ⟨h0, h1, h2, h3⟩ := hinv
  simp only at h0 h1 h2 h3
  refine ⟨⟨?_, ?_, ?_, ?_⟩, hrem, hdur⟩
  · simp only [hrem]
    exact h0
  · simp only [hrem, hdur]
    exact h1
  · intro _
    rcases hcase with ⟨hst, _⟩ | ⟨hr, heq⟩
    · simp only [hst]
      exact Int.le_refl _
    · simp only [heq]
      exact Int.le_trans (h2 (h3 hr)) hc
  · intro _
    rcases hcase with ⟨_, hs⟩ | ⟨hr, heq⟩
    · exact hs
    · simp only [heq]
      exact h3 hr

theorem ClockedTimer.stop_inv (t t1 : Timer) (c now : Int) (hinv : ClockedTimer.Inv ⟨t, c⟩)
    (hc : c ≤ now) (h : t.stop now = some t1) :
    ClockedTimer.Inv ⟨t1, now⟩ ∧ t1.m_remaining ≤ t.m_remaining ∧
    t1.m_duration = t.m_duration := by
  obtain ⟨hs, hdur, hst, hs1, hr1, hrem⟩ := Timer.stop_spec t t1 now h
  obtain ⟨h0, h1, h2, h3⟩ := hinv
  simp only at h0 h1 h2 h3
  have hle := h2 hs
  have hrem0 : 0 ≤ t1.m_remaining ∧ t1.m_remaining ≤ t.m_remaining := by
    rw [hrem]
    split <;> omega
  refine ⟨⟨hrem0.1, ?_, ?_, ?_⟩, hrem0.2, hdur⟩
  · simp only [hdur]
    exact Int.le_trans hrem0.2 h1
  · intro _
    simp only [hst]
    exact Int.le_trans hle hc
  · intro hr
    simp only [hr1] at hr
    exact absurd hr (by decide)

theorem ClockedTimer.reset_inv (t : Timer) (start_timer : Bool) (c now : Int)
    (hinv : ClockedTimer.Inv ⟨t, c⟩) :
    ClockedTimer.Inv ⟨t.reset start_timer now, now⟩ ∧
    (t.reset start_timer now).m_remaining = t.m_duration ∧
    (t.reset start_timer now).m_duration = t.m_duration := by
  obtain ⟨hrem, hdur, hst, hrs⟩ := Timer.reset_spec t start_timer now
  obtain ⟨h0, h1, _, _⟩ := hinv
  simp only at h0 h1
  refine ⟨⟨?_, ?_, ?_, hrs⟩, hrem, hdur⟩
  · simp only [hrem]
    exact Int.le_trans h0 h1
  · simp only [hrem, hdur]
    exact Int.le_refl _
  · intro hs
    simp only [hst hs]
    exact Int.le_refl _

theorem ClockedTimer.remaining_inv (ticks : Nat) (t t1 : Timer) (c now1 now2 : Int) (v : Nat)
    (hinv : ClockedTimer.Inv ⟨t, c⟩) (hc : c ≤ now1) (hnow : now1 ≤ now2)
    (h : t.remaining ticks now1 now2 = some (v, t1)) :
    ClockedTimer.Inv ⟨t1, now2⟩ ∧ t1.m_remaining ≤ t.m_remaining ∧
    t1.m_duration = t.m_duration ∧ v = Timer.to_millis ticks t1.m_remaining := by
  obtain ⟨hv, hcase⟩ := Timer.remaining_spec ticks t t1 now1 now2 v h
  rcases hcase with ⟨_, heq⟩ | ⟨_, t0, hstop, heq⟩
  · subst heq
    exact ⟨ClockedTimer.Inv_mono t1 c now2 hinv (Int.le_trans hc hnow), Int.le_refl _, rfl, hv⟩
  · obtain ⟨hinv0, hrem0, hdur0⟩ := ClockedTimer.stop_inv t t0 c now1 hinv hc hstop
    obtain ⟨hinv1, hrem1, hdur1⟩ := ClockedTimer.start_inv t0 now1 now2 hinv0 hnow
    subst heq
    refine ⟨hinv1, ?_, ?_, hv⟩
    · rw [hrem1]
      exact hrem0
    · rw [hdur1]
      exact hdur0

/-- A running timer that was started answers `remaining`. -/
theorem Timer.remaining_returns (ticks : Nat) (t : Timer) (now1 now2 : Int)
    (h : t.m_running = true → t.m_started = true) :
    ∃ v t1, t.remaining ticks now1 now2 = some (v, t1) := by
  unfold Timer.remaining Timer.stop
  cases hr : t.m_running
  · exact ⟨_, _, rfl⟩
  · simp only [h hr, if_true]
    exact ⟨_, _, rfl⟩

theorem ClockedTimer.step_inv (ticks : Nat) (w w1 : ClockedTimer) (call : TimerCall)
    (hinv : w.Inv) (h : w.step ticks call = some w1) :
    w1.Inv ∧ w1.timer.m_duration = w.timer.m_duration ∧
    (call.is_reset = false → w1.timer.m_remaining ≤ w.timer.m_remaining) ∧
    (call.is_reset = true → w1.timer.m_remaining = w.timer.m_duration) := by
  obtain ⟨t, c⟩ := w
  cases call with
  | start elapsed =>
    simp only [ClockedTimer.step, Option.some.injEq] at h
    subst h
    obtain ⟨hi, hrem, hdur⟩ :=
      ClockedTimer.start_inv t c (c + elapsed) hinv (by omega)
    exact ⟨hi, hdur, fun _ => Int.le_of_eq hrem, fun hr => by simp [TimerCall.is_reset] at hr⟩
  | stop elapsed =>
    simp only [ClockedTimer.step] at h
    cases hstop : t.stop (c + elapsed) with
    | none =>
      rw [hstop] at h
      simp at h
    | some t1 =>
      rw [hstop] at h
      simp only [Option.some.injEq] at h
      subst h
      obtain ⟨hi, hrem, hdur⟩ :=
        ClockedTimer.stop_inv t t1 c (c + elapsed) hinv (by omega) hstop
      exact ⟨hi, hdur, fun _ => hrem, fun hr => by simp [TimerCall.is_reset] at hr⟩
  | reset start_timer elapsed =>
    simp only [ClockedTimer.step, Option.some.injEq] at h
    subst h
    obtain ⟨hi, hrem, hdur⟩ := ClockedTimer.reset_inv t start_timer c (c + elapsed) hinv
    exact ⟨hi, hdur, fun hr => by simp [TimerCall.is_reset] at hr, fun _ => hrem⟩
  | remaining elapsed1 elapsed2 =>
    simp only [ClockedTimer.step] at h
    cases hrem : t.remaining ticks (c + elapsed1) (c + elapsed1 + elapsed2) with
    | none =>
      rw [hrem] at h
      simp at h
    | some r =>
      obtain ⟨v, t1⟩ := r
      rw [hrem] at h
      simp only [Option.some.injEq] at h
      subst h
      obtain ⟨hi, hle, hdur, _⟩ :=
        ClockedTimer.remaining_inv ticks t t1 c (c + elapsed1) (c + elapsed1 + elapsed2) v hinv
          (by omega) (by omega) hrem
      exact ⟨hi, hdur, fun _ => hle, fun hr => by simp [TimerCall.is_reset] at hr⟩
  | expired elapsed1 elapsed2 =>
    simp only [ClockedTimer.step, Timer.expired] at h
    cases hrem : t.remaining ticks (c + elapsed1) (c + elapsed1 + elapsed2) with
    | none =>
      rw [hrem] at h
      simp at h
    | some r =>
      obtain ⟨v, t1⟩ := r
      rw [hrem] at h
      simp only [Option.some.injEq] at h
      subst h
      obtain ⟨hi, hle, hdur, _⟩ :=
        ClockedTimer.remaining_inv ticks t t1 c (c + elapsed1) (c + elapsed1 + elapsed2) v hinv
          (by omega) (by omega) hrem
      exact ⟨hi, hdur, fun _ => hle, fun hr => by simp [TimerCall.is_reset] at hr⟩
  | is_running =>
    simp only [ClockedTimer.step, Option.some.injEq] at h
    subst h
    exact ⟨hinv, rfl, fun _ => Int.le_refl _, fun hr => by simp [TimerCall.is_reset] at hr⟩
  | duration =>
    simp only [ClockedTimer.step, Option.some.injEq] at h
    subst h
    exact ⟨hinv, rfl, fun _ => Int.le_refl _, fun hr => by simp [TimerCall.is_reset] at hr⟩

theorem ClockedTimer.run_inv (ticks : Nat) (calls : List TimerCall) :
    ∀ (w w1 : ClockedTimer), w.Inv → w.run ticks calls = some w1 →
      w1.Inv ∧ w1.timer.m_duration = w.timer.m_duration := by
  induction calls with
  | nil =>
    intro w w1 hinv h
    simp only [ClockedTimer.run, Option.some.injEq] at h
    subst h
    exact ⟨hinv, rfl⟩
  | cons call calls ih =>
    intro w w1 hinv h
    simp only [ClockedTimer.run] at h
    cases hstep : w.step ticks call with
    | none =>
      rw [hstep] at h
      simp at h
    | some w0 =>
      rw [hstep] at h
      obtain ⟨hi0, hdur0, _, _⟩ := ClockedTimer.step_inv ticks w w0 call hinv hstep
      obtain ⟨hi1, hdur1⟩ := ih w0 w1 hi0 h
      exact ⟨hi1, hdur1.trans hdur0⟩

theorem ClockedTimer.create_inv (ticks millis : Nat) (start_timer : Bool) (clock : Nat) :
    (ClockedTimer.create ticks millis start_timer clock).Inv ∧
    (ClockedTimer.create ticks millis start_timer clock).timer.m_duration =
      (millis : Int) * ticks ∧
    (ClockedTimer.create ticks millis start_timer clock).timer.m_remaining =
      (millis : Int) * ticks := by
  have hpos : (0 : Int) ≤ (millis : Int) * ticks :=
    Int.mul_nonneg (Int.ofNat_nonneg _) (Int.ofNat_nonneg _)
  cases start_timer
  · refine ⟨⟨hpos, Int.le_refl _, ?_, ?_⟩, rfl, rfl⟩
    · intro h
      exact absurd h Bool.false_ne_true
    · intro h
      exact absurd h Bool.false_ne_true
  · refine ⟨⟨hpos, Int.le_refl _, ?_, ?_⟩, rfl, rfl⟩
    · intro _
      exact Int.le_refl _
    · intro _
      rfl

/-- A duration of `millis` milliseconds counts `millis` milliseconds. -/
theorem Timer.to_millis_mul (ticks millis : Nat) (hticks : 1 ≤ ticks)
    (hmillis : millis < 2 ^ 32) :
    Timer.to_millis ticks ((millis : Int) * ticks) = millis := by
  unfold Timer.to_millis
  have hne : (ticks : Int) ≠ 0 := by omega
  rw [Int.tdiv_eq_ediv (Int.mul_nonneg (Int.ofNat_nonneg _) (Int.ofNat_nonneg _))
    (Int.ofNat_nonneg _), Int.mul_ediv_cancel _ hne]
  omega

/-! ### The timer under a non-decreasing clock -/

/-- C21: a timer of `millis` milliseconds that was created and then driven by any calls
under a non-decreasing clock has a remaining time between zero and its duration, which
is the configured one; `remaining` then answers, with a number of milliseconds that is
at most the configured one and at most the one of the remaining time before the call,
and it does not raise the remaining time; `stop` lowers the remaining time by the time
since the start, down to zero at most; and every call leaves the remaining time
non-negative, no call but `reset` raises it, and `reset` sets it to exactly the
duration. -/
theorem ClockedTimer.remaining_never_exceeds_duration (ticks millis : Nat)
    (start_timer : Bool) (clock : Nat) (calls : List TimerCall) (w : ClockedTimer)
    (hticks : 1 ≤ ticks) (hmillis : millis < 2 ^ 32)
    (hrun : (ClockedTimer.create ticks millis start_timer clock).run ticks calls = some w) :
    0 ≤ w.timer.m_remaining ∧ w.timer.m_remaining ≤ w.timer.m_duration ∧
    w.timer.m_duration = (millis : Int) * ticks ∧
    w.timer.duration ticks = millis ∧
    (∀ elapsed1 elapsed2 : Nat, ∃ (v : Nat) (t1 : Timer),
      w.timer.remaining ticks (w.clock + elapsed1) (w.clock + elapsed1 + elapsed2)
        = some (v, t1) ∧
      v ≤ w.timer.duration ticks ∧
      v ≤ Timer.to_millis ticks w.timer.m_remaining ∧
      v = Timer.to_millis ticks t1.m_remaining ∧
      0 ≤ t1.m_remaining ∧ t1.m_remaining ≤ w.timer.m_remaining) ∧
    (∀ (elapsed : Nat) (t1 : Timer), w.timer.stop (w.clock + elapsed) = some t1 →
      t1.m_remaining =
        max 0 (w.timer.m_remaining - (w.clock + elapsed - w.timer.start_time)) ∧
      t1.m_remaining ≤ w.timer.m_remaining) ∧
    (∀ (call : TimerCall) (w1 : ClockedTimer), w.step ticks call = some w1 →
      0 ≤ w1.timer.m_remaining ∧
      (call.is_reset = false → w1.timer.m_remaining ≤ w.timer.m_remaining) ∧
      (call.is_reset = true → w1.timer.m_remaining = w.timer.m_duration)) := by
  obtain ⟨hinv0, hdur0, _⟩ := ClockedTimer.create_inv ticks millis start_timer clock
  obtain ⟨hinv, hdur⟩ := ClockedTimer.run_inv ticks calls _ w hinv0 hrun
  have hd : w.timer.m_duration = (millis : Int) * ticks := hdur.trans hdur0
  have hduration : w.timer.duration ticks = millis := by
    unfold Timer.duration
    rw [hd]
    exact Timer.to_millis_mul ticks millis hticks hmillis
  obtain ⟨t, c⟩ := w
  have hinv1 := hinv
  obtain ⟨h0, h1, h2, h3⟩ := hinv1
  simp only at h0 h1 h2 h3 hd
  refine ⟨h0, h1, hd, hduration, ?_, ?_, ?_⟩
  · intro elapsed1 elapsed2
    obtain ⟨v, t1, hrem⟩ :=
      Timer.remaining_returns ticks t (c + elapsed1) (c + elapsed1 + elapsed2) h3
    obtain ⟨hi, hle, _, hv⟩ :=
      ClockedTimer.remaining_inv ticks t t1 c (c + elapsed1) (c + elapsed1 + elapsed2) v hinv
        (by omega) (by omega) hrem
    obtain ⟨hm1, hm2⟩ :=
      Timer.to_millis_le ticks millis hmillis t1.m_remaining t.m_remaining hi.1 hle
        (by rw [← hd]; exact h1)
    refine ⟨v, t1, hrem, ?_, ?_, hv, hi.1, hle⟩
    · rw [hduration, hv]
      exact Nat.le_trans hm1 hm2
    · rw [hv]
      exact hm1
  · intro elapsed t1 hstop
    obtain ⟨hs, _, _, _, _, hrem⟩ := Timer.stop_spec t t1 (c + elapsed) hstop
    have hle := h2 hs
    simp only
    rw [hrem]
    split
    · constructor
      · rw [max_eq_right (by omega)]
      · omega
    · constructor
      · rw [max_eq_left (by omega)]
      · omega
  · intro call w1 hstep
    obtain ⟨hi, _, hle, heq⟩ := ClockedTimer.step_inv ticks ⟨t, c⟩ w1 call hinv hstep
    exact ⟨hi.1, hle, heq⟩

/-- A timer of 5 milliseconds under a clock of 1000 ticks to the millisecond, started at
time 7, asked for the remaining time 1500 ticks later, and stopped twice 1000 ticks after
that: 1500 ticks remain of the 5000, and `remaining` answers 1. -/
theorem ClockedTimer.remaining_never_exceeds_duration_witness :
    (ClockedTimer.create 1000 5 true 7).run 1000
        [TimerCall.remaining 1500 0, TimerCall.stop 1000, TimerCall.stop 0] =
      some ⟨⟨1507, false, true, 5000, 1500⟩, 2507⟩ ∧
    (1500 : Int) ≤ 5000 ∧
    Timer.duration 1000 ⟨1507, false, true, 5000, 1500⟩ = 5 ∧
    Timer.remaining 1000 ⟨1507, false, true, 5000, 1500⟩ 2507 2507 =
      some (1, ⟨1507, false, true, 5000, 1500⟩) :=
  ⟨by decide,
    (ClockedTimer.remaining_never_exceeds_duration 1000 5 true 7
      [TimerCall.remaining 1500 0, TimerCall.stop 1000, TimerCall.stop 0]
      ⟨⟨1507, false, true, 5000, 1500⟩, 2507⟩ (by decide) (by decide) (by decide)).2.1,
    by decide, by decide⟩

end palo
